import Mathlib

/-! # Shopple cloud functions: scoring, filtering and aggregation

A shallow embedding of the scoring and aggregation logic of
`functions/index.js`, `functions/src/searchAnalytics.js` and
`functions/src/comprehensiveUserAnalytics.js`.

Conventions of the embedding:

* JavaScript strings are Lean strings; text processing works on their
  character lists.  `toLowerCase` is modelled on ASCII letters.
* JavaScript numbers are modelled by exact rationals where every value the
  code computes is finite, and by `JSNum` (rationals extended by `NaN` and the
  two infinities) where the code can leave the finite numbers.
* Firestore lookups are explicit inputs of the embedded functions: a handler
  takes the snapshot it would have fetched as an argument.
* `Array.prototype.sort` is stable (ECMAScript 2019), and is modelled by a
  stable insertion sort.
-/

namespace Shopple

/-! ## JavaScript string helpers -/

/-- JavaScript `String.prototype.toLowerCase`, on ASCII letters. -/
def toLowerCase (s : List Char) : List Char := s.map Char.toLower

/-- JavaScript `String.prototype.split(sep)` for a one-character separator: the pieces
between successive occurrences of `sep`, empty pieces included. -/
def splitOn (sep : Char) : List Char → List (List Char)
  | [] => [[]]
  | c :: cs =>
    match splitOn sep cs with
    | [] => [[]]
    | w :: ws => if c = sep then [] :: w :: ws else (c :: w) :: ws

/-- JavaScript `String.prototype.startsWith`. -/
def startsWith (s w : List Char) : Bool := w.isPrefixOf s

/-- JavaScript `String.prototype.includes`: `w` occurs in `s` as a contiguous substring. -/
def includes : List Char → List Char → Bool
  | [], w => w.isEmpty
  | c :: cs, w => startsWith (c :: cs) w || includes cs w

/-- The JavaScript idiom `field || dflt` on an optional string field: a missing
or empty field yields the default. -/
def strOr (field : Option String) (dflt : String) : String :=
  match field with
  | none => dflt
  | some s => if s = "" then dflt else s

/-- JavaScript truthiness of an optional string: present and not empty. -/
def truthy (s : Option String) : Bool :=
  match s with
  | none => false
  | some v => decide (v ≠ "")

/-! ## Products and the product search score (`index.js`) -/

/-- The fields of a `products` document that the search reads. -/
structure Product where
  id : String
  name : Option String := none
  brand_name : Option String := none
  brandName : Option String := none
  variety : Option String := none
  original_name : Option String := none
  category : Option String := none
deriving DecidableEq, Repr

/-- The words of a query as `calculateSearchScore` computes them:
`String(query).toLowerCase().split(' ').filter((w) => w.length > 0)`. -/
def queryWords (query : String) : List (List Char) :=
  (splitOn ' ' (toLowerCase query.toList)).filter (fun w => decide (w.length > 0))

/-- The body of the `for (const word of queryWords)` loop of
`calculateSearchScore`: the value of `fieldScore` at the end of one iteration. -/
def fieldScore (product : Product) (word : List Char) : ℚ :=
  let fieldScore : ℚ := 0
  let name := toLowerCase (strOr product.name "").toList
  let brand := toLowerCase (strOr product.brand_name (strOr product.brandName "")).toList
  let variety := toLowerCase (strOr product.variety "").toList
  let original := toLowerCase (strOr product.original_name "").toList
  let category := toLowerCase (strOr product.category "").toList
  let fieldScore := if includes name word then fieldScore + 1.0 else fieldScore
  let fieldScore := if includes brand word then fieldScore + 0.8 else fieldScore
  let fieldScore := if includes variety word then fieldScore + 0.6 else fieldScore
  let fieldScore := if includes original word then fieldScore + 0.5 else fieldScore
  let fieldScore := if includes category word then fieldScore + 0.3 else fieldScore
  fieldScore

/-- The function `calculateSearchScore(product, query)` of `index.js`. -/
def calculateSearchScore (product : Product) (query : String) : ℚ :=
  let words := queryWords query
  if words.length = 0 then 0
  else
    let totalScore := words.foldl (fun totalScore word => totalScore + fieldScore product word) 0
    totalScore / words.length

/-! ### The score as the specification words it -/

/-- The weight a field contributes for a word: `weight` when the lowercased
field contains the word, nothing otherwise; a missing field counts as empty. -/
def fieldWeight (weight : ℚ) (field : Option String) (word : List Char) : ℚ :=
  if includes (toLowerCase ((field.getD "").toList)) word then weight else 0

/-- The brand of a product: `brand_name`, or `brandName` when that is missing. -/
def brandOf (product : Product) : Option String :=
  some (strOr product.brand_name (strOr product.brandName ""))

/-- The per-word score of the specification: 1.0 for the name, 0.8 for the
brand, 0.6 for the variety, 0.5 for the original name, 0.3 for the category. -/
def specWordScore (product : Product) (word : List Char) : ℚ :=
  fieldWeight 1 product.name word + fieldWeight (8 / 10) (brandOf product) word
    + fieldWeight (6 / 10) product.variety word
    + fieldWeight (5 / 10) product.original_name word
    + fieldWeight (3 / 10) product.category word

/-- The average per-word score over a given word list. -/
def specAverageScore (product : Product) (words : List (List Char)) : ℚ :=
  (words.map (specWordScore product)).sum / words.length

/-- JavaScript white space that can occur inside a query: space, tab, line
feed, carriage return, vertical tab, form feed, no-break space. -/
def isWhitespace (c : Char) : Bool :=
  c = ' ' || c = '\t' || c = '\n' || c = '\r' || c = Char.ofNat 11 || c = Char.ofNat 12
    || c = Char.ofNat 160

/-- Splitting at every character that satisfies `p`. -/
def splitWhere (p : Char → Bool) : List Char → List (List Char)
  | [] => [[]]
  | c :: cs =>
    match splitWhere p cs with
    | [] => [[]]
    | w :: ws => if p c then [] :: w :: ws else (c :: w) :: ws

/-- The whitespace-delimited lowercase words of a query. -/
def whitespaceWords (query : String) : List (List Char) :=
  (splitWhere isWhitespace (toLowerCase query.toList)).filter (fun w => decide (w.length > 0))

/-- The space-delimited lowercase words of a query. -/
def spaceWords (query : String) : List (List Char) :=
  (splitWhere (fun c => c = ' ') (toLowerCase query.toList)).filter
    (fun w => decide (w.length > 0))

/-- The product of the specification's end-to-end example. -/
def amulButter : Product :=
  { id := "p1", name := some "Amul Butter", brand_name := some "Amul", category := some "dairy" }

/-! ## JavaScript numbers that can leave the finite values -/

/-- A JavaScript number over the exact field `α`: a finite value, one of the
two infinities, or `NaN`. -/
inductive JSNum (α : Type) where
  | num (x : α)
  | posInf
  | negInf
  | nan
deriving DecidableEq, Repr

namespace JSNum

variable {α : Type} [LinearOrderedField α]

/-- Reading a numeric property: a missing property is `undefined`, which
arithmetic turns into `NaN`. -/
def ofProperty (x : Option α) : JSNum α :=
  match x with
  | some v => num v
  | none => nan

/-- JavaScript `+` on numbers. -/
def add : JSNum α → JSNum α → JSNum α
  | num a, num b => num (a + b)
  | nan, _ => nan
  | _, nan => nan
  | posInf, negInf => nan
  | negInf, posInf => nan
  | posInf, _ => posInf
  | _, posInf => posInf
  | negInf, _ => negInf
  | _, negInf => negInf

/-- The infinity of the given sign, `NaN` for sign zero. -/
def infOfSign (s : α) : JSNum α :=
  if s > 0 then posInf else if s < 0 then negInf else nan

/-- JavaScript `*` on numbers. -/
def mul : JSNum α → JSNum α → JSNum α
  | num a, num b => num (a * b)
  | nan, _ => nan
  | _, nan => nan
  | posInf, num b => infOfSign b
  | negInf, num b => infOfSign (-b)
  | num a, posInf => infOfSign a
  | num a, negInf => infOfSign (-a)
  | posInf, posInf => posInf
  | negInf, negInf => posInf
  | posInf, negInf => negInf
  | negInf, posInf => negInf

/-- JavaScript `/` on numbers: a finite non-zero value divided by zero is an
infinity, zero divided by zero is `NaN`. -/
def div : JSNum α → JSNum α → JSNum α
  | num a, num b => if b = 0 then infOfSign a else num (a / b)
  | nan, _ => nan
  | _, nan => nan
  | num _, posInf => num 0
  | num _, negInf => num 0
  | posInf, num b => if b < 0 then negInf else posInf
  | negInf, num b => if b < 0 then posInf else negInf
  | posInf, posInf => nan
  | posInf, negInf => nan
  | negInf, posInf => nan
  | negInf, negInf => nan

/-- JavaScript `Math.min` of two numbers: `NaN` as soon as an argument is `NaN`. -/
def min : JSNum α → JSNum α → JSNum α
  | nan, _ => nan
  | _, nan => nan
  | negInf, _ => negInf
  | _, negInf => negInf
  | posInf, b => b
  | a, posInf => a
  | num a, num b => num (Min.min a b)

/-- JavaScript `<`: false as soon as an operand is `NaN`. -/
def lt : JSNum α → JSNum α → Bool
  | num a, num b => decide (a < b)
  | nan, _ => false
  | _, nan => false
  | negInf, negInf => false
  | negInf, _ => true
  | _, negInf => false
  | posInf, _ => false
  | _, posInf => true

end JSNum

/-- JavaScript `Math.round`: the nearest integer, halves rounded up; `NaN` and the
infinities are returned unchanged. -/
def JSNum.round : JSNum ℚ → JSNum ℚ
  | JSNum.num x => JSNum.num (⌊x + 1 / 2⌋ : ℤ)
  | v => v

/-! ## Insertion-ordered maps (JavaScript `Map`) -/

/-- A JavaScript `Map`: its entries in insertion order, keys pairwise distinct. -/
abbrev JSMap (κ ν : Type) := List (κ × ν)

/-- JavaScript `Map.prototype.get`. -/
def JSMap.get {κ ν : Type} [DecidableEq κ] : JSMap κ ν → κ → Option ν
  | [], _ => none
  | (k', v) :: m, k => if k' = k then some v else JSMap.get m k

/-- JavaScript `Map.prototype.set`: an existing key keeps its position and takes the new
value, a new key is appended. -/
def JSMap.set {κ ν : Type} [DecidableEq κ] : JSMap κ ν → κ → ν → JSMap κ ν
  | [], k, v => [(k, v)]
  | (k', v') :: m, k, v => if k' = k then (k', v) :: m else (k', v') :: JSMap.set m k v

/-- JavaScript `Map.prototype.delete`. -/
def JSMap.delete {κ ν : Type} [DecidableEq κ] (m : JSMap κ ν) (k : κ) : JSMap κ ν :=
  m.filter (fun e => decide (e.1 ≠ k))

/-- JavaScript `Map.prototype.size`. -/
def JSMap.size {κ ν : Type} (m : JSMap κ ν) : Nat := m.length

/-! ## Person search: privacy filter (`index.js`) -/

/-- The `privacy` field of a `users` document.  A flag that is absent (or not
a boolean) is `none`. -/
structure Privacy where
  isFullyPrivate : Option Bool := none
  searchableByName : Option Bool := none
  searchableByEmail : Option Bool := none
  searchableByPhone : Option Bool := none
deriving DecidableEq, Repr

/-- A person-search candidate `{uid: doc.id, ...doc.data()}`.  The `users`
documents are keyed by user id and carry the profile fields below; the
identifier of a candidate is the id of the document it was built from. -/
structure UserResult where
  uid : String
  firstName : Option String := none
  lastName : Option String := none
  displayName : Option String := none
  email : Option String := none
  phoneNumber : Option String := none
deriving DecidableEq, Repr

/-- The `users` collection as the privacy filter sees it.  `privacyDoc uid` is
`none` when there is no document `users/uid`, and otherwise the `privacy` field
of that document (`none` when the field is missing).  `lookupFails ids` tells
whether the batched query for `ids` throws. -/
structure UserStore where
  privacyDoc : String → Option (Option Privacy)
  lookupFails : List String → Bool

/-- The snapshot of
`users.where(documentId(), 'in', batchIds).select('privacy').get()`: one entry
per existing document whose id is in the batch. -/
def privacySnapshot (store : UserStore) (batchIds : List String) :
    List (String × Option Privacy) :=
  batchIds.dedup.filterMap (fun id => (store.privacyDoc id).map (fun p => (id, p)))

/-- The batch loop of `filterByPrivacySettings`,
`for (let i = 0; i < userIds.length; i += 10)`, on the ids from position `i`
on: each batch of ten ids is fetched and its documents are entered in
`privacyMap` as `doc.data().privacy || {}`.  `none` when a query throws. -/
def fetchPrivacyMap (store : UserStore) :
    List String → JSMap String Privacy → Option (JSMap String Privacy)
  | [], privacyMap => some privacyMap
  | id :: ids, privacyMap =>
    let batchIds := (id :: ids).take 10
    if store.lookupFails batchIds then none
    else
      fetchPrivacyMap store (ids.drop 9)
        ((privacySnapshot store batchIds).foldl
          (fun m doc => JSMap.set m doc.1 (doc.2.getD {})) privacyMap)
termination_by ids => ids.length
decreasing_by
  simp only [List.length_drop, List.length_cons]
  omega

/-- The callback of `results.filter` in `filterByPrivacySettings`. -/
def privacyKeeps (privacyMap : JSMap String Privacy) (queryType : Option String)
    (currentUserId : String) (result : UserResult) : Bool :=
  let uid := result.uid
  if uid = currentUserId then true
  else
    let privacy := (JSMap.get privacyMap uid).getD {}
    if privacy.isFullyPrivate = some true then false
    else if queryType = some "name" ∨ queryType = some "partial" then
      decide (privacy.searchableByName ≠ some false)
    else if queryType = some "email" then decide (privacy.searchableByEmail ≠ some false)
    else if queryType = some "phone" then decide (privacy.searchableByPhone ≠ some false)
    else if queryType = some "mixed" then
      decide (privacy.searchableByName ≠ some false) ||
        decide (privacy.searchableByEmail ≠ some false) ||
        decide (privacy.searchableByPhone ≠ some false)
    else true

/-- The function `filterByPrivacySettings(results, queryType, currentUserId)` of `index.js`.
`queryType` is `none` when the request carries no query type. -/
def filterByPrivacySettings (store : UserStore) (results : List UserResult)
    (queryType : Option String) (currentUserId : String) : List UserResult :=
  if results.length = 0 then results
  else
    let userIds := (results.map (fun r => r.uid)).filter
      (fun id => decide (id ≠ "") && decide (id ≠ currentUserId))
    if userIds.length = 0 then results
    else
      match fetchPrivacyMap store userIds [] with
      | none => results
      | some privacyMap => results.filter (privacyKeeps privacyMap queryType currentUserId)

/-! ### The visibility rule as the specification words it -/

/-- The privacy record of a user: the `privacy` field of the user's document,
with every flag absent when the document or the field is missing. -/
def privacyRecord (store : UserStore) (uid : String) : Privacy :=
  match store.privacyDoc uid with
  | some (some p) => p
  | _ => {}

/-- A flag is searchable unless it is explicitly `false`. -/
def notFalse (flag : Option Bool) : Bool :=
  match flag with
  | some false => false
  | _ => true

/-- The per-type rule of the specification. -/
def typeRule (p : Privacy) (queryType : String) : Bool :=
  if queryType = "name" ∨ queryType = "partial" then notFalse p.searchableByName
  else if queryType = "email" then notFalse p.searchableByEmail
  else if queryType = "phone" then notFalse p.searchableByPhone
  else notFalse p.searchableByName || notFalse p.searchableByEmail || notFalse p.searchableByPhone

/-- A candidate is visible when it is the requester, or is not flagged fully
private and passes the per-type rule. -/
def specVisible (store : UserStore) (queryType : String) (currentUserId : String)
    (r : UserResult) : Bool :=
  decide (r.uid = currentUserId) ||
    (!decide ((privacyRecord store r.uid).isFullyPrivate = some true) &&
      typeRule (privacyRecord store r.uid) queryType)

/-- The query types the privacy filter distinguishes. -/
def knownQueryTypes : List String := ["name", "partial", "email", "phone", "mixed"]

/-- A store with one fully private user, one user hidden from name search and
one user without privacy settings; its lookups succeed. -/
def sampleStore : UserStore where
  privacyDoc := fun uid =>
    if uid = "u1" then some (some { isFullyPrivate := some true })
    else if uid = "u2" then some (some { searchableByName := some false })
    else if uid = "u3" then some none
    else none
  lookupFails := fun _ => false

/-- Three candidates of `sampleStore` and one without a document. -/
def sampleCandidates : List UserResult :=
  [{ uid := "u1", firstName := some "Ann" }, { uid := "u2", firstName := some "Anna" },
    { uid := "u3", firstName := some "Anne" }, { uid := "u4", firstName := some "Annie" }]

/-! ## Person search: scores and ranking (`index.js`) -/

/-- A stable sort in descending order of the key `f`: what
`array.sort((a, b) => f(b) - f(a))` does. -/
def sortByDesc {α β : Type} [LinearOrder β] (f : α → β) (l : List α) : List α :=
  l.insertionSort (fun a b => f a ≥ f b)

/-- The guard `field && field.toLowerCase().includes(queryLower)`. -/
def fieldIncludes (field : Option String) (queryLower : List Char) : Bool :=
  truthy field && includes (toLowerCase (field.getD "").toList) queryLower

/-- The guard `field && field.toLowerCase().startsWith(queryLower)`. -/
def fieldStartsWith (field : Option String) (queryLower : List Char) : Bool :=
  truthy field && startsWith (toLowerCase (field.getD "").toList) queryLower

/-- The function `calculateMatchScore(result, query)`: the score `rankResults` sorts by. -/
def calculateMatchScore (result : UserResult) (query : String) : Nat :=
  let score := 0
  let queryLower := toLowerCase query.toList
  let fullName := toLowerCase
    ((strOr result.firstName "").toList ++ [' '] ++ (strOr result.lastName "").toList)
  let score := if includes fullName queryLower then score + 10 else score
  let score := if fieldIncludes result.firstName queryLower then score + 8 else score
  let score := if fieldIncludes result.lastName queryLower then score + 6 else score
  let score := if fieldIncludes result.email queryLower then score + 7 else score
  let score := if fieldIncludes result.displayName queryLower then score + 5 else score
  score

/-- The function `rankResults(results, query)`. -/
def rankResults (results : List UserResult) (query : String) : List UserResult :=
  sortByDesc (fun r => calculateMatchScore r query) results

/-- The function `calculateInstantMatchScore(userData, query)`: prefix weights 100/90/85/80
and substring weights 50/45/40/35 for first name, last name, display name and
email. -/
def calculateInstantMatchScore (userData : UserResult) (query : String) : Nat :=
  let score := 0
  let queryLower := toLowerCase query.toList
  let score := if fieldStartsWith userData.firstName queryLower then score + 100 else score
  let score := if fieldStartsWith userData.lastName queryLower then score + 90 else score
  let score := if fieldStartsWith userData.displayName queryLower then score + 85 else score
  let score := if fieldStartsWith userData.email queryLower then score + 80 else score
  let score := if fieldIncludes userData.firstName queryLower then score + 50 else score
  let score := if fieldIncludes userData.lastName queryLower then score + 45 else score
  let score := if fieldIncludes userData.displayName queryLower then score + 40 else score
  let score := if fieldIncludes userData.email queryLower then score + 35 else score
  score

/-- The function `calculateTurboMatchScore(userData, query)`: the score of the ultra-short
path, with its early returns. -/
def calculateTurboMatchScore (userData : UserResult) (query : String) : ℚ :=
  let queryLower := toLowerCase query.toList
  let score : ℚ := 0.5
  if fieldStartsWith userData.firstName queryLower then 1.0
  else
    let score := if fieldIncludes userData.firstName queryLower then 0.85 else score
    if truthy userData.lastName = true ∧ score < 0.95 ∧
        fieldStartsWith userData.lastName queryLower = true then 0.95
    else
      let score :=
        if truthy userData.lastName = true ∧ score < 0.95 ∧
            fieldIncludes userData.lastName queryLower = true then max score 0.8
        else score
      let score :=
        if truthy userData.displayName = true ∧ score < 0.9 then
          if fieldStartsWith userData.displayName queryLower then max score 0.9
          else if fieldIncludes userData.displayName queryLower then max score 0.75
          else score
        else score
      let score :=
        if truthy userData.email = true ∧
            (includes queryLower ['@'] = true ∨ query.length > 2) then
          if fieldStartsWith userData.email queryLower then max score 0.88 else score
        else score
      score

/-- The person match score of section 4.1 of the specification: the turbo score
on the ultra-short path, the prefix/substring field weights otherwise. -/
def section41Score (ultraShort : Bool) (r : UserResult) (query : String) : ℚ :=
  if ultraShort then calculateTurboMatchScore r query
  else (calculateInstantMatchScore r query : ℚ)

/-- The privacy step of `advancedUserSearchV2`:
`if (applyPrivacyFilter && results.length > 0) results = await filterByPrivacySettings(...)`. -/
def privacyStep (store : UserStore) (results : List UserResult) (queryType : Option String)
    (currentUserId : String) (applyPrivacyFilter : Bool) : List UserResult :=
  if applyPrivacyFilter = true ∧ results.length > 0 then
    filterByPrivacySettings store results queryType currentUserId
  else results

/-- The steps of `advancedUserSearchV2` after the lookup: privacy filter,
`rankResults`, `results.slice(0, limit)`.  `searchResults` is what the selected
search function returned; `limit` is a natural number. -/
def advancedUserSearchV2 (store : UserStore) (searchResults : List UserResult)
    (query : String) (queryType : Option String) (limit : Nat) (applyPrivacyFilter : Bool)
    (currentUserId : String) : List UserResult :=
  let results := privacyStep store searchResults queryType currentUserId applyPrivacyFilter
  let results := rankResults results query
  results.take limit

/-- A store without privacy settings whose lookups succeed. -/
def openStore : UserStore where
  privacyDoc := fun _ => none
  lookupFails := fun _ => false

/-- A candidate found through the e-mail address. -/
def annByEmail : UserResult := { uid := "a", firstName := some "Bob", email := some "ann@x.com" }

/-- A candidate found through the display name. -/
def annieByDisplayName : UserResult := { uid := "b", displayName := some "annie" }

/-! ## Person search: merging lookup results (`index.js`) -/

/-- A `users` document as a lookup returns it: its id and profile fields.  The
documents are keyed by user id; the data is taken to carry no `uid` field of its
own, so that the `uid` of the entry built from a document is the document id. -/
structure UserDoc where
  id : String
  firstName : Option String := none
  lastName : Option String := none
  displayName : Option String := none
  email : Option String := none
  phoneNumber : Option String := none
deriving DecidableEq, Repr

/-- The entry `{uid: doc.id, ...doc.data()}` pushed for a document. -/
def UserDoc.toResult (doc : UserDoc) : UserResult :=
  { uid := doc.id, firstName := doc.firstName, lastName := doc.lastName,
    displayName := doc.displayName, email := doc.email, phoneNumber := doc.phoneNumber }

/-- The body of `snapshot.forEach` in the merge loops: a document whose id is
not in `seenIds` is recorded there and pushed on `results`.  The accumulator is
`(results, seenIds)`. -/
def mergeDoc (acc : List UserResult × List String) (doc : UserDoc) :
    List UserResult × List String :=
  if doc.id ∈ acc.2 then acc else (acc.1 ++ [doc.toResult], acc.2 ++ [doc.id])

/-- The merge at the end of `searchByNameOptimized`: the snapshots of the
`firstName`, `lastName` and `displayName` queries are merged without
duplicates, and the first `limit` results returned. -/
def searchByNameOptimized (snapshots : List (List UserDoc)) (limit : Nat) : List UserResult :=
  let acc := snapshots.foldl (fun acc snapshot => snapshot.foldl mergeDoc acc) ([], [])
  acc.1.take limit

/-- The merge at the end of `searchByEmailOptimized`, over the snapshots of the
e-mail queries. -/
def searchByEmailOptimized (snapshots : List (List UserDoc)) (limit : Nat) : List UserResult :=
  let acc := snapshots.foldl (fun acc snapshot => snapshot.foldl mergeDoc acc) ([], [])
  acc.1.take limit

/-- The merge at the end of `searchByPhoneOptimized`, over the snapshots of the
phone-number queries. -/
def searchByPhoneOptimized (snapshots : List (List UserDoc)) (limit : Nat) : List UserResult :=
  let acc := snapshots.foldl (fun acc snapshot => snapshot.foldl mergeDoc acc) ([], [])
  acc.1.take limit

/-- The first occurrence of each document identity, in order of appearance. -/
def firstOccurrences : List UserDoc → List UserDoc
  | [] => []
  | d :: ds => d :: (firstOccurrences ds).filter (fun e => decide (e.id ≠ d.id))

/-- The merge of the specification: concatenate the result sets in input
order, keep the first occurrence of each identity, return the first `limit`. -/
def specMerge (snapshots : List (List UserDoc)) (limit : Nat) : List UserResult :=
  ((firstOccurrences snapshots.flatten).map UserDoc.toResult).take limit

/-! ## Budget alerts (`budgetTrackingOnItemComplete`, `index.js`) -/

/-- An entry of the `alerts` array of a budget alert document; the message
text, which is formatted from the same numbers, is left out. -/
structure BudgetAlert where
  type : String
  threshold : Nat
  utilization : ℚ
deriving DecidableEq, Repr

/-- The alert check of `budgetTrackingOnItemComplete`: the `alerts` array built
from the list budget, the list owner, the recomputed `totalSpent` and the total
of the item just completed. -/
def budgetAlerts (budget : ℚ) (ownerId : Option String) (totalSpent itemTotal : ℚ) :
    List BudgetAlert :=
  if budget > 0 ∧ truthy ownerId = true then
    let utilization := totalSpent / budget
    let previousTotal := totalSpent - itemTotal
    let previousUtil := previousTotal / budget
    if utilization ≥ 1.0 ∧ previousUtil < 1.0 then
      [{ type := "exceeded", threshold := 100, utilization := utilization }]
    else if utilization ≥ 0.9 ∧ previousUtil < 0.9 then
      [{ type := "near_limit", threshold := 90, utilization := utilization }]
    else if utilization ≥ 0.75 ∧ previousUtil < 0.75 then
      [{ type := "warning", threshold := 75, utilization := utilization }]
    else []
  else []

/-- Threshold `t` percent is newly crossed when the previous utilization is
below it and the current utilization has reached it. -/
def newlyCrossed (t : ℚ) (previousUtilization utilization : ℚ) : Prop :=
  previousUtilization < t / 100 ∧ t / 100 ≤ utilization

/-- The alert list holds an alert of the given type and threshold. -/
def emits (alerts : List BudgetAlert) (type : String) (threshold : Nat) : Prop :=
  ∃ a ∈ alerts, a.type = type ∧ a.threshold = threshold

/-! ## Behaviour analytics (`comprehensiveUserAnalytics.js`) -/

/-- JavaScript `String.prototype.trim`: white space removed at both ends. -/
def trim (s : List Char) : List Char :=
  ((s.dropWhile isWhitespace).reverse.dropWhile isWhitespace).reverse

/-- The function `isValidBrand(brandName)`: a string whose trimmed lowercase form has more
than one character and is not one of the placeholder values. -/
def isValidBrand (brandName : Option String) : Bool :=
  match brandName with
  | none => false
  | some b =>
    if b = "" then false
    else
      let normalizedBrand := trim (toLowerCase b.toList)
      let invalidBrands : List (List Char) :=
        ["n/a".toList, "none".toList, "null".toList, "undefined".toList, "".toList,
          "no brand".toList, "generic".toList]
      decide (normalizedBrand.length > 1) && !(invalidBrands.contains normalizedBrand)

/-- An entry of `viewedProducts[productId].interactions`. -/
structure Interaction where
  type : Option String
  timestamp : Int
  data : Option String
deriving DecidableEq, Repr

/-- An entry of `productBehavior.viewedProducts`.  `lastViewed` is the ISO
string of the event time, kept as milliseconds since the epoch.  `timeSpent`
is the property of that name, which `calculatePurchaseIntentScores` reads; it is
`none` when the entry has no such property. -/
structure ViewedProduct where
  viewCount : Nat := 0
  totalTimeSpent : ℚ := 0
  lastViewed : Option Int := none
  interactions : List Interaction := []
  category : Option String := none
  brand : Option String := none
  timeSpent : Option ℚ := none
deriving DecidableEq, Repr

/-- An entry of `productBehavior.productCategories`. -/
structure CategoryStats where
  viewCount : Nat := 0
  timeSpent : ℚ := 0
  interestScore : ℚ := 0
deriving DecidableEq, Repr

/-- An entry of `productBehavior.brands`. -/
structure BrandStats where
  viewCount : Nat := 0
  timeSpent : ℚ := 0
  loyaltyScore : ℚ := 0
deriving DecidableEq, Repr

/-- An entry of `productBehavior.priceInteractions`. -/
structure PriceInteraction where
  priceChecks : Nat := 0
  priceAlerts : Nat := 0
  compareClicks : Nat := 0
  lastPriceCheck : Option Int := none
deriving DecidableEq, Repr

/-- An entry of `searchBehavior.searchQueries`. -/
structure SearchQueryStats where
  count : Nat := 0
  lastSearched : Option Int := none
  avgResultClicks : ℚ := 0
  totalResultClicks : ℚ := 0
deriving DecidableEq, Repr

/-- The `searchBehavior` block. -/
structure SearchBehavior where
  totalSearches : Nat := 0
  searchQueries : JSMap String SearchQueryStats := []
  timeOfDay : JSMap Nat Nat := []
  dayOfWeek : JSMap Nat Nat := []
  searchDuration : List ℚ := []
  queryLength : List Nat := []
  searchToClickRate : ℚ := 0
  averageResultsViewed : ℚ := 0
deriving DecidableEq, Repr

/-- The `productBehavior` block. -/
structure ProductBehavior where
  viewedProducts : JSMap String ViewedProduct := []
  productCategories : JSMap String CategoryStats := []
  brands : JSMap String BrandStats := []
  priceInteractions : JSMap String PriceInteraction := []
  viewToCartConversion : ℚ := 0
  averageSessionDuration : ℚ := 0
deriving DecidableEq, Repr

/-- The `temporalPatterns` block. -/
structure TemporalPatterns where
  mostActiveHours : JSMap Nat Nat := []
  mostActiveDays : JSMap Nat Nat := []
  sessionLengths : List ℚ := []
  interSessionGaps : List ℚ := []
deriving DecidableEq, Repr

/-- The `purchaseIntent` block: the intent score stored for each product. -/
structure PurchaseIntent where
  highIntentProducts : JSMap String (JSNum ℚ) := []
deriving DecidableEq, Repr

/-- The raw counters of `comprehensiveAnalytics` and the purchase-intent block
derived from them. -/
structure ComprehensiveAnalytics where
  searchBehavior : SearchBehavior := {}
  productBehavior : ProductBehavior := {}
  temporalPatterns : TemporalPatterns := {}
  purchaseIntent : PurchaseIntent := {}
deriving DecidableEq, Repr

/-- The structure `updateComprehensiveUserAnalytics` starts from when the user
document has no `comprehensiveAnalytics` yet. -/
def initialAnalytics : ComprehensiveAnalytics := {}

/-- The `interactionData` of a behaviour event. -/
structure InteractionData where
  type : Option String := none
  data : Option String := none
deriving DecidableEq, Repr

/-- A behaviour event as `processEventForAnalytics` receives it. -/
structure EventData where
  eventType : String
  productId : Option String := none
  searchQuery : Option String := none
  timeSpent : Option ℚ := none
  interactionData : Option InteractionData := none
deriving DecidableEq, Repr

/-- The reading of `new Date()` while an event is processed: milliseconds
since the epoch, and the local hour, day of week and month. -/
structure Clock where
  nowMs : Int
  hour : Nat
  dayOfWeek : Nat
  month : Nat
deriving DecidableEq, Repr

/-- What `getProductData` returns for a product document. -/
structure ProductData where
  category : Option String := none
  brand_name : Option String := none
deriving DecidableEq, Repr

/-- The counter idiom `m[k] = (m[k] || 0) + 1`. -/
def increment {κ : Type} [DecidableEq κ] (m : JSMap κ Nat) (k : κ) : JSMap κ Nat :=
  JSMap.set m k ((JSMap.get m k).getD 0 + 1)

/-- The `search` case of `processEventForAnalytics`. -/
def processSearchEvent (clock : Clock) (analytics : ComprehensiveAnalytics)
    (searchQuery : Option String) : ComprehensiveAnalytics :=
  let sb := analytics.searchBehavior
  let sb := { sb with totalSearches := sb.totalSearches + 1 }
  let sb :=
    if truthy searchQuery = true then
      let q := searchQuery.getD ""
      let queryKey := String.mk (trim (toLowerCase q.toList))
      let entry := (JSMap.get sb.searchQueries queryKey).getD
        { count := 0, lastSearched := none, avgResultClicks := 0, totalResultClicks := 0 }
      let entry := { entry with count := entry.count + 1, lastSearched := some clock.nowMs }
      { sb with
        searchQueries := JSMap.set sb.searchQueries queryKey entry
        timeOfDay := increment sb.timeOfDay clock.hour
        dayOfWeek := increment sb.dayOfWeek clock.dayOfWeek
        queryLength :=
          if q.length > 0 then sb.queryLength ++ [q.length] else sb.queryLength }
    else sb
  { analytics with searchBehavior := sb }

/-- The entry of `viewedProducts` after a view: the existing entry, or a fresh
one carrying the category and brand of the product, with the view counted, the
time added, `lastViewed` set and the interaction recorded. -/
def viewedProductAfter (productData : Option ProductData) (clock : Clock)
    (existing : Option ViewedProduct) (timeSpent : Option ℚ)
    (interactionData : Option InteractionData) : ViewedProduct :=
  let productView := existing.getD
    { viewCount := 0, totalTimeSpent := 0, lastViewed := none, interactions := [],
      category := productData.bind (fun d => d.category),
      brand := productData.bind (fun d => d.brand_name) }
  { productView with
    viewCount := productView.viewCount + 1
    totalTimeSpent := productView.totalTimeSpent + timeSpent.getD 0
    lastViewed := some clock.nowMs
    interactions :=
      match interactionData with
      | some d =>
        productView.interactions ++ [{ type := d.type, timestamp := clock.nowMs, data := d.data }]
      | none => productView.interactions }

/-- The `product_view` case of `processEventForAnalytics`, for a truthy
`productId`; `getProductData` is the lookup `catalog`. -/
def processProductView (catalog : String → Option ProductData) (clock : Clock)
    (analytics : ComprehensiveAnalytics) (productId : String) (timeSpent : Option ℚ)
    (interactionData : Option InteractionData) : ComprehensiveAnalytics :=
  let productData := catalog productId
  let pb := analytics.productBehavior
  let productView := viewedProductAfter productData clock
    (JSMap.get pb.viewedProducts productId) timeSpent interactionData
  let pb := { pb with viewedProducts := JSMap.set pb.viewedProducts productId productView }
  let pb :=
    if truthy (productData.bind (fun d => d.category)) = true then
      let category := (productData.bind (fun d => d.category)).getD ""
      let stats := (JSMap.get pb.productCategories category).getD
        { viewCount := 0, timeSpent := 0, interestScore := 0 }
      let stats := { stats with
        viewCount := stats.viewCount + 1, timeSpent := stats.timeSpent + timeSpent.getD 0 }
      { pb with productCategories := JSMap.set pb.productCategories category stats }
    else pb
  let pb :=
    if truthy (productData.bind (fun d => d.brand_name)) = true ∧
        isValidBrand (productData.bind (fun d => d.brand_name)) = true then
      let brand := (productData.bind (fun d => d.brand_name)).getD ""
      let stats := (JSMap.get pb.brands brand).getD
        { viewCount := 0, timeSpent := 0, loyaltyScore := 0 }
      let stats := { stats with
        viewCount := stats.viewCount + 1, timeSpent := stats.timeSpent + timeSpent.getD 0 }
      { pb with brands := JSMap.set pb.brands brand stats }
    else pb
  { analytics with productBehavior := pb }

/-- The `price_check` case of `processEventForAnalytics`, for a truthy
`productId`. -/
def processPriceCheck (clock : Clock) (analytics : ComprehensiveAnalytics)
    (productId : String) : ComprehensiveAnalytics :=
  let pb := analytics.productBehavior
  let entry := (JSMap.get pb.priceInteractions productId).getD
    { priceChecks := 0, priceAlerts := 0, compareClicks := 0, lastPriceCheck := none }
  let entry := { entry with
    priceChecks := entry.priceChecks + 1, lastPriceCheck := some clock.nowMs }
  { analytics with
    productBehavior := { pb with
      priceInteractions := JSMap.set pb.priceInteractions productId entry } }

/-- The function `calculateConversionRate(analytics)`: a placeholder that returns 0. -/
def calculateConversionRate (_analytics : ComprehensiveAnalytics) : ℚ := 0

/-- The function `processEventForAnalytics(analytics, eventData)`: the `switch` on the event
type, followed by the update of the temporal patterns. -/
def processEventForAnalytics (catalog : String → Option ProductData) (clock : Clock)
    (analytics : ComprehensiveAnalytics) (eventData : EventData) : ComprehensiveAnalytics :=
  let analytics :=
    if eventData.eventType = "search" then
      processSearchEvent clock analytics eventData.searchQuery
    else if eventData.eventType = "product_view" then
      if truthy eventData.productId = true then
        processProductView catalog clock analytics (eventData.productId.getD "")
          eventData.timeSpent eventData.interactionData
      else analytics
    else if eventData.eventType = "price_check" then
      if truthy eventData.productId = true then
        processPriceCheck clock analytics (eventData.productId.getD "")
      else analytics
    else if eventData.eventType = "add_to_cart" then
      { analytics with
        productBehavior := { analytics.productBehavior with
          viewToCartConversion := calculateConversionRate analytics } }
    else analytics
  { analytics with
    temporalPatterns := { analytics.temporalPatterns with
      mostActiveHours := increment analytics.temporalPatterns.mostActiveHours clock.hour
      mostActiveDays := increment analytics.temporalPatterns.mostActiveDays clock.dayOfWeek } }

/-- The intent score `calculatePurchaseIntentScores` computes for one entry of
`viewedProducts`, before it is stored: the body of the `forEach` callback.
`now` is `Date.now()` in milliseconds. -/
def intentScore (now : Int) (priceInteractions : JSMap String PriceInteraction)
    (productId : String) (data : ViewedProduct) : JSNum ℚ :=
  let intentScore : JSNum ℚ := JSNum.num 0
  let intentScore := JSNum.add intentScore
    (JSNum.min (JSNum.num 40) (JSNum.num ((data.viewCount : ℚ) * 8)))
  let intentScore := JSNum.add intentScore
    (JSNum.min (JSNum.num 30)
      (JSNum.div (JSNum.div (JSNum.ofProperty data.timeSpent) (JSNum.num 1000)) (JSNum.num 10)))
  let intentScore :=
    match data.lastViewed with
    | some lastViewed =>
      let daysSinceViewed : ℚ := ((now - lastViewed : Int) : ℚ) / (1000 * 60 * 60 * 24)
      if daysSinceViewed < 1 then JSNum.add intentScore (JSNum.num 20)
      else if daysSinceViewed < 7 then JSNum.add intentScore (JSNum.num 10)
      else intentScore
    | none => intentScore
  let intentScore :=
    match JSMap.get priceInteractions productId with
    | some interactions =>
      JSNum.add intentScore
        (JSNum.min (JSNum.num 10) (JSNum.num ((interactions.priceChecks : ℚ) * 5)))
    | none => intentScore
  JSNum.min (JSNum.num 100) (JSNum.round intentScore)

/-- The function `calculatePurchaseIntentScores(analytics)`: a fresh `highIntentProducts`
with one score per entry of `viewedProducts`. -/
def calculatePurchaseIntentScores (now : Int) (analytics : ComprehensiveAnalytics) :
    PurchaseIntent :=
  { analytics.purchaseIntent with
    highIntentProducts :=
      analytics.productBehavior.viewedProducts.foldl
        (fun highIntentProducts entry =>
          JSMap.set highIntentProducts entry.1
            (intentScore now analytics.productBehavior.priceInteractions entry.1 entry.2))
        [] }

/-- The intent score of the specification, from the accumulated view time:
`round(min(40, viewCount*8) + min(30, (timeMs/1000)/10) + recencyBonus +
min(10, priceChecks*5))`, capped at 100. -/
def specIntentScore (viewCount : Nat) (timeMs : ℚ) (daysSinceViewed : ℚ) (priceChecks : Nat) :
    ℚ :=
  let recencyBonus : ℚ := if daysSinceViewed < 1 then 20 else if daysSinceViewed < 7 then 10 else 0
  Min.min 100 ((⌊Min.min 40 ((viewCount : ℚ) * 8) + Min.min 30 (timeMs / 1000 / 10)
    + recencyBonus + Min.min 10 ((priceChecks : ℚ) * 5) + 1 / 2⌋ : ℤ) : ℚ)

/-- A product view of 15 seconds on product X. -/
def viewX : EventData :=
  { eventType := "product_view", productId := some "X", timeSpent := some 15000 }

/-- A price check on product X. -/
def priceCheckX : EventData := { eventType := "price_check", productId := some "X" }

/-- The clock at `ms` milliseconds (hour, day and month do not matter here). -/
def clockAt (ms : Int) : Clock := { nowMs := ms, hour := 10, dayOfWeek := 1, month := 0 }

/-- The analytics after three views of X totalling 45000 ms and two price
checks on X, starting from the initial structure. -/
def analyticsAfterViewsOfX : ComprehensiveAnalytics :=
  [(clockAt 1000, viewX), (clockAt 2000, viewX), (clockAt 3000, viewX),
    (clockAt 4000, priceCheckX), (clockAt 5000, priceCheckX)].foldl
    (fun a ce => processEventForAnalytics (fun _ => none) ce.1 a ce.2) initialAnalytics

/-- No entry of `viewedProducts` carries a `timeSpent` property. -/
def NoTimeSpent (a : ComprehensiveAnalytics) : Prop :=
  ∀ e ∈ a.productBehavior.viewedProducts, e.2.timeSpent = none

/-! ## Product search and its caches (`fastProductSearchV2`, `index.js`) -/

/-- A `current_prices` document as the search reads it; `price` is
`Number(data.price || 0)`. -/
structure PriceDoc where
  productId : Option String
  supermarketId : Option String
  price : ℚ
  priceDate : Option String := none
  lastUpdated : Option String := none
deriving DecidableEq, Repr

/-- An entry of the `cheapestPreview` map. -/
structure PricePreview where
  supermarketId : String
  price : ℚ
  priceDate : Option String := none
  lastUpdated : Option String := none
deriving DecidableEq, Repr

/-- An entry of `results`: the product, its `searchScore`, and the price
preview (`cheapestPrice`, `cheapestStore`, `priceDate`, `priceLastUpdated`)
when one was attached. -/
structure SearchHit where
  product : Product
  searchScore : ℚ
  preview : Option PricePreview := none
deriving DecidableEq, Repr

/-- The `cache` property of the response metadata: absent on a fresh
computation, `true` on a short-TTL hit, `'popular'` on a popular-cache hit. -/
inductive CacheTag where
  | absent
  | shortTtl
  | popular
deriving DecidableEq, Repr

/-- The response metadata (the processing time, a wall-clock measurement, is
left out). -/
structure SearchMetadata where
  totalFound : Nat
  query : String
  appliedStores : List String
  cache : CacheTag := CacheTag.absent
deriving DecidableEq, Repr

/-- The response of `fastProductSearchV2`. -/
structure SearchPayload where
  success : Bool
  results : List SearchHit
  metadata : SearchMetadata
deriving DecidableEq, Repr

/-- The `filters` of a search request; `stores` is `none` when it is not an
array. -/
structure SearchFilters where
  category : Option String := none
  stores : Option (List String) := none
deriving DecidableEq, Repr

/-- The data of a search request, with the defaults of the handler. -/
structure SearchRequest where
  query : String := ""
  filters : SearchFilters := {}
  limit : Nat := 20
deriving DecidableEq, Repr

/-- What the short-TTL cache stores under a key: `{results, metadata}`. -/
abbrev CacheData := List SearchHit × SearchMetadata

/-- The module-level caches: each entry with its timestamp `ts`. -/
structure CacheState where
  SEARCH_CACHE : JSMap String (CacheData × Int) := []
  POPULAR_CACHE : JSMap String (SearchPayload × Int) := []
  QUERY_HITS : JSMap String Nat := []
deriving DecidableEq, Repr

/-- The constant `SEARCH_CACHE_TTL_MS`. -/
def SEARCH_CACHE_TTL_MS : Int := 15000

/-- The constant `SEARCH_CACHE_MAX`. -/
def SEARCH_CACHE_MAX : Nat := 200

/-- The constant `POPULAR_CACHE_TTL_MS`. -/
def POPULAR_CACHE_TTL_MS : Int := 120000

/-- The constant `POPULAR_HIT_THRESHOLD`. -/
def POPULAR_HIT_THRESHOLD : Nat := 3

/-- The function `getSearchCache(key)` at time `now`: the cached data, if any and not
expired, and the cache afterwards (an expired entry is deleted). -/
def getSearchCache (now : Int) (cache : JSMap String (CacheData × Int)) (key : String) :
    Option CacheData × JSMap String (CacheData × Int) :=
  match JSMap.get cache key with
  | none => (none, cache)
  | some entry =>
    if now - entry.2 > SEARCH_CACHE_TTL_MS then (none, JSMap.delete cache key)
    else (some entry.1, cache)

/-- The function `setSearchCache(key, data)` at time `now`. -/
def setSearchCache (now : Int) (cache : JSMap String (CacheData × Int)) (key : String)
    (data : CacheData) : JSMap String (CacheData × Int) :=
  let cache :=
    if cache.size ≥ SEARCH_CACHE_MAX then
      match cache with
      | [] => cache
      | (firstKey, _) :: _ => if firstKey ≠ "" then JSMap.delete cache firstKey else cache
    else cache
  JSMap.set cache key (data, now)

/-- The helper `chunk(arr, 10)`: consecutive pieces of ten elements. -/
def chunk10 {α : Type} : List α → List (List α)
  | [] => []
  | a :: l => (a :: l).take 10 :: chunk10 (l.drop 9)
termination_by l => l.length
decreasing_by
  simp only [List.length_drop, List.length_cons]
  omega

/-- The snapshot of the `products` query: the active products, restricted to
the category filter when there is one, cut at `Math.min(limit * 3, 100)`.
`catalog` lists the active products in the order the store returns them. -/
def fetchProducts (catalog : List Product) (category : Option String) (limit : Nat) :
    List Product :=
  let matching :=
    if truthy category = true then catalog.filter (fun p => decide (p.category = category))
    else catalog
  matching.take (Nat.min (limit * 3) 100)

/-- The `snapshot.forEach` loop: the products whose score for the normalized
query exceeds 0.3, each with its score. -/
def scoreProducts (snapshot : List Product) (normalizedQuery : String) : List SearchHit :=
  snapshot.filterMap (fun product =>
    let score := calculateSearchScore product normalizedQuery
    if score > 0.3 then some { product := product, searchScore := score } else none)

/-- The comparator `(a, b) => b.searchScore - a.searchScore` as an order:
`a` may stay before `b`. -/
def byScoreDesc (a b : SearchHit) : Prop := a.searchScore ≥ b.searchScore

instance : DecidableRel byScoreDesc := fun a b => by
  unfold byScoreDesc
  exact inferInstance

/-- The snapshot of `current_prices.where('productId', 'in', ids)`. -/
def priceQuery (prices : List PriceDoc) (ids : List String) : List PriceDoc :=
  prices.filter (fun d =>
    match d.productId with
    | some pid => decide (pid ∈ ids)
    | none => false)

/-- The update of `cheapestPreview` for a price document of product `pid` in
store `sid`: the document replaces the entry when there is none or when it is
cheaper. -/
def updateCheapest (cheapestPreview : JSMap String PricePreview) (pid sid : String)
    (d : PriceDoc) : JSMap String PricePreview :=
  let entry : PricePreview :=
    { supermarketId := sid, price := d.price, priceDate := d.priceDate,
      lastUpdated := d.lastUpdated }
  match JSMap.get cheapestPreview pid with
  | none => JSMap.set cheapestPreview pid entry
  | some prev => if d.price < prev.price then JSMap.set cheapestPreview pid entry
    else cheapestPreview

/-- The step `sorted.map` attaching the price preview. -/
def attachPreview (cheapestPreview : JSMap String PricePreview) (sorted : List SearchHit) :
    List SearchHit :=
  sorted.map (fun p =>
    match JSMap.get cheapestPreview p.product.id with
    | some pr => { p with preview := some pr }
    | none => p)

/-- The branch `storesFilter.length > 0`: keep the products that have a price
in one of the selected stores and attach their cheapest price there. -/
def filterByStores (prices : List PriceDoc) (storesFilter : List String)
    (sorted : List SearchHit) : List SearchHit :=
  let productIds := sorted.map (fun p => p.product.id)
  let priceDocs := (chunk10 productIds).flatMap (priceQuery prices)
  let acc : List String × JSMap String PricePreview :=
    priceDocs.foldl
      (fun acc d =>
        if truthy d.productId = true ∧ truthy d.supermarketId = true ∧
            (d.supermarketId.getD "") ∈ storesFilter then
          let pid := d.productId.getD ""
          let hasPriceInStores := if pid ∈ acc.1 then acc.1 else acc.1 ++ [pid]
          if d.price > 0 then
            (hasPriceInStores, updateCheapest acc.2 pid (d.supermarketId.getD "") d)
          else (hasPriceInStores, acc.2)
        else acc)
      ([], [])
  attachPreview acc.2 (sorted.filter (fun p => decide (p.product.id ∈ acc.1)))

/-- The branch `storesFilter.length === 0`: attach the cheapest price over all
stores. -/
def previewAllStores (prices : List PriceDoc) (sorted : List SearchHit) : List SearchHit :=
  let productIds := sorted.map (fun p => p.product.id)
  let priceDocs := (chunk10 productIds).flatMap (priceQuery prices)
  let cheapestPreview : JSMap String PricePreview :=
    priceDocs.foldl
      (fun acc d =>
        if ¬ (truthy d.productId = true) ∨ ¬ (truthy d.supermarketId = true) ∨ ¬ (d.price > 0)
        then acc
        else updateCheapest acc (d.productId.getD "") (d.supermarketId.getD "") d)
      []
  attachPreview cheapestPreview sorted

/-- The `storesFilter` of a request: the non-blank strings of `filters.stores`. -/
def storesFilterOf (filters : SearchFilters) : List String :=
  match filters.stores with
  | some stores => stores.filter (fun s => decide ((trim s.toList).length > 0))
  | none => []

/-- JavaScript `Array.prototype.sort()` on strings: ascending by code units. -/
def sortStrings (l : List String) : List String :=
  l.insertionSort (fun a b => a.toList ≤ b.toList)

/-- The short-TTL cache key
`${normalizedQuery.toLowerCase()}|${filters?.category || ''}|${storesFilter.sort().join(',')}|${limit}`,
for the already sorted store filter. -/
def cacheKeyOf (normalizedQuery : String) (filters : SearchFilters)
    (sortedStores : List String) (limit : Nat) : String :=
  String.mk (toLowerCase normalizedQuery.toList) ++ "|" ++ strOr filters.category "" ++ "|"
    ++ ",".intercalate sortedStores ++ "|" ++ toString limit

/-- The popular-cache key `normalizedQuery.toLowerCase()`. -/
def popularKeyOf (normalizedQuery : String) : String :=
  String.mk (toLowerCase normalizedQuery.toList)

/-- The uncached computation of `fastProductSearchV2`, from the product query to
the payload: score and filter the snapshot, sort by relevance, pre-limit,
price preview, cut at `limit`. -/
def freshSearch (catalog : List Product) (prices : List PriceDoc) (normalizedQuery : String)
    (filters : SearchFilters) (storesFilter : List String) (limit : Nat) : SearchPayload :=
  let snapshot := fetchProducts catalog filters.category limit
  let products := scoreProducts snapshot normalizedQuery
  let sorted := products.insertionSort byScoreDesc
  let preLimit := Nat.min sorted.length (Nat.min (limit * 3) 90)
  let sorted := sorted.take preLimit
  let sorted :=
    if storesFilter.length > 0 ∧ sorted.length > 0 then filterByStores prices storesFilter sorted
    else sorted
  let sorted :=
    if storesFilter.length = 0 ∧ sorted.length > 0 then previewAllStores prices sorted
    else sorted
  let results := sorted.take limit
  { success := true
    results := results
    metadata :=
      { totalFound := products.length, query := normalizedQuery, appliedStores := storesFilter } }

/-- The popular-cache lookup at the head of the handler: only without category
and store filters, and only for an entry not older than the popular TTL. -/
def popularLookup (now : Int) (state : CacheState) (normalizedQuery : String)
    (filters : SearchFilters) (storesFilter : List String) : Option SearchPayload :=
  if truthy filters.category = false ∧ storesFilter.length = 0 then
    match JSMap.get state.POPULAR_CACHE (popularKeyOf normalizedQuery) with
    | some pop => if now - pop.2 ≤ POPULAR_CACHE_TTL_MS then some pop.1 else none
    | none => none
  else none

/-- The bookkeeping after a fresh computation: count the hit and promote the
payload to the popular cache from the third hit on (without category and store
filters), then store the results in the short-TTL cache. -/
def storeInCaches (now : Int) (state : CacheState) (normalizedQuery : String)
    (filters : SearchFilters) (storesFilter : List String) (cacheKey : String)
    (payload : SearchPayload) : CacheState :=
  let state :=
    if truthy filters.category = false ∧ storesFilter.length = 0 then
      let key := popularKeyOf normalizedQuery
      let hits := (JSMap.get state.QUERY_HITS key).getD 0 + 1
      let state := { state with QUERY_HITS := JSMap.set state.QUERY_HITS key hits }
      if hits ≥ POPULAR_HIT_THRESHOLD then
        { state with POPULAR_CACHE := JSMap.set state.POPULAR_CACHE key (payload, now) }
      else state
    else state
  { state with
    SEARCH_CACHE := setSearchCache now state.SEARCH_CACHE cacheKey
      (payload.results, payload.metadata) }

/-- The function `fastProductSearchV2`: the response to a request received at time `now` with
the caches in `state`, and the caches afterwards.  `catalog` and `prices` are
the `products` and `current_prices` collections. -/
def fastProductSearchV2 (catalog : List Product) (prices : List PriceDoc) (now : Int)
    (state : CacheState) (request : SearchRequest) : SearchPayload × CacheState :=
  let normalizedQuery := String.mk (trim request.query.toList)
  if normalizedQuery.length = 0 then
    ({ success := true, results := [],
       metadata := { totalFound := 0, query := normalizedQuery, appliedStores := [] } }, state)
  else
    let storesFilter := storesFilterOf request.filters
    match popularLookup now state normalizedQuery request.filters storesFilter with
    | some pop =>
      ({ success := true, results := pop.results,
         metadata := { pop.metadata with cache := CacheTag.popular } }, state)
    | none =>
      let storesFilter := sortStrings storesFilter
      let cacheKey := cacheKeyOf normalizedQuery request.filters storesFilter request.limit
      match getSearchCache now state.SEARCH_CACHE cacheKey with
      | (some cached, cache) =>
        ({ success := true, results := cached.1,
           metadata := { cached.2 with cache := CacheTag.shortTtl } },
          { state with SEARCH_CACHE := cache })
      | (none, cache) =>
        let payload := freshSearch catalog prices normalizedQuery request.filters storesFilter
          request.limit
        (payload,
          storeInCaches now { state with SEARCH_CACHE := cache } normalizedQuery request.filters
            storesFilter cacheKey payload)

/-- The handler run over a sequence of timed requests, from the given caches:
the responses in order, and the final caches. -/
def runSearches (catalog : List Product) (prices : List PriceDoc) :
    CacheState → List (Int × SearchRequest) → List SearchPayload × CacheState
  | state, [] => ([], state)
  | state, (now, request) :: rest =>
    let step := fastProductSearchV2 catalog prices now state request
    let tail := runSearches catalog prices step.2 rest
    (step.1 :: tail.1, tail.2)

/-- A catalog of two products that both match the query "milk". -/
def milkCatalog : List Product :=
  [{ id := "m1", name := some "Milk" }, { id := "m2", name := some "Soy Milk" }]

/-- Three requests for "milk" with limit 2, twenty seconds apart, followed one
second later by a request for "milk" with limit 1. -/
def milkRequests : List (Int × SearchRequest) :=
  [(0, { query := "milk", limit := 2 }), (20000, { query := "milk", limit := 2 }),
    (40000, { query := "milk", limit := 2 }), (41000, { query := "milk", limit := 1 })]

/-- A product whose only field matching "dairy" is the category. -/
def plainButter : Product := { id := "b1", name := some "Butter", category := some "dairy" }

/-- A result entry qualifies for a snapshot and a normalized query when its
product is in the snapshot, its `searchScore` is the score of that product for
the query, and that score is strictly greater than 0.3. -/
def Qualifies (snapshot : List Product) (normalizedQuery : String) (hit : SearchHit) : Prop :=
  hit.product ∈ snapshot ∧ hit.searchScore = calculateSearchScore hit.product normalizedQuery ∧
    calculateSearchScore hit.product normalizedQuery > 3 / 10

/-! ## Search preference learning (`searchAnalytics.js`) -/

/-- The `searchAnalytics` field of a user document, over the number field `α`.
`personalizedScores` holds the `category_…` and `brand_…` scores, and
`preferredSearchTimes` the array stored under that key of the same object.
`lastUpdated` is the stored timestamp in milliseconds, `none` when it is `null`. -/
structure SearchAnalytics (α : Type) where
  totalSearches : Nat := 0
  categoryFrequency : JSMap String Nat := []
  brandFrequency : JSMap String Nat := []
  queryFrequency : JSMap String α := []
  timeOfDay : JSMap Nat Nat := []
  dayOfWeek : JSMap Nat Nat := []
  personalizedScores : JSMap String (JSNum α) := []
  preferredSearchTimes : List Nat := []
  lastUpdated : Option Int := none

/-- The score `tf * logFreq` of `calculatePersonalizedScores` for one frequency:
`tf = frequency / totalSearches` and `logFreq = Math.log(1 + frequency)`, with
`log` standing for `Math.log`. -/
def tfLogScore {α : Type} [LinearOrderedField α] (log : α → α) (totalSearches frequency : Nat) :
    JSNum α :=
  let tf := JSNum.div (JSNum.num (frequency : α)) (JSNum.num (totalSearches : α))
  let logFreq := JSNum.num (log (1 + (frequency : α)))
  JSNum.mul tf logFreq

/-- The function `calculatePersonalizedScores(analytics)`: the scores of the categories, then
those of the brands, and the three most frequent search hours (the entries of
`timeOfDay` are enumerated by ascending hour, as for every object with integer
keys). -/
def calculatePersonalizedScores {α : Type} [LinearOrderedField α] (log : α → α)
    (analytics : SearchAnalytics α) : JSMap String (JSNum α) × List Nat :=
  let totalSearches := analytics.totalSearches
  let scores : JSMap String (JSNum α) := []
  let scores := analytics.categoryFrequency.foldl
    (fun scores entry =>
      JSMap.set scores ("category_" ++ entry.1) (tfLogScore log totalSearches entry.2))
    scores
  let scores := analytics.brandFrequency.foldl
    (fun scores entry =>
      JSMap.set scores ("brand_" ++ entry.1) (tfLogScore log totalSearches entry.2))
    scores
  let entries := analytics.timeOfDay.insertionSort (fun a b => a.1 ≤ b.1)
  let preferredHours := ((sortByDesc (fun e => e.2) entries).take 3).map (fun e => e.1)
  (scores, preferredHours)

/-- The decay loop of `updateUserSearchPreferences`: every stored query
frequency is multiplied by `Math.pow(0.9, daysSinceUpdate)` when the days since
the stored `lastUpdated` are positive; a missing `lastUpdated` counts as now.
`pow` stands for `Math.pow`. -/
def decayQueryFrequency {α : Type} [LinearOrderedField α] (pow : α → α → α)
    (queryFrequency : JSMap String α) (lastUpdated : Option Int) (currentTime : Int) :
    JSMap String α :=
  queryFrequency.map (fun entry =>
    let decayFactor : α := 0.9
    let lastUpdate := lastUpdated.getD currentTime
    let timeDiff := currentTime - lastUpdate
    let daysSinceUpdate : α := (timeDiff : α) / (1000 * 60 * 60 * 24)
    if daysSinceUpdate > 0 then (entry.1, entry.2 * pow decayFactor daysSinceUpdate)
    else entry)

/-- The transaction body of `updateUserSearchPreferences(userId, query, filters)`:
the `searchAnalytics` written for the stored value `stored` (`none` when the user
has none yet).  `extractedBrands` is the result of `extractBrandsFromQuery(query)`,
`clock` the current time, `pow` and `log` stand for `Math.pow` and `Math.log`. -/
def updateUserSearchPreferences {α : Type} [LinearOrderedField α] (pow : α → α → α)
    (log : α → α) (extractedBrands : List String) (clock : Clock)
    (stored : Option (SearchAnalytics α)) (query : String) (category : Option String) :
    SearchAnalytics α :=
  let analytics : SearchAnalytics α := stored.getD {}
  let queryKey := String.mk (toLowerCase query.toList)
  let currentTime := clock.nowMs
  let queryFrequency :=
    decayQueryFrequency pow analytics.queryFrequency analytics.lastUpdated currentTime
  let queryFrequency :=
    JSMap.set queryFrequency queryKey ((JSMap.get queryFrequency queryKey).getD 0 + 1)
  let analytics := { analytics with queryFrequency := queryFrequency }
  let analytics :=
    if truthy category = true then
      { analytics with
        categoryFrequency := increment analytics.categoryFrequency (category.getD "") }
    else analytics
  let analytics := { analytics with
    brandFrequency := extractedBrands.foldl increment analytics.brandFrequency }
  let analytics := { analytics with
    timeOfDay := increment analytics.timeOfDay clock.hour
    dayOfWeek := increment analytics.dayOfWeek clock.dayOfWeek }
  let scores := calculatePersonalizedScores log analytics
  let analytics := { analytics with
    personalizedScores := scores.1, preferredSearchTimes := scores.2 }
  { analytics with
    totalSearches := analytics.totalSearches + 1, lastUpdated := some currentTime }

/-- The clock of the search examples: `ms` milliseconds, at ten on a Monday. -/
def searchClock (ms : Int) : Clock := { nowMs := ms, hour := 10, dayOfWeek := 1, month := 0 }

/-- A stored `searchAnalytics` with the query "milk" at frequency 2, last
updated at time 0. -/
def milkAnalytics {α : Type} [LinearOrderedField α] : SearchAnalytics α :=
  { totalSearches := 2, queryFrequency := [("milk", 2)], lastUpdated := some 0 }

/-- The document written by the first search of a user, for "milk" with the
category filter "dairy". -/
def firstDairySearch {α : Type} [LinearOrderedField α] (pow : α → α → α) (log : α → α) :
    SearchAnalytics α :=
  updateUserSearchPreferences pow log [] (searchClock 0) none "milk" (some "dairy")

/-- The document written by the same search repeated one second later. -/
def secondDairySearch {α : Type} [LinearOrderedField α] (pow : α → α → α) (log : α → α) :
    SearchAnalytics α :=
  updateUserSearchPreferences pow log [] (searchClock 1000) (some (firstDairySearch pow log))
    "milk" (some "dairy")

/-! ## Derived blocks of the behaviour analytics (`comprehensiveUserAnalytics.js`) -/

/-- The `personalization` block, over the number field `α`.  `pricesensitivity`
is the key of the initial structure; `priceSensitivity` and `discoveryVsLoyalty`
are the keys the recomputation writes.  A scalar is `none` when the key is
absent. -/
structure Personalization (α : Type) where
  categoryAffinity : JSMap String α := []
  brandLoyalty : JSMap String α := []
  pricesensitivity : Option α := none
  priceSensitivity : Option α := none
  discoveryVsLoyalty : Option α := none
  recommendationAccuracy : Option α := none

/-- The `userSegmentation` block.  `lastCalculated` is the ISO string of the
recomputation time, kept as milliseconds since the epoch. -/
structure UserSegmentation where
  shoppingPersona : String := ""
  activityLevel : String := ""
  categoryExpertise : JSMap String String := []
  influenceScore : Option ℚ := none
  lastCalculated : Option Int := none
deriving DecidableEq, Repr

/-- The `comprehensiveAnalytics` field of a user document: the raw counters with
the purchase-intent block (`counters`), and the two other derived blocks. -/
structure AnalyticsDoc (α : Type) where
  counters : ComprehensiveAnalytics := {}
  personalization : Personalization α := {}
  userSegmentation : UserSegmentation := {}

/-- The initial `comprehensiveAnalytics` of `updateComprehensiveUserAnalytics`. -/
def initialAnalyticsDoc {α : Type} [LinearOrderedField α] : AnalyticsDoc α :=
  { counters := initialAnalytics
    personalization :=
      { pricesensitivity := some 0, discoveryVsLoyalty := some 0,
        recommendationAccuracy := some 0 }
    userSegmentation := { influenceScore := some 0 } }

/-- The function `calculatePersonalizationScores(analytics)`; `sqrt` stands for
`Math.sqrt`.  The stored block is spread first, then the four recomputed keys
are set. -/
def calculatePersonalizationScores {α : Type} [LinearOrderedField α] (sqrt : α → α)
    (analytics : AnalyticsDoc α) : Personalization α :=
  let personalization := analytics.personalization
  let pb := analytics.counters.productBehavior
  let categoryAffinity : JSMap String α :=
    pb.productCategories.foldl
      (fun acc entry =>
        let viewWeight : α := (entry.2.viewCount : α) * 0.3
        let timeWeight : α := (((entry.2.timeSpent : ℚ) : α) / 1000) * 0.7
        JSMap.set acc entry.1 (min 1 ((viewWeight + timeWeight) / 100)))
      []
  let brandLoyalty : JSMap String α :=
    pb.brands.foldl
      (fun acc entry => JSMap.set acc entry.1 (min 1 ((entry.2.viewCount : α) / 10)))
      []
  let totalProducts := pb.viewedProducts.length
  let totalPriceChecks : Nat :=
    pb.priceInteractions.foldl (fun sum entry => sum + entry.2.priceChecks) 0
  let priceSensitivity : α :=
    if totalProducts > 0 then min 1 ((totalPriceChecks : α) / (totalProducts : α)) else 0
  let uniqueCategories := pb.productCategories.length
  let totalViews : Nat := pb.viewedProducts.foldl (fun sum entry => sum + entry.2.viewCount) 0
  let discoveryScore : α :=
    if uniqueCategories > 0 ∧ totalViews > 0 then
      min 1 ((uniqueCategories : α) / sqrt (totalViews : α))
    else 0
  { personalization with
    categoryAffinity := categoryAffinity
    brandLoyalty := brandLoyalty
    priceSensitivity := some priceSensitivity
    discoveryVsLoyalty := some discoveryScore }

/-- The mean brand loyalty of `calculateUserSegmentation`:
`sum / count || 0`, which is 0 when there is no brand. -/
def brandLoyaltyAverage {α : Type} [LinearOrderedField α] (brandLoyalty : JSMap String α) : α :=
  if brandLoyalty.length = 0 then 0
  else (brandLoyalty.foldl (fun sum entry => sum + entry.2) 0) / (brandLoyalty.length : α)

/-- The persona chosen by `calculateUserSegmentation`. -/
def shoppingPersonaOf {α : Type} [LinearOrderedField α] (analytics : AnalyticsDoc α) : String :=
  let personalization := analytics.personalization
  let avgPriceSensitivity : α := personalization.priceSensitivity.getD 0
  let discoveryScore : α := personalization.discoveryVsLoyalty.getD 0
  let brandLoyaltyAvg : α := brandLoyaltyAverage personalization.brandLoyalty
  let sessionLengths := analytics.counters.temporalPatterns.sessionLengths
  if avgPriceSensitivity > 0.7 then "price_conscious"
  else if brandLoyaltyAvg > 0.6 then "brand_loyal"
  else if discoveryScore > 0.6 then "explorer"
  else if sessionLengths.length > 0 then
    let avgSessionLength : ℚ :=
      (sessionLengths.foldl (fun sum length => sum + length) 0) / (sessionLengths.length : ℚ)
    if avgSessionLength < 120 then "convenience_seeker" else "balanced_shopper"
  else "balanced_shopper"

/-- The activity level chosen by `calculateUserSegmentation`. -/
def activityLevelOf (counters : ComprehensiveAnalytics) : String :=
  let totalEvents := counters.searchBehavior.totalSearches
    + counters.productBehavior.viewedProducts.foldl (fun sum entry => sum + entry.2.viewCount) 0
  if totalEvents > 100 then "high" else if totalEvents > 20 then "medium" else "low"

/-- The function `calculateUserSegmentation(analytics)`, run at time `now`: the
stored block is spread first, then persona, activity level and `lastCalculated`
are set. -/
def calculateUserSegmentation {α : Type} [LinearOrderedField α] (now : Int)
    (analytics : AnalyticsDoc α) : UserSegmentation :=
  { analytics.userSegmentation with
    shoppingPersona := shoppingPersonaOf analytics
    activityLevel := activityLevelOf analytics.counters
    lastCalculated := some now }

/-- The three assignments of `updateComprehensiveUserAnalytics` that follow the
processing of the event: `personalization`, then `userSegmentation` (which reads
the new `personalization`), then `purchaseIntent`, recomputed at time `now`. -/
def recomputeDerived {α : Type} [LinearOrderedField α] (sqrt : α → α) (now : Int)
    (analytics : AnalyticsDoc α) : AnalyticsDoc α :=
  let analytics := { analytics with
    personalization := calculatePersonalizationScores sqrt analytics }
  let analytics := { analytics with
    userSegmentation := calculateUserSegmentation now analytics }
  { analytics with
    counters := { analytics.counters with
      purchaseIntent := calculatePurchaseIntentScores now analytics.counters } }

/-- The transaction body of `updateComprehensiveUserAnalytics(userId, eventData)`:
the stored document (or the initial structure), the event processed at `clock`,
and the derived blocks recomputed at time `now`. -/
def updateComprehensiveUserAnalytics {α : Type} [LinearOrderedField α] (sqrt : α → α)
    (catalog : String → Option ProductData) (clock : Clock) (now : Int)
    (stored : Option (AnalyticsDoc α)) (eventData : EventData) : AnalyticsDoc α :=
  let analytics := stored.getD initialAnalyticsDoc
  let analytics := { analytics with
    counters := processEventForAnalytics catalog clock analytics.counters eventData }
  recomputeDerived sqrt now analytics

/-- The persona rules of the specification in first-match order: each rule is
a condition with the persona it assigns. -/
def personaRules {α : Type} [LinearOrderedField α] (priceSensitivity brandLoyaltyMean
    discoveryScore : α) (sessionLengths : List ℚ) : List (Bool × String) :=
  [(decide (priceSensitivity > 0.7), "price_conscious"),
    (decide (brandLoyaltyMean > 0.6), "brand_loyal"),
    (decide (discoveryScore > 0.6), "explorer"),
    (decide (sessionLengths ≠ [] ∧ sessionLengths.sum / (sessionLengths.length : ℚ) < 120),
      "convenience_seeker"),
    (true, "balanced_shopper")]

/-- The persona of the specification: that of the first rule whose condition
holds. -/
def specPersona {α : Type} [LinearOrderedField α] (priceSensitivity brandLoyaltyMean
    discoveryScore : α) (sessionLengths : List ℚ) : String :=
  (((personaRules priceSensitivity brandLoyaltyMean discoveryScore sessionLengths).find?
    (fun rule => rule.1)).map (fun rule => rule.2)).getD "balanced_shopper"

/-- The mean of the brand-loyalty scores, taken as 0 when there are none. -/
def specBrandLoyaltyMean {α : Type} [LinearOrderedField α] (brandLoyalty : JSMap String α) : α :=
  if brandLoyalty = [] then 0
  else (brandLoyalty.map (fun entry => entry.2)).sum / (brandLoyalty.length : α)

/-- The five personas. -/
def personas : List String :=
  ["price_conscious", "brand_loyal", "explorer", "convenience_seeker", "balanced_shopper"]

/-- A stored document with the initial counters and blocks. -/
def storedDocA : AnalyticsDoc ℚ := initialAnalyticsDoc

/-- The same counters, with another stored `recommendationAccuracy`. -/
def storedDocB : AnalyticsDoc ℚ :=
  { storedDocA with
    personalization := { storedDocA.personalization with recommendationAccuracy := some 1 } }

/-- A stored document whose only viewed product carries a `timeSpent` property
and was last viewed at time 0. -/
def storedDocViewed : AnalyticsDoc ℚ :=
  { counters :=
      { productBehavior :=
          { viewedProducts :=
              [("X", { viewCount := 1, lastViewed := some 0, timeSpent := some 0 })] } } }

/-! ## Brand extraction (`extractBrandsFromQuery`, `searchAnalytics.js`) -/

/-- The filter of `extractBrandsFromQuery` on a `brand_name`: truthy, not blank,
its lowercase form none of 'n/a', 'none', 'null', and more than one character
long. -/
def isKnownBrand (brandName : Option String) : Bool :=
  match brandName with
  | none => false
  | some b =>
    decide (b ≠ "") && decide (trim b.toList ≠ []) &&
      decide (toLowerCase b.toList ≠ "n/a".toList) &&
      decide (toLowerCase b.toList ≠ "none".toList) &&
      decide (toLowerCase b.toList ≠ "null".toList) &&
      decide (b.length > 1)

/-- The name under which a brand is kept in `uniqueBrands`:
`brandName.toLowerCase().trim()`. -/
def normalizeBrand (b : String) : String := String.mk (trim (toLowerCase b.toList))

/-- The `brandsSnapshot.forEach` loop: the set `uniqueBrands`, in insertion
order. -/
def uniqueBrandsOf (brandNames : List (Option String)) : List String :=
  brandNames.foldl
    (fun uniqueBrands brandName =>
      if isKnownBrand brandName = true then
        let brand := normalizeBrand (brandName.getD "")
        if brand ∈ uniqueBrands then uniqueBrands else uniqueBrands ++ [brand]
      else uniqueBrands)
    []

/-- The function `extractBrandsFromQuery(query)`.  `brandsSnapshot` is the
`brand_name` of every active product, or `none` when the catalog query throws. -/
def extractBrandsFromQuery (brandsSnapshot : Option (List (Option String))) (query : String) :
    List String :=
  let queryLower := toLowerCase query.toList
  match brandsSnapshot with
  | none => []
  | some brandNames =>
    (uniqueBrandsOf brandNames).foldl
      (fun extractedBrands brand =>
        if includes queryLower brand.toList then extractedBrands ++ [brand] else extractedBrands)
      []

/-- A brand name is invalid in the sense of the glossary: trimmed and
lowercased it is one of the placeholder values, or it has at most one
character. -/
def isInvalidBrand (b : String) : Bool :=
  let normalized := trim (toLowerCase b.toList)
  decide (normalized.length ≤ 1) ||
    (["n/a".toList, "none".toList, "null".toList, "undefined".toList, "".toList,
      "no brand".toList, "generic".toList] : List (List Char)).contains normalized

/-! ## Budget tracking handler (`budgetTrackingOnItemComplete`, `index.js`) -/

/-- The fields of a shopping-list item that the budget and hydration handlers
read.  `isCompleted` is `none` when the field is absent. -/
structure ItemData where
  isCompleted : Option Bool := none
  estimatedPrice : Option ℚ := none
  quantity : Option ℚ := none
  category : Option String := none
deriving DecidableEq, Repr

/-- The idiom `Number(x || dflt)` on an optional number: a missing or zero
value yields the default. -/
def numberOr (x : Option ℚ) (dflt : ℚ) : ℚ :=
  match x with
  | none => dflt
  | some v => if v = 0 then dflt else v

/-- The fields of a `shopping_lists` document that the budget handler reads. -/
structure ShoppingList where
  budgetLimit : Option ℚ := none
  createdBy : Option String := none
  name : Option String := none
deriving DecidableEq, Repr

/-- The stored `meta/budget_tracking` document. -/
structure BudgetTracking where
  totalSpent : Option ℚ := none
  dailySpend : JSMap String ℚ := []
  categorySpend : JSMap String ℚ := []
deriving DecidableEq, Repr

/-- The fields `budgetTrackingOnItemComplete` writes to `meta/budget_tracking`
(the server timestamp `lastItemCompleted` is left out). -/
structure BudgetTrackingWrite where
  totalSpent : ℚ
  dailySpend : JSMap String ℚ
  categorySpend : JSMap String ℚ
  lastItemPrice : ℚ
  lastItemCategory : String
  itemsCompleted : Nat
deriving DecidableEq, Repr

/-- What one run of `budgetTrackingOnItemComplete` does: the tracking document it
writes and the alerts it stores for the owner (none when the list is empty). -/
structure BudgetOutcome where
  tracking : BudgetTrackingWrite
  alerts : List BudgetAlert
deriving DecidableEq, Repr

/-- The contribution of one completed item to `totalSpent`:
`Number(d.estimatedPrice || 0) * Number(d.quantity || 1)`. -/
def itemSpend (d : ItemData) : ℚ := numberOr d.estimatedPrice 0 * numberOr d.quantity 1

/-- The handler `budgetTrackingOnItemComplete` for a write that changes an item
from `beforeData` to `afterData`.  `listDoc` is the shopping list (`none` when
it does not exist), `existingTracking` the stored tracking document, `items` the
items of the list (the handler queries those with `isCompleted == true`),
`todayKey` the current date.  The result is `none` when the handler returns
without writing. -/
def budgetTrackingOnItemComplete (beforeData afterData : Option ItemData)
    (listDoc : Option ShoppingList) (existingTracking : Option BudgetTracking)
    (items : List ItemData) (todayKey : String) : Option BudgetOutcome :=
  let wasCompleted := decide ((beforeData.bind (fun d => d.isCompleted)) = some true)
  let isNowCompleted := decide ((afterData.bind (fun d => d.isCompleted)) = some true)
  if isNowCompleted = false ∨ wasCompleted = true then none
  else
    let after : ItemData := afterData.getD {}
    let itemPrice := numberOr after.estimatedPrice 0
    let itemQty := numberOr after.quantity 1
    let itemTotal := itemPrice * itemQty
    let itemCategory := strOr after.category "other"
    match listDoc with
    | none => none
    | some listData =>
      let budget := numberOr listData.budgetLimit 0
      let ownerId := listData.createdBy
      let tracking : BudgetTracking := existingTracking.getD {}
      let dailySpend := JSMap.set tracking.dailySpend todayKey
        ((JSMap.get tracking.dailySpend todayKey).getD 0 + itemTotal)
      let categorySpend := JSMap.set tracking.categorySpend itemCategory
        ((JSMap.get tracking.categorySpend itemCategory).getD 0 + itemTotal)
      let completedItemsSnap := items.filter (fun d => decide (d.isCompleted = some true))
      let totalSpent := completedItemsSnap.foldl (fun totalSpent d => totalSpent + itemSpend d) 0
      some
        { tracking :=
            { totalSpent := totalSpent, dailySpend := dailySpend, categorySpend := categorySpend,
              lastItemPrice := itemTotal, lastItemCategory := itemCategory,
              itemsCompleted := completedItemsSnap.length }
          alerts := budgetAlerts budget ownerId totalSpent itemTotal }

/-- The sum of `estimatedPrice * quantity` over the items flagged completed,
with missing values counted as 0. -/
def claimedTotalSpent (items : List ItemData) : ℚ :=
  ((items.filter (fun d => decide (d.isCompleted = some true))).map
    (fun d => d.estimatedPrice.getD 0 * d.quantity.getD 0)).sum

/-- The sum over the items flagged completed of price times quantity, where a
missing price counts as 0 and a missing or zero quantity counts as 1. -/
def effectiveTotalSpent (items : List ItemData) : ℚ :=
  ((items.filter (fun d => decide (d.isCompleted = some true))).map
    (fun d =>
      d.estimatedPrice.getD 0 *
        (match d.quantity with
          | none => 1
          | some q => if q = 0 then 1 else q))).sum

/-- A completed item with price 50 and quantity 0. -/
def zeroQuantityItem : ItemData :=
  { isCompleted := some true, estimatedPrice := some 50, quantity := some 0 }

/-- The alerts of a sequence of completion events on one list: the list has
spent `start` before the first event, and each event adds the total of its
item. -/
def completionAlerts (budget : ℚ) (ownerId : Option String) :
    ℚ → List ℚ → List (List BudgetAlert)
  | _, [] => []
  | start, itemTotal :: rest =>
    budgetAlerts budget ownerId (start + itemTotal) itemTotal
      :: completionAlerts budget ownerId (start + itemTotal) rest

/-- The event emits an alert of the given type. -/
def emitsType (type : String) (alerts : List BudgetAlert) : Bool :=
  alerts.any (fun a => decide (a.type = type))

/-- The alert types with their thresholds in percent. -/
def alertKinds : List (String × Nat) := [("exceeded", 100), ("near_limit", 90), ("warning", 75)]

/-! ## Operations on the short-TTL cache -/

/-- A call of one of the two cache functions, with the time of the call. -/
inductive CacheOp where
  | set (now : Int) (key : String) (data : CacheData)
  | get (now : Int) (key : String)
deriving DecidableEq, Repr

/-- The key of a cache call. -/
def CacheOp.key : CacheOp → String
  | CacheOp.set _ key _ => key
  | CacheOp.get _ key => key

/-- The cache after one call. -/
def applyCacheOp (cache : JSMap String (CacheData × Int)) : CacheOp →
    JSMap String (CacheData × Int)
  | CacheOp.set now key data => setSearchCache now cache key data
  | CacheOp.get now key => (getSearchCache now cache key).2

/-- The cache after a sequence of calls. -/
def runCacheOps (cache : JSMap String (CacheData × Int)) (ops : List CacheOp) :
    JSMap String (CacheData × Int) :=
  ops.foldl applyCacheOp cache

/-- Some data to cache: no results. -/
def emptyData : CacheData := ([], { totalFound := 0, query := "", appliedStores := [] })

/-- The calls `setSearchCache("", data)` followed by `setSearchCache(k, data)`
for two hundred distinct keys `k`: "a", "aa", "aaa" and so on. -/
def overflowOps : List CacheOp :=
  CacheOp.set 0 "" emptyData ::
    (List.range 200).map (fun i => CacheOp.set 0 (String.mk (List.replicate (i + 1) 'a')) emptyData)

/-! ## List hydration (`index.js`, `hydrationOnItemWrite`) -/

/-- A stored hydration document (`meta/hydration`, or the same fields of the
parent list document); a field that is not stored is `none`. -/
structure HydrationMeta where
  totalItems : Option ℚ := none
  completedItems : Option ℚ := none
  estimatedTotal : Option ℚ := none
  distinctProducts : Option ℚ := none
  distinctCompleted : Option ℚ := none
  updatedAt : Option Int := none
deriving DecidableEq, Repr

/-- The five values that the handler recomputes from the items of a list. -/
structure HydrationTotals where
  totalItems : ℚ := 0
  completedItems : ℚ := 0
  estimatedTotal : ℚ := 0
  distinctProducts : ℚ := 0
  distinctCompleted : ℚ := 0
deriving DecidableEq, Repr

/-- The body of `itemsSnap.forEach(doc => ...)`. -/
def hydrationStep (acc : HydrationTotals) (d : ItemData) : HydrationTotals :=
  let q := numberOr d.quantity 0
  let p := numberOr d.estimatedPrice 0
  let completed := d.isCompleted = some true
  { totalItems := acc.totalItems + q
    distinctProducts := acc.distinctProducts + 1
    completedItems := if completed then acc.completedItems + q else acc.completedItems
    distinctCompleted := if completed then acc.distinctCompleted + 1 else acc.distinctCompleted
    estimatedTotal := acc.estimatedTotal + q * p }

/-- The aggregation loop of `hydrationOnItemWrite`. -/
def hydrationTotals (items : List ItemData) : HydrationTotals :=
  items.foldl hydrationStep {}

/-- The change test `metaChanged` (and `parentChanged`) of `hydrationOnItemWrite`. -/
def metaChanged (currentMeta : HydrationMeta) (v : HydrationTotals) : Bool :=
  decide (currentMeta.totalItems ≠ some v.totalItems) ||
  decide (currentMeta.completedItems ≠ some v.completedItems) ||
  decide (|numberOr currentMeta.estimatedTotal 0 - v.estimatedTotal| > 1 / 1000)

/-- The result of `ref.set(\x7b...\x7d, \x7b merge: true \x7d)` on a stored document. -/
def mergeHydration (v : HydrationTotals) (now : Int) : HydrationMeta :=
  { totalItems := some v.totalItems
    completedItems := some v.completedItems
    estimatedTotal := some v.estimatedTotal
    distinctProducts := some v.distinctProducts
    distinctCompleted := some v.distinctCompleted
    updatedAt := some now }

/-- What `hydrationOnItemWrite` does to its two documents: whether each one is
written, and its stored content afterwards. -/
structure HydrationOutcome where
  metaWritten : Bool
  parentWritten : Bool
  metaDoc : Option HydrationMeta
  parentDoc : Option HydrationMeta
deriving DecidableEq, Repr

/-- `hydrationOnItemWrite`: `items` are the item documents of the list,
`metaSnap` and `parentSnap` the two stored documents (`none` when the document
does not exist), `now` the server timestamp. -/
def hydrationOnItemWrite (items : List ItemData) (metaSnap parentSnap : Option HydrationMeta)
    (now : Int) : HydrationOutcome :=
  let v := hydrationTotals items
  let currentMeta := metaSnap.getD {}
  let currentParent := parentSnap.getD {}
  let metaCh := metaChanged currentMeta v
  let parentCh := metaChanged currentParent v
  { metaWritten := metaCh
    parentWritten := parentCh
    metaDoc := if metaCh then some (mergeHydration v now) else metaSnap
    parentDoc := if parentCh then some (mergeHydration v now) else parentSnap }

/-- The skip condition as the specification words it: all five recomputed
values are unchanged, `estimatedTotal` up to 0.001. -/
def specUnchanged (stored : HydrationMeta) (v : HydrationTotals) : Prop :=
  stored.totalItems = some v.totalItems ∧ stored.completedItems = some v.completedItems ∧
  stored.distinctProducts = some v.distinctProducts ∧
  stored.distinctCompleted = some v.distinctCompleted ∧
  |numberOr stored.estimatedTotal 0 - v.estimatedTotal| ≤ 1 / 1000

/-- A list with one item of quantity 2 at price 10. -/
def hydrationItemsBefore : List ItemData :=
  [{ quantity := some 2, estimatedPrice := some 10, isCompleted := some false }]

/-- The same list after an item without a quantity has been added. -/
def hydrationItemsAfter : List ItemData :=
  hydrationItemsBefore ++ [{ estimatedPrice := some 5, isCompleted := some false }]

/-! ## The product score: bounds, zero and the empty query -/

/-- A field contains a word as a case-insensitive substring; a missing field
counts as empty. -/
def fieldContains (field : Option String) (word : List Char) : Bool :=
  includes (toLowerCase ((field.getD "").toList)) word

/-- One of the five fields (name, brand, variety, original name, category)
contains the word. -/
def matchesWord (product : Product) (word : List Char) : Bool :=
  fieldContains product.name word || fieldContains (brandOf product) word ||
    fieldContains product.variety word || fieldContains product.original_name word ||
    fieldContains product.category word

/-- The function `calculateSearchScore(product, query)` with the JavaScript arithmetic of its
return statement made explicit: `totalScore / queryWords.length` is the
JavaScript division, which yields `NaN` for 0 / 0 and an infinity for x / 0. -/
def calculateSearchScoreJS (product : Product) (query : String) : JSNum ℚ :=
  let words := queryWords query
  if words.length = 0 then JSNum.num 0
  else
    let totalScore := words.foldl
      (fun totalScore word => JSNum.add totalScore (JSNum.num (fieldScore product word)))
      (JSNum.num 0)
    JSNum.div totalScore (JSNum.num (words.length : ℚ))

/-- A product whose five fields all contain the letter a. -/
def allFieldsA : Product :=
  { id := "p", name := some "a", brand_name := some "a", variety := some "a",
    original_name := some "a", category := some "a" }

/-! ## Person scores as the specification words them -/

/-- A field starts with the lowercased query, case-insensitively; an absent
field does not. -/
def nameStartsWith (field : Option String) (queryLower : List Char) : Bool :=
  match field with
  | some f => startsWith (toLowerCase f.toList) queryLower
  | none => false

/-- A field contains the lowercased query, case-insensitively; an absent field
does not. -/
def nameContains (field : Option String) (queryLower : List Char) : Bool :=
  match field with
  | some f => includes (toLowerCase f.toList) queryLower
  | none => false

/-- The match weight of one field as the specification words it: the prefix
weight when the field starts with the query, the substring weight when it
contains the query without starting with it, 0 otherwise. -/
def specFieldWeight (prefixWeight substringWeight : Nat) (field : Option String)
    (queryLower : List Char) : Nat :=
  if nameStartsWith field queryLower then prefixWeight
  else if nameContains field queryLower then substringWeight
  else 0

/-- The instant match score as the specification words it. -/
def specInstantMatchScore (userData : UserResult) (query : String) : Nat :=
  let queryLower := toLowerCase query.toList
  specFieldWeight 100 50 userData.firstName queryLower
    + specFieldWeight 90 45 userData.lastName queryLower
    + specFieldWeight 85 40 userData.displayName queryLower
    + specFieldWeight 80 35 userData.email queryLower

/-- The match weight of one field in `calculateInstantMatchScore`: a field that
is absent or empty contributes nothing; a field that starts with the query
contributes the prefix weight and the substring weight; a field that contains
the query without starting with it contributes the substring weight. -/
def instantFieldWeight (prefixWeight substringWeight : Nat) (field : Option String)
    (queryLower : List Char) : Nat :=
  match field with
  | none => 0
  | some f =>
    if f = "" then 0
    else if startsWith (toLowerCase f.toList) queryLower then prefixWeight + substringWeight
    else if includes (toLowerCase f.toList) queryLower then substringWeight
    else 0

/-- A stored document with one category (10 views, 20 seconds), one brand
(4 views), two viewed products (4 views in total) and one price check. -/
def dairyDoc : AnalyticsDoc ℝ :=
  { counters :=
      { productBehavior :=
          { viewedProducts := [("X", { viewCount := 3 }), ("Y", { viewCount := 1 })]
            productCategories := [("dairy", { viewCount := 10, timeSpent := 20000 })]
            brands := [("amul", { viewCount := 4 })]
            priceInteractions := [("X", { priceChecks := 1 })] } } }

/-! ## Person search: the lookup that `advancedUserSearchV2` selects -/

/-- The lookup functions of the person search. -/
inductive SearchFunction where
  | searchPartialOptimizedUltraFast
  | searchByNameOptimized
  | searchByEmailOptimized
  | searchByPhoneOptimized
  | searchMixedOptimized
  | searchPartialOptimized
deriving DecidableEq, Repr

/-- The lookup that `advancedUserSearchV2` runs for a request: the ultra-fast
name-prefix lookup for a short query, otherwise the `switch (queryType)`, whose
default is the name search. -/
def selectedSearch (query : String) (queryType : Option String) (isShortQuery : Bool) :
    SearchFunction :=
  if isShortQuery = true ∨ query.length ≤ 2 then SearchFunction.searchPartialOptimizedUltraFast
  else if queryType = some "name" then SearchFunction.searchByNameOptimized
  else if queryType = some "email" then SearchFunction.searchByEmailOptimized
  else if queryType = some "phone" then SearchFunction.searchByPhoneOptimized
  else if queryType = some "mixed" then SearchFunction.searchMixedOptimized
  else if queryType = some "partial" then SearchFunction.searchPartialOptimized
  else SearchFunction.searchByNameOptimized

/-- The `users` document of the user of `sampleStore` who is hidden from name
search. -/
def annaDoc : UserDoc := { id := "u2", firstName := some "Anna" }

/-- A store whose privacy lookups throw. -/
def failingStore : UserStore where
  privacyDoc := fun _ => none
  lookupFails := fun _ => true

/-- The function `updateComprehensiveUserAnalytics` run over a sequence of behaviour events,
from the stored document `stored`: each event comes with the clock at which it
is processed and the time at which the derived blocks are recomputed, and each
run stores the document the next one reads. -/
def runAnalyticsEvents {α : Type} [LinearOrderedField α] (sqrt : α → α)
    (catalog : String → Option ProductData) (stored : AnalyticsDoc α)
    (events : List (Clock × Int × EventData)) : AnalyticsDoc α :=
  events.foldl
    (fun doc event =>
      updateComprehensiveUserAnalytics sqrt catalog event.1 event.2.1 (some doc) event.2.2)
    stored

/-- The short-TTL cache key that `fastProductSearchV2` builds for a request:
the key of the trimmed query, the filters, the sorted store filter and the
limit. -/
def requestCacheKey (request : SearchRequest) : String :=
  cacheKeyOf (String.mk (trim request.query.toList)) request.filters
    (sortStrings (storesFilterOf request.filters)) request.limit

/-- A catalog with one product, named "a|b". -/
def pipeCatalog : List Product := [{ id := "p", name := some "a|b" }]

/-- A request for the query "a|b" without filters. -/
def pipeRequestA : SearchRequest := { query := "a|b" }

/-- A request for the query "a" in the category "b|". -/
def pipeRequestB : SearchRequest := { query := "a", filters := { category := some "b|" } }

/-- A request with the single store filter "s1,s2". -/
def commaRequestA : SearchRequest := { query := "milk", filters := { stores := some ["s1,s2"] } }

/-- A request with the two store filters "s1" and "s2". -/
def commaRequestB : SearchRequest :=
  { query := "milk", filters := { stores := some ["s1", "s2"] } }

/-- The request for "a|b" at time 0, followed one second later by the request
for "a" in the category "b|". -/
def pipeRequests : List (Int × SearchRequest) := [(0, pipeRequestA), (1000, pipeRequestB)]

/-- The request's query and category contain no `|`, and its store filters
contain neither `|` nor a comma: the two separators of the cache key. -/
def SeparatorFree (request : SearchRequest) : Prop :=
  '|' ∉ request.query.toList ∧ '|' ∉ (strOr request.filters.category "").toList ∧
    ∀ s ∈ storesFilterOf request.filters, '|' ∉ s.toList ∧ ',' ∉ s.toList

instance (request : SearchRequest) : Decidable (SeparatorFree request) := by
  unfold SeparatorFree
  infer_instance

/-- A request for "Milk" in two stores. -/
def storesRequestA : SearchRequest :=
  { query := "Milk", filters := { stores := some ["s2", "s1"] } }

/-- The same request with the stores in the other order and the query in
lower case. -/
def storesRequestB : SearchRequest :=
  { query := "milk", filters := { stores := some ["s1", "s2"] } }

/-! # Theorems -/

/-! ## Maps -/

theorem JSMap.get_set {κ ν : Type} [DecidableEq κ] (m : JSMap κ ν) (k k' : κ) (v : ν) :
    JSMap.get (JSMap.set m k v) k' = if k = k' then some v else JSMap.get m k' := by
  induction m with
  | nil => simp [JSMap.set, JSMap.get]
  | cons e m ih =>
    obtain ⟨a, b⟩ := e
    by_cases h : a = k
    · subst h
      by_cases h' : a = k' <;> simp [JSMap.set, JSMap.get, h']
    · by_cases h' : a = k'
      · subst h'
        have hk : ¬ k = a := fun e => h e.symm
        simp [JSMap.set, JSMap.get, h, hk]
      · simp [JSMap.set, JSMap.get, h, h', ih]

/-! ## Stable sorting -/

theorem sortByDesc_perm {α β : Type} [LinearOrder β] (f : α → β) (l : List α) :
    (sortByDesc f l).Perm l :=
  List.perm_insertionSort _ l

theorem sortByDesc_sorted {α β : Type} [LinearOrder β] (f : α → β) (l : List α) :
    (sortByDesc f l).Pairwise (fun a b => f a ≥ f b) := by
  haveI : IsTotal α (fun a b => f a ≥ f b) := ⟨fun a b => le_total (f b) (f a)⟩
  haveI : IsTrans α (fun a b => f a ≥ f b) := ⟨fun a b c hab hbc => le_trans hbc hab⟩
  exact List.sorted_insertionSort (fun a b => f a ≥ f b) l

/-- Stability: the elements of any one key value keep their input order. -/
theorem sortByDesc_stable {α β : Type} [LinearOrder β] (f : α → β) (l : List α) (s : β) :
    (sortByDesc f l).filter (fun a => decide (f a = s)) = l.filter (fun a => decide (f a = s)) := by
  have hpair : (l.filter (fun a => decide (f a = s))).Pairwise (fun a b => f a ≥ f b) := by
    rw [List.pairwise_iff_forall_sublist]
    intro a b hab
    have ha : a ∈ l.filter (fun a => decide (f a = s)) := hab.subset (by simp)
    have hb : b ∈ l.filter (fun a => decide (f a = s)) := hab.subset (by simp)
    simp only [List.mem_filter, decide_eq_true_eq] at ha hb
    rw [ha.2, hb.2]
  have hsub : List.Sublist (l.filter (fun a => decide (f a = s))) (sortByDesc f l) :=
    List.sublist_insertionSort hpair (List.filter_sublist l)
  have hsub' : List.Sublist (l.filter (fun a => decide (f a = s)))
      ((sortByDesc f l).filter (fun a => decide (f a = s))) := by
    have := hsub.filter (fun a => decide (f a = s))
    simpa only [List.filter_filter, Bool.and_self] using this
  have hlen : ((sortByDesc f l).filter (fun a => decide (f a = s))).length
      = (l.filter (fun a => decide (f a = s))).length :=
    ((sortByDesc_perm f l).filter _).length_eq
  exact (hsub'.eq_of_length hlen.symm).symm

/-! ## Privacy filter -/

theorem get_foldl_privacy (store : UserStore) (l : List (String × Option Privacy))
    (hl : ∀ e ∈ l, store.privacyDoc e.1 = some e.2) (m : JSMap String Privacy) (uid : String) :
    JSMap.get (l.foldl (fun m doc => JSMap.set m doc.1 (doc.2.getD {})) m) uid
      = if uid ∈ l.map (fun e => e.1) then some (privacyRecord store uid)
        else JSMap.get m uid := by
  induction l generalizing m with
  | nil => simp
  | cons e l ih =>
    have he : store.privacyDoc e.1 = some e.2 := hl e (List.mem_cons_self _ _)
    rw [List.foldl_cons, ih (fun x hx => hl x (List.mem_cons_of_mem _ hx)), JSMap.get_set]
    by_cases h1 : uid ∈ l.map (fun e => e.1)
    · simp [h1]
    · by_cases h2 : e.1 = uid
      · subst h2
        have : privacyRecord store e.1 = e.2.getD {} := by
          unfold privacyRecord
          rw [he]
          cases e.2 <;> rfl
        simp [this]
      · have h3 : ¬ uid = e.1 := fun h => h2 h.symm
        simp [h1, h2, h3]

theorem mem_privacySnapshot (store : UserStore) (batchIds : List String) (uid : String) :
    uid ∈ (privacySnapshot store batchIds).map (fun e => e.1)
      ↔ uid ∈ batchIds ∧ (store.privacyDoc uid).isSome = true := by
  unfold privacySnapshot
  simp only [List.mem_map, List.mem_filterMap, List.mem_dedup, Option.map_eq_some']
  constructor
  · rintro ⟨e, ⟨id, hid, p, hp, rfl⟩, rfl⟩
    exact ⟨hid, by simp [hp]⟩
  · rintro ⟨hid, hs⟩
    obtain ⟨p, hp⟩ := Option.isSome_iff_exists.mp hs
    exact ⟨(uid, p), ⟨uid, hid, p, hp, rfl⟩, rfl⟩

theorem privacySnapshot_sound (store : UserStore) (batchIds : List String) :
    ∀ e ∈ privacySnapshot store batchIds, store.privacyDoc e.1 = some e.2 := by
  intro e he
  unfold privacySnapshot at he
  simp only [List.mem_filterMap, Option.map_eq_some'] at he
  obtain ⟨id, _, p, hp, rfl⟩ := he
  exact hp

theorem privacyRecord_of_none (store : UserStore) (uid : String)
    (h : (store.privacyDoc uid).isSome ≠ true) : privacyRecord store uid = {} := by
  unfold privacyRecord
  cases hd : store.privacyDoc uid with
  | none => rfl
  | some p => simp [hd] at h

/-- With every lookup succeeding, the batch loop ends with a map that holds the
privacy record of each requested id that has a document, on top of the
entries it started from. -/
theorem fetchPrivacyMap_spec (store : UserStore) (hok : ∀ ids, store.lookupFails ids = false) :
    ∀ (n : Nat) (userIds : List String), userIds.length ≤ n → ∀ (m : JSMap String Privacy),
      ∃ m', fetchPrivacyMap store userIds m = some m' ∧
        ∀ uid, JSMap.get m' uid
          = if uid ∈ userIds ∧ (store.privacyDoc uid).isSome = true
            then some (privacyRecord store uid) else JSMap.get m uid := by
  intro n
  induction n with
  | zero =>
    intro userIds hlen m
    have : userIds = [] := List.length_eq_zero.mp (Nat.le_zero.mp hlen)
    subst this
    exact ⟨m, by rw [fetchPrivacyMap], by simp⟩
  | succ n ih =>
    intro userIds hlen m
    cases userIds with
    | nil => exact ⟨m, by rw [fetchPrivacyMap], by simp⟩
    | cons id ids =>
      have hlen' : (ids.drop 9).length ≤ n := by
        simp only [List.length_drop, List.length_cons] at hlen ⊢
        omega
      obtain ⟨m', hm', hget⟩ := ih (ids.drop 9) hlen'
        ((privacySnapshot store ((id :: ids).take 10)).foldl
          (fun m doc => JSMap.set m doc.1 (doc.2.getD {})) m)
      refine ⟨m', ?_, ?_⟩
      · rw [fetchPrivacyMap]
        simp only [hok, Bool.false_eq_true, if_false]
        exact hm'
      · intro uid
        have hsplit : uid ∈ id :: ids ↔ uid ∈ (id :: ids).take 10 ∨ uid ∈ ids.drop 9 := by
          have hd : (id :: ids).drop 10 = ids.drop 9 := rfl
          rw [← hd, ← List.mem_append, List.take_append_drop]
        have hfold := get_foldl_privacy store _
          (privacySnapshot_sound store ((id :: ids).take 10)) m uid
        have hmem := mem_privacySnapshot store ((id :: ids).take 10) uid
        rw [hget uid, hfold]
        by_cases h4 : (store.privacyDoc uid).isSome = true
        · by_cases h1 : uid ∈ ids.drop 9
          · have h3 : uid ∈ id :: ids := hsplit.mpr (Or.inr h1)
            rw [if_pos ⟨h1, h4⟩, if_pos ⟨h3, h4⟩]
          · by_cases h2 : uid ∈ (id :: ids).take 10
            · have h3 : uid ∈ id :: ids := hsplit.mpr (Or.inl h2)
              rw [if_neg (fun h => h1 h.1), if_pos (hmem.mpr ⟨h2, h4⟩), if_pos ⟨h3, h4⟩]
            · have h3 : ¬ uid ∈ id :: ids := fun h => (hsplit.mp h).elim h2 h1
              rw [if_neg (fun h => h1 h.1), if_neg (fun h => h2 (hmem.mp h).1),
                if_neg (fun h => h3 h.1)]
        · rw [if_neg (fun h => h4 h.2), if_neg (fun h => h4 (hmem.mp h).2),
            if_neg (fun h => h4 h.2)]

theorem privacyKeeps_eq_specVisible (store : UserStore) (hempty : store.privacyDoc "" = none)
    (userIds : List String) (m : JSMap String Privacy) (queryType me : String)
    (hqt : queryType ∈ knownQueryTypes)
    (hm : ∀ uid, JSMap.get m uid
      = if uid ∈ userIds ∧ (store.privacyDoc uid).isSome = true
        then some (privacyRecord store uid) else none)
    (r : UserResult) (hr : r.uid = me ∨ r.uid = "" ∨ r.uid ∈ userIds) :
    privacyKeeps m (some queryType) me r = specVisible store queryType me r := by
  unfold privacyKeeps specVisible
  by_cases hme : r.uid = me
  · simp [hme]
  · have hp : (JSMap.get m r.uid).getD {} = privacyRecord store r.uid := by
      rw [hm r.uid]
      by_cases hdoc : (store.privacyDoc r.uid).isSome = true
      · rcases hr with h | h | h
        · exact absurd h hme
        · rw [h, hempty] at hdoc
          simp at hdoc
        · rw [if_pos ⟨h, hdoc⟩]
          rfl
      · rw [if_neg (fun h => hdoc h.2), privacyRecord_of_none store r.uid hdoc]
        rfl
    simp only [hme, if_false, hp, decide_False, Bool.false_or]
    by_cases hfp : (privacyRecord store r.uid).isFullyPrivate = some true
    · simp [hfp]
    · have hnf : ∀ f : Option Bool, decide (f ≠ some false) = notFalse f := by
        intro f
        rcases f with _ | _ | _ <;> rfl
      simp only [hfp, if_false, decide_False, Bool.not_false, Bool.true_and, typeRule, hnf,
        Option.some.injEq]
      simp only [knownQueryTypes, List.mem_cons, List.mem_singleton, List.mem_nil_iff,
        or_false] at hqt
      rcases hqt with h | h | h | h | h <;> subst h <;> simp

theorem filterByPrivacySettings_eq_filter (store : UserStore)
    (hok : ∀ ids, store.lookupFails ids = false) (hempty : store.privacyDoc "" = none)
    (results : List UserResult) (queryType me : String) (hqt : queryType ∈ knownQueryTypes) :
    filterByPrivacySettings store results (some queryType) me
      = results.filter (specVisible store queryType me) := by
  unfold filterByPrivacySettings
  by_cases h0 : results.length = 0
  · have : results = [] := List.length_eq_zero.mp h0
    subst this
    simp
  · simp only [h0, if_false]
    obtain ⟨m', hm', hget⟩ := fetchPrivacyMap_spec store hok _
      ((results.map (fun r => r.uid)).filter
        (fun id => decide (id ≠ "") && decide (id ≠ me))) (le_refl _) []
    have hmemids : ∀ r ∈ results, r.uid = me ∨ r.uid = "" ∨
        r.uid ∈ (results.map (fun r => r.uid)).filter
          (fun id => decide (id ≠ "") && decide (id ≠ me)) := by
      intro r hr
      by_cases h1 : r.uid = me
      · exact Or.inl h1
      · by_cases h2 : r.uid = ""
        · exact Or.inr (Or.inl h2)
        · refine Or.inr (Or.inr ?_)
          simp only [List.mem_filter, List.mem_map, Bool.and_eq_true, decide_eq_true_eq]
          exact ⟨⟨r, hr, rfl⟩, h2, h1⟩
    have hfilter : results.filter (privacyKeeps m' (some queryType) me)
        = results.filter (specVisible store queryType me) := by
      apply List.filter_congr
      intro r hr
      exact privacyKeeps_eq_specVisible store hempty _ m' queryType me hqt
        (fun uid => by rw [hget uid]; rfl) r (hmemids r hr)
    split_ifs with hlen
    · symm
      rw [List.filter_eq_self]
      intro r hr
      have hnil := List.length_eq_zero.mp hlen
      rcases hmemids r hr with h | h | h
      · simp [specVisible, h]
      · have hrec : privacyRecord store r.uid = {} := by
          rw [h]
          exact privacyRecord_of_none store "" (by simp [hempty])
        have hq := hqt
        simp only [knownQueryTypes, List.mem_cons, List.mem_singleton, List.mem_nil_iff,
          or_false] at hq
        unfold specVisible
        rw [hrec]
        rcases hq with h | h | h | h | h <;> subst h <;> simp [typeRule, notFalse]
      · rw [hnil] at h
        simp at h
    · rw [hm']
      exact hfilter

/-- C2: when every privacy lookup succeeds (and no user document has the empty
id, as Firestore guarantees) and the query type is one of name, partial, email,
phone, mixed, `filterByPrivacySettings` returns exactly the input candidates, in
input order, that are the requester or are not flagged fully private and pass
the per-type rule; an absent flag or privacy record counts as searchable. -/
theorem C2_filterByPrivacySettings (store : UserStore)
    (hok : ∀ ids, store.lookupFails ids = false) (hempty : store.privacyDoc "" = none)
    (results : List UserResult) (queryType currentUserId : String)
    (hqt : queryType ∈ knownQueryTypes) :
    filterByPrivacySettings store results (some queryType) currentUserId
      = results.filter (specVisible store queryType currentUserId) :=
  filterByPrivacySettings_eq_filter store hok hempty results queryType currentUserId hqt

/-- C2, witness: a name search over four candidates drops the fully private
user and the user hidden from name search, and keeps the two others. -/
theorem C2_witness :
    (∀ ids, sampleStore.lookupFails ids = false) ∧ sampleStore.privacyDoc "" = none ∧
    "name" ∈ knownQueryTypes ∧
    filterByPrivacySettings sampleStore sampleCandidates (some "name") "u0"
      = sampleCandidates.filter (specVisible sampleStore "name" "u0") ∧
    sampleCandidates.filter (specVisible sampleStore "name" "u0")
      = [{ uid := "u3", firstName := some "Anne" }, { uid := "u4", firstName := some "Annie" }] :=
  ⟨fun _ => rfl, by decide, by decide,
    C2_filterByPrivacySettings sampleStore (fun _ => rfl) (by decide) sampleCandidates
      "name" "u0" (by decide),
    by decide⟩

/-! ## Person search: ranking -/

theorem privacyStep_open_example :
    privacyStep openStore [annieByDisplayName, annByEmail] (some "partial") "me" true
      = [annieByDisplayName, annByEmail] := by
  unfold privacyStep
  rw [if_pos ⟨rfl, by decide⟩,
    filterByPrivacySettings_eq_filter openStore (fun _ => rfl) rfl _ "partial" "me" (by decide)]
  decide

/-- C6, as stated, fails: for the query "ann" the handler returns the candidate
found by e-mail (section 4.1 score 80 + 35 = 115) before the candidate found by
display name (section 4.1 score 85 + 40 = 125), because `rankResults` orders by
`calculateMatchScore` (7 against 5); the returned list is not in descending
order of the section 4.1 score. -/
theorem C6_counterexample :
    advancedUserSearchV2 openStore [annieByDisplayName, annByEmail] "ann" (some "partial") 15
        true "me" = [annByEmail, annieByDisplayName] ∧
    section41Score false annByEmail "ann" = 115 ∧
    section41Score false annieByDisplayName "ann" = 125 ∧
    ¬ (advancedUserSearchV2 openStore [annieByDisplayName, annByEmail] "ann" (some "partial") 15
        true "me").Pairwise
      (fun a b => section41Score false a "ann" ≥ section41Score false b "ann") := by
  have hout : advancedUserSearchV2 openStore [annieByDisplayName, annByEmail] "ann"
      (some "partial") 15 true "me" = [annByEmail, annieByDisplayName] := by
    unfold advancedUserSearchV2
    rw [privacyStep_open_example]
    decide
  have ha : calculateInstantMatchScore annByEmail "ann" = 115 := by decide
  have hb : calculateInstantMatchScore annieByDisplayName "ann" = 125 := by decide
  have hsa : section41Score false annByEmail "ann" = 115 := by
    simp [section41Score, ha]
  have hsb : section41Score false annieByDisplayName "ann" = 125 := by
    simp [section41Score, hb]
  refine ⟨hout, hsa, hsb, ?_⟩
  rw [hout]
  intro hp
  have := List.rel_of_pairwise_cons hp (List.mem_singleton_self _)
  rw [hsa, hsb] at this
  norm_num at this

/-- C6, amended: for every candidate list, query and limit, the list that
`advancedUserSearchV2` returns after privacy filtering is the remaining
candidates stable-sorted in descending order of `calculateMatchScore` (substring
weights: full name 10, first name 8, e-mail 7, last name 6, display name 5) and
truncated to the limit: it is the first `limit` entries of a permutation of the
filtered candidates in which scores descend and candidates of equal score keep
their input order, so it has at most `limit` entries and no returned candidate
has a lower `calculateMatchScore` than a later or omitted one. -/
theorem C6_ranking_by_calculateMatchScore (store : UserStore)
    (searchResults : List UserResult) (query : String) (queryType : Option String)
    (limit : Nat) (applyPrivacyFilter : Bool) (currentUserId : String) :
    let filtered := privacyStep store searchResults queryType currentUserId applyPrivacyFilter
    let out := advancedUserSearchV2 store searchResults query queryType limit
      applyPrivacyFilter currentUserId
    ∃ ranked : List UserResult,
      out = ranked.take limit ∧ ranked.Perm filtered ∧
      ranked.Pairwise (fun a b => calculateMatchScore a query ≥ calculateMatchScore b query) ∧
      (∀ s, ranked.filter (fun r => decide (calculateMatchScore r query = s))
        = filtered.filter (fun r => decide (calculateMatchScore r query = s))) ∧
      out.length ≤ limit ∧
      out.Pairwise (fun a b => calculateMatchScore a query ≥ calculateMatchScore b query) ∧
      (∀ a ∈ out, ∀ b ∈ ranked.drop limit,
        calculateMatchScore a query ≥ calculateMatchScore b query) := by
  intro filtered out
  have hsorted := sortByDesc_sorted (fun r => calculateMatchScore r query) filtered
  refine ⟨rankResults filtered query, rfl, sortByDesc_perm _ filtered, hsorted,
    fun s => sortByDesc_stable (fun r => calculateMatchScore r query) filtered s,
    List.length_take_le _ _, hsorted.sublist (List.take_sublist _ _), ?_⟩
  intro a ha b hb
  have hsplit : (rankResults filtered query).take limit ++ (rankResults filtered query).drop limit
      = sortByDesc (fun r => calculateMatchScore r query) filtered := List.take_append_drop _ _
  rw [← hsplit, List.pairwise_append] at hsorted
  exact hsorted.2.2 a ha b hb

/-! ## Person search: merging -/

theorem firstOccurrences_sublist (l : List UserDoc) : List.Sublist (firstOccurrences l) l := by
  induction l with
  | nil => exact List.Sublist.slnil
  | cons d ds ih =>
    exact List.Sublist.cons₂ d ((List.filter_sublist _).trans ih)

theorem firstOccurrences_nodup (l : List UserDoc) :
    ((firstOccurrences l).map (fun d => d.id)).Nodup := by
  induction l with
  | nil => exact List.nodup_nil
  | cons d ds ih =>
    simp only [firstOccurrences, List.map_cons, List.nodup_cons]
    constructor
    · intro hmem
      rw [List.mem_map] at hmem
      obtain ⟨e, he, hid⟩ := hmem
      simp only [List.mem_filter, decide_eq_true_eq] at he
      exact he.2 hid
    · exact ih.sublist ((List.filter_sublist _).map _)

theorem mem_firstOccurrences_ids (l : List UserDoc) (id : String) :
    id ∈ (firstOccurrences l).map (fun d => d.id) ↔ id ∈ l.map (fun d => d.id) := by
  induction l with
  | nil => simp [firstOccurrences]
  | cons d ds ih =>
    simp only [firstOccurrences, List.map_cons, List.mem_cons]
    by_cases h : id = d.id
    · simp [h]
    · constructor
      · rintro (h' | h')
        · exact absurd h' h
        · right
          rw [← ih]
          rw [List.mem_map] at h' ⊢
          obtain ⟨e, he, hid⟩ := h'
          exact ⟨e, List.mem_of_mem_filter he, hid⟩
      · rintro (h' | h')
        · exact absurd h' h
        · right
          rw [← ih] at h'
          rw [List.mem_map] at h' ⊢
          obtain ⟨e, he, hid⟩ := h'
          refine ⟨e, ?_, hid⟩
          simp only [List.mem_filter, decide_eq_true_eq]
          exact ⟨he, fun h'' => h (hid.symm.trans h'')⟩

/-- The merge loop over one list of documents, from any accumulator: it
appends the first occurrences of the identities not seen before. -/
theorem foldl_mergeDoc (l : List UserDoc) (res : List UserResult) (seen : List String) :
    l.foldl mergeDoc (res, seen)
      = (res ++ ((firstOccurrences l).filter (fun d => decide (d.id ∉ seen))).map
            UserDoc.toResult,
          seen ++ ((firstOccurrences l).filter (fun d => decide (d.id ∉ seen))).map
            (fun d => d.id)) := by
  induction l generalizing res seen with
  | nil => simp [firstOccurrences]
  | cons d ds ih =>
    rw [List.foldl_cons]
    by_cases hd : d.id ∈ seen
    · have hstep : mergeDoc (res, seen) d = (res, seen) := by simp [mergeDoc, hd]
      have hfilter : (firstOccurrences (d :: ds)).filter (fun e => decide (e.id ∉ seen))
          = (firstOccurrences ds).filter (fun e => decide (e.id ∉ seen)) := by
        simp only [firstOccurrences, List.filter_cons, hd, not_true_eq_false, decide_False,
          Bool.false_eq_true, if_false, List.filter_filter]
        apply List.filter_congr
        intro e _
        by_cases he : e.id ∈ seen
        · simp [he]
        · have : e.id ≠ d.id := fun h => he (h ▸ hd)
          simp [he, this]
      rw [hstep, ih, hfilter]
    · have hstep : mergeDoc (res, seen) d = (res ++ [d.toResult], seen ++ [d.id]) := by
        simp [mergeDoc, hd]
      have hfilter : (firstOccurrences (d :: ds)).filter (fun e => decide (e.id ∉ seen))
          = d :: (firstOccurrences ds).filter (fun e => decide (e.id ∉ seen ++ [d.id])) := by
        simp only [firstOccurrences, List.filter_cons, hd, not_false_eq_true, decide_True,
          if_true, List.filter_filter]
        congr 1
        apply List.filter_congr
        intro e _
        by_cases he : e.id ∈ seen <;> by_cases he' : e.id = d.id <;> simp [he, he']
      rw [hstep, ih, hfilter]
      simp

theorem foldl_foldl_mergeDoc (snapshots : List (List UserDoc))
    (acc : List UserResult × List String) :
    snapshots.foldl (fun acc snapshot => snapshot.foldl mergeDoc acc) acc
      = snapshots.flatten.foldl mergeDoc acc := by
  induction snapshots generalizing acc with
  | nil => rfl
  | cons snap rest ih => rw [List.foldl_cons, ih, List.flatten_cons, List.foldl_append]

theorem merge_eq_specMerge (snapshots : List (List UserDoc)) (limit : Nat) :
    ((snapshots.foldl (fun acc snapshot => snapshot.foldl mergeDoc acc) ([], [])).1).take limit
      = specMerge snapshots limit := by
  rw [foldl_foldl_mergeDoc, foldl_mergeDoc]
  simp [specMerge]

theorem specMerge_nodup (snapshots : List (List UserDoc)) (limit : Nat) :
    ((specMerge snapshots limit).map (fun r => r.uid)).Nodup := by
  have h := firstOccurrences_nodup snapshots.flatten
  have hmap : ((firstOccurrences snapshots.flatten).map UserDoc.toResult).map (fun r => r.uid)
      = (firstOccurrences snapshots.flatten).map (fun d => d.id) := by
    rw [List.map_map]
    rfl
  unfold specMerge
  rw [← hmap] at h
  exact h.sublist ((List.take_sublist _ _).map _)

theorem specMerge_sublist (snapshots : List (List UserDoc)) (limit : Nat) :
    List.Sublist (specMerge snapshots limit) (snapshots.flatten.map UserDoc.toResult) :=
  (List.take_sublist _ _).trans ((firstOccurrences_sublist _).map _)

/-- C7: for every sequence of lookup result sets and every limit, the merge of
`searchByNameOptimized`, `searchByEmailOptimized` and `searchByPhoneOptimized`
returns the first `limit` elements of the concatenation of the result sets in
input order with only the first occurrence of each document identity kept; no
two returned entries have the same uid, every returned entry comes from some
input set, and the returned entries appear in discovery order. -/
theorem C7_merge_first_seen_wins (snapshots : List (List UserDoc)) (limit : Nat) :
    searchByNameOptimized snapshots limit = specMerge snapshots limit ∧
    searchByEmailOptimized snapshots limit = specMerge snapshots limit ∧
    searchByPhoneOptimized snapshots limit = specMerge snapshots limit ∧
    ((specMerge snapshots limit).map (fun r => r.uid)).Nodup ∧
    (∀ r ∈ specMerge snapshots limit,
      ∃ snapshot ∈ snapshots, ∃ doc ∈ snapshot, r = doc.toResult) ∧
    List.Sublist (specMerge snapshots limit) (snapshots.flatten.map UserDoc.toResult) := by
  refine ⟨merge_eq_specMerge snapshots limit, merge_eq_specMerge snapshots limit,
    merge_eq_specMerge snapshots limit, specMerge_nodup snapshots limit, ?_,
    specMerge_sublist snapshots limit⟩
  intro r hr
  have hmem := (specMerge_sublist snapshots limit).subset hr
  rw [List.mem_map] at hmem
  obtain ⟨doc, hdoc, rfl⟩ := hmem
  rw [List.mem_flatten] at hdoc
  obtain ⟨snapshot, hs, hd⟩ := hdoc
  exact ⟨snapshot, hs, doc, hd, rfl⟩

/-! ## Budget alerts -/

theorem budgetAlerts_cases (budget : ℚ) (ownerId : Option String) (totalSpent itemTotal : ℚ)
    (hb : budget > 0) (ho : truthy ownerId = true) :
    let u := totalSpent / budget
    let p := (totalSpent - itemTotal) / budget
    (newlyCrossed 100 p u ∧ budgetAlerts budget ownerId totalSpent itemTotal
        = [{ type := "exceeded", threshold := 100, utilization := u }]) ∨
    (¬ newlyCrossed 100 p u ∧ newlyCrossed 90 p u ∧
      budgetAlerts budget ownerId totalSpent itemTotal
        = [{ type := "near_limit", threshold := 90, utilization := u }]) ∨
    (¬ newlyCrossed 100 p u ∧ ¬ newlyCrossed 90 p u ∧ newlyCrossed 75 p u ∧
      budgetAlerts budget ownerId totalSpent itemTotal
        = [{ type := "warning", threshold := 75, utilization := u }]) ∨
    (¬ newlyCrossed 100 p u ∧ ¬ newlyCrossed 90 p u ∧ ¬ newlyCrossed 75 p u ∧
      budgetAlerts budget ownerId totalSpent itemTotal = []) := by
  intro u p
  have e100 : newlyCrossed 100 p u ↔ (u ≥ 1.0 ∧ p < 1.0) := by
    unfold newlyCrossed
    norm_num
    exact and_comm
  have e90 : newlyCrossed 90 p u ↔ (u ≥ 0.9 ∧ p < 0.9) := by
    unfold newlyCrossed
    norm_num
    exact and_comm
  have e75 : newlyCrossed 75 p u ↔ (u ≥ 0.75 ∧ p < 0.75) := by
    unfold newlyCrossed
    norm_num
    exact and_comm
  have hdef : budgetAlerts budget ownerId totalSpent itemTotal
      = if u ≥ 1.0 ∧ p < 1.0 then [{ type := "exceeded", threshold := 100, utilization := u }]
        else if u ≥ 0.9 ∧ p < 0.9 then
          [{ type := "near_limit", threshold := 90, utilization := u }]
        else if u ≥ 0.75 ∧ p < 0.75 then
          [{ type := "warning", threshold := 75, utilization := u }]
        else [] := by
    unfold budgetAlerts
    rw [if_pos ⟨hb, ho⟩]
  rw [hdef, e100, e90, e75]
  by_cases h1 : u ≥ 1.0 ∧ p < 1.0
  · exact Or.inl ⟨h1, by rw [if_pos h1]⟩
  · by_cases h2 : u ≥ 0.9 ∧ p < 0.9
    · exact Or.inr (Or.inl ⟨h1, h2, by rw [if_neg h1, if_pos h2]⟩)
    · by_cases h3 : u ≥ 0.75 ∧ p < 0.75
      · exact Or.inr (Or.inr (Or.inl ⟨h1, h2, h3, by rw [if_neg h1, if_neg h2, if_pos h3]⟩))
      · exact Or.inr (Or.inr (Or.inr ⟨h1, h2, h3, by rw [if_neg h1, if_neg h2, if_neg h3]⟩))

/-- C3: for every budget > 0 with an owner, every `totalSpent` and every item
total, the alert check emits at most one alert; with utilization =
totalSpent/budget and previousUtilization = (totalSpent - itemTotal)/budget it
emits `exceeded` (100), `near_limit` (90) or `warning` (75) exactly when that
threshold is the highest one newly crossed, and nothing when none is. -/
theorem C3_budgetAlerts_highest_crossed (budget : ℚ) (ownerId : Option String)
    (totalSpent itemTotal : ℚ) (hb : budget > 0) (ho : truthy ownerId = true) :
    let alerts := budgetAlerts budget ownerId totalSpent itemTotal
    let u := totalSpent / budget
    let p := (totalSpent - itemTotal) / budget
    alerts.length ≤ 1 ∧
    (emits alerts "exceeded" 100 ↔ newlyCrossed 100 p u) ∧
    (emits alerts "near_limit" 90 ↔ newlyCrossed 90 p u ∧ ¬ newlyCrossed 100 p u) ∧
    (emits alerts "warning" 75 ↔
      newlyCrossed 75 p u ∧ ¬ newlyCrossed 90 p u ∧ ¬ newlyCrossed 100 p u) ∧
    (alerts = [] ↔ ¬ newlyCrossed 100 p u ∧ ¬ newlyCrossed 90 p u ∧ ¬ newlyCrossed 75 p u) ∧
    (∀ a ∈ alerts, a.utilization = u ∧
      (a.type, a.threshold) ∈ [("exceeded", 100), ("near_limit", 90), ("warning", 75)]) := by
  intro alerts u p
  rcases budgetAlerts_cases budget ownerId totalSpent itemTotal hb ho with
    ⟨h1, h⟩ | ⟨h1, h2, h⟩ | ⟨h1, h2, h3, h⟩ | ⟨h1, h2, h3, h⟩
  · have ha : alerts = _ := h
    rw [ha]
    simp [emits, h1]
  · have ha : alerts = _ := h
    rw [ha]
    simp [emits, h1, h2]
  · have ha : alerts = _ := h
    rw [ha]
    simp [emits, h1, h2, h3]
  · have ha : alerts = _ := h
    rw [ha]
    simp [emits, h1, h2, h3]

/-- C3, witness: with budget 100, a completed item of 35 that takes the total
from 60 to 95 emits the single alert `near_limit`, and no `warning`. -/
theorem C3_witness :
    (100 : ℚ) > 0 ∧ truthy (some "owner") = true ∧
    budgetAlerts 100 (some "owner") 95 35
      = [{ type := "near_limit", threshold := 90, utilization := 95 / 100 }] ∧
    ¬ emits (budgetAlerts 100 (some "owner") 95 35) "warning" 75 := by
  have h := C3_budgetAlerts_highest_crossed 100 (some "owner") 95 35 (by norm_num) (by decide)
  have hc : newlyCrossed 90 (((95 : ℚ) - 35) / 100) ((95 : ℚ) / 100) := by
    unfold newlyCrossed
    norm_num
  have hn : ¬ newlyCrossed 100 (((95 : ℚ) - 35) / 100) ((95 : ℚ) / 100) := by
    unfold newlyCrossed
    norm_num
  refine ⟨by norm_num, by decide, ?_, ?_⟩
  · unfold budgetAlerts
    rw [if_pos ⟨by norm_num, by decide⟩]
    norm_num
  · intro hw
    exact (h.2.2.2.1.mp hw).2.1 hc

/-! ## Purchase intent -/

theorem JSMap.mem_of_get {κ ν : Type} [DecidableEq κ] (m : JSMap κ ν) (k : κ) (v : ν)
    (h : JSMap.get m k = some v) : (k, v) ∈ m := by
  induction m with
  | nil => simp [JSMap.get] at h
  | cons e m ih =>
    obtain ⟨a, b⟩ := e
    by_cases hk : a = k
    · simp only [JSMap.get, hk, if_true, Option.some.injEq] at h
      simp [hk, h]
    · simp only [JSMap.get, hk, if_false] at h
      exact List.mem_cons_of_mem _ (ih h)

theorem JSMap.mem_set {κ ν : Type} [DecidableEq κ] (m : JSMap κ ν) (k : κ) (v : ν)
    (e : κ × ν) (h : e ∈ JSMap.set m k v) : e ∈ m ∨ e = (k, v) := by
  induction m with
  | nil =>
    simp only [JSMap.set, List.mem_singleton] at h
    exact Or.inr h
  | cons x m ih =>
    obtain ⟨a, b⟩ := x
    by_cases hk : a = k
    · simp only [JSMap.set, hk, if_true, List.mem_cons] at h
      rcases h with h | h
      · exact Or.inr h
      · exact Or.inl (List.mem_cons_of_mem _ h)
    · simp only [JSMap.set, hk, if_false, List.mem_cons] at h
      rcases h with h | h
      · exact Or.inl (by simp [h])
      · rcases ih h with h' | h'
        · exact Or.inl (List.mem_cons_of_mem _ h')
        · exact Or.inr h'

/-- An entry without a `timeSpent` property scores `NaN`: `undefined / 1000`
is `NaN`, and every later step propagates it. -/
theorem intentScore_nan (now : Int) (priceInteractions : JSMap String PriceInteraction)
    (productId : String) (data : ViewedProduct) (h : data.timeSpent = none) :
    intentScore now priceInteractions productId data = JSNum.nan := by
  unfold intentScore
  rw [h]
  cases data.lastViewed <;> cases JSMap.get priceInteractions productId <;>
    simp only [JSNum.ofProperty, JSNum.div, JSNum.min, JSNum.add, JSNum.round] <;>
    split_ifs <;> rfl

theorem processProductView_viewedProducts (catalog : String → Option ProductData)
    (clock : Clock) (a : ComprehensiveAnalytics) (productId : String) (timeSpent : Option ℚ)
    (interactionData : Option InteractionData) :
    (processProductView catalog clock a productId timeSpent
        interactionData).productBehavior.viewedProducts
      = JSMap.set a.productBehavior.viewedProducts productId
          (viewedProductAfter (catalog productId) clock
            (JSMap.get a.productBehavior.viewedProducts productId) timeSpent interactionData) := by
  unfold processProductView
  dsimp only
  split_ifs <;> rfl

theorem viewedProductAfter_timeSpent (productData : Option ProductData) (clock : Clock)
    (existing : Option ViewedProduct) (timeSpent : Option ℚ)
    (interactionData : Option InteractionData) :
    (viewedProductAfter productData clock existing timeSpent interactionData).timeSpent
      = (existing.map (fun v => v.timeSpent)).getD none := by
  cases existing <;> rfl

theorem processEventForAnalytics_noTimeSpent (catalog : String → Option ProductData)
    (clock : Clock) (a : ComprehensiveAnalytics) (ev : EventData) (h : NoTimeSpent a) :
    NoTimeSpent (processEventForAnalytics catalog clock a ev) := by
  unfold processEventForAnalytics
  dsimp only
  split_ifs
  · exact h
  · have hset := processProductView_viewedProducts catalog clock a
      (ev.productId.getD "") ev.timeSpent ev.interactionData
    intro e he
    change e ∈ (processProductView catalog clock a (ev.productId.getD "") ev.timeSpent
      ev.interactionData).productBehavior.viewedProducts at he
    rw [hset] at he
    rcases JSMap.mem_set _ _ _ _ he with h' | h'
    · exact h e h'
    · rw [h', viewedProductAfter_timeSpent]
      cases hg : JSMap.get a.productBehavior.viewedProducts (ev.productId.getD "") with
      | none => rfl
      | some w => exact h _ (JSMap.mem_of_get _ _ _ hg)
  · exact h
  · exact h
  · exact h
  · exact h
  · exact h

theorem processEvents_noTimeSpent (catalog : String → Option ProductData)
    (events : List (Clock × EventData)) (a : ComprehensiveAnalytics) (h : NoTimeSpent a) :
    NoTimeSpent (events.foldl (fun a ce => processEventForAnalytics catalog ce.1 a ce.2) a) := by
  induction events generalizing a with
  | nil => exact h
  | cons ce events ih =>
    exact ih _ (processEventForAnalytics_noTimeSpent catalog ce.1 a ce.2 h)

theorem get_foldl_const {ν μ : Type} (f : String × ν → μ) (c : μ) (l : List (String × ν))
    (hl : ∀ e ∈ l, f e = c) (m : JSMap String μ) (k : String) :
    JSMap.get (l.foldl (fun m e => JSMap.set m e.1 (f e)) m) k
      = if k ∈ l.map (fun e => e.1) then some c else JSMap.get m k := by
  induction l generalizing m with
  | nil => simp
  | cons e l ih =>
    rw [List.foldl_cons, ih (fun x hx => hl x (List.mem_cons_of_mem _ hx)), JSMap.get_set,
      hl e (List.mem_cons_self _ _)]
    by_cases h1 : k ∈ l.map (fun e => e.1)
    · simp [h1]
    · by_cases h2 : e.1 = k
      · simp [h2]
      · have h3 : ¬ k = e.1 := fun h => h2 h.symm
        simp [h1, h2, h3]

/-- Whatever events were processed since the initial structure, every product
in `viewedProducts` is stored in `highIntentProducts` with the score `NaN`. -/
theorem highIntentProducts_nan (catalog : String → Option ProductData)
    (events : List (Clock × EventData)) (now : Int) (productId : String) :
    let a := events.foldl (fun a ce => processEventForAnalytics catalog ce.1 a ce.2)
      initialAnalytics
    JSMap.get (calculatePurchaseIntentScores now a).highIntentProducts productId
      = if productId ∈ a.productBehavior.viewedProducts.map (fun e => e.1)
        then some JSNum.nan else none := by
  intro a
  have hinv : NoTimeSpent a :=
    processEvents_noTimeSpent catalog events initialAnalytics (fun e he => by
      simp [initialAnalytics] at he)
  unfold calculatePurchaseIntentScores
  exact get_foldl_const
    (fun e => intentScore now a.productBehavior.priceInteractions e.1 e.2) JSNum.nan
    a.productBehavior.viewedProducts
    (fun e he => intentScore_nan now _ e.1 e.2 (hinv e he)) [] productId

theorem analyticsAfterViewsOfX_entry :
    (JSMap.get analyticsAfterViewsOfX.productBehavior.viewedProducts "X").map
        (fun v => (v.viewCount, v.totalTimeSpent, v.lastViewed, v.timeSpent))
      = some (3, 45000, some 3000, none) ∧
    (JSMap.get analyticsAfterViewsOfX.productBehavior.priceInteractions "X").map
        (fun v => v.priceChecks) = some 2 := by
  constructor
  · simp [analyticsAfterViewsOfX, processEventForAnalytics, processProductView,
      processPriceCheck, viewedProductAfter, initialAnalytics, viewX, priceCheckX, clockAt,
      truthy, JSMap.get, JSMap.set]
    norm_num
  · simp [analyticsAfterViewsOfX, processEventForAnalytics, processProductView,
      processPriceCheck, viewedProductAfter, initialAnalytics, viewX, priceCheckX, clockAt,
      truthy, JSMap.get, JSMap.set]

theorem specIntentScore_example : specIntentScore 3 45000 (7200000 / 86400000) 2 = 59 := by
  unfold specIntentScore
  have h : (⌊Min.min (40 : ℚ) ((3 : ℕ) * 8) + Min.min 30 (45000 / 1000 / 10)
      + (if (7200000 / 86400000 : ℚ) < 1 then 20 else if (7200000 / 86400000 : ℚ) < 7 then 10
          else 0)
      + Min.min 10 ((2 : ℕ) * 5) + 1 / 2⌋ : ℤ) = 59 := by
    rw [Int.floor_eq_iff]
    norm_num
  simp only [h]
  norm_num

/-- C4, the code at the witness of the claim: after three views of X totalling
45000 ms and two price checks on X, the entry of X holds viewCount 3, 45000 ms
under `totalTimeSpent` and no `timeSpent` property, and the score recomputed two
hours after the last view is stored as `NaN`, where the formula of the claim
gives 59. -/
theorem C4_highIntentProducts_is_NaN :
    (JSMap.get analyticsAfterViewsOfX.productBehavior.viewedProducts "X").map
        (fun v => (v.viewCount, v.totalTimeSpent, v.lastViewed, v.timeSpent))
      = some (3, 45000, some 3000, none) ∧
    JSMap.get (calculatePurchaseIntentScores (3000 + 7200000)
        analyticsAfterViewsOfX).highIntentProducts "X" = some JSNum.nan ∧
    specIntentScore 3 45000 (7200000 / 86400000) 2 = 59 := by
  refine ⟨analyticsAfterViewsOfX_entry.1, ?_, specIntentScore_example⟩
  have h := highIntentProducts_nan (fun _ => none)
    [(clockAt 1000, viewX), (clockAt 2000, viewX), (clockAt 3000, viewX),
      (clockAt 4000, priceCheckX), (clockAt 5000, priceCheckX)] (3000 + 7200000) "X"
  have hmem : "X" ∈ analyticsAfterViewsOfX.productBehavior.viewedProducts.map (fun e => e.1) := by
    decide
  exact h.trans (if_pos hmem)

/-! ## Product search: the inclusion threshold -/

theorem mem_scoreProducts (snapshot : List Product) (q : String) (hit : SearchHit)
    (h : hit ∈ scoreProducts snapshot q) : Qualifies snapshot q hit := by
  unfold scoreProducts at h
  rw [List.mem_filterMap] at h
  obtain ⟨p, hp, hsome⟩ := h
  dsimp only at hsome
  split_ifs at hsome with hs
  simp only [Option.some.injEq] at hsome
  subst hsome
  refine ⟨hp, rfl, ?_⟩
  norm_num at hs ⊢
  exact hs

theorem length_scoreProducts (snapshot : List Product) (q : String) :
    (scoreProducts snapshot q).length
      = (snapshot.filter (fun p => decide (calculateSearchScore p q > 3 / 10))).length := by
  unfold scoreProducts
  induction snapshot with
  | nil => rfl
  | cons p l ih =>
    by_cases hs : calculateSearchScore p q > 0.3
    · have hs' : calculateSearchScore p q > 3 / 10 := by
        norm_num at hs ⊢
        exact hs
      simp only [List.filterMap_cons, hs, if_true, List.length_cons, ih, List.filter_cons, hs',
        decide_True]
    · have hs' : ¬ calculateSearchScore p q > 3 / 10 := by
        norm_num at hs ⊢
        exact hs
      simp only [List.filterMap_cons, hs, if_false, ih, List.filter_cons, hs', decide_False]
      rfl

theorem attachPreview_qualifies (snapshot : List Product) (q : String)
    (m : JSMap String PricePreview) (l : List SearchHit)
    (hl : ∀ hit ∈ l, Qualifies snapshot q hit) :
    ∀ hit ∈ attachPreview m l, Qualifies snapshot q hit := by
  intro hit hmem
  unfold attachPreview at hmem
  rw [List.mem_map] at hmem
  obtain ⟨h0, h0mem, rfl⟩ := hmem
  have hq := hl h0 h0mem
  cases JSMap.get m h0.product.id <;> exact hq

theorem filterByStores_qualifies (snapshot : List Product) (q : String)
    (prices : List PriceDoc) (storesFilter : List String) (l : List SearchHit)
    (hl : ∀ hit ∈ l, Qualifies snapshot q hit) :
    ∀ hit ∈ filterByStores prices storesFilter l, Qualifies snapshot q hit := by
  unfold filterByStores
  exact attachPreview_qualifies snapshot q _ _
    (fun hit hmem => hl hit (List.mem_of_mem_filter hmem))

theorem previewAllStores_qualifies (snapshot : List Product) (q : String)
    (prices : List PriceDoc) (l : List SearchHit)
    (hl : ∀ hit ∈ l, Qualifies snapshot q hit) :
    ∀ hit ∈ previewAllStores prices l, Qualifies snapshot q hit := by
  unfold previewAllStores
  exact attachPreview_qualifies snapshot q _ _ hl

theorem freshSearch_results_qualify (catalog : List Product) (prices : List PriceDoc)
    (q : String) (filters : SearchFilters) (storesFilter : List String) (limit : Nat) :
    ∀ hit ∈ (freshSearch catalog prices q filters storesFilter limit).results,
      Qualifies (fetchProducts catalog filters.category limit) q hit := by
  have h1 : ∀ hit ∈ ((scoreProducts (fetchProducts catalog filters.category limit)
      q).insertionSort byScoreDesc).take
        (Nat.min ((scoreProducts (fetchProducts catalog filters.category limit)
          q).insertionSort byScoreDesc).length (Nat.min (limit * 3) 90)),
      Qualifies (fetchProducts catalog filters.category limit) q hit := by
    intro hit hmem
    have := List.mem_of_mem_take hmem
    rw [List.mem_insertionSort] at this
    exact mem_scoreProducts _ _ _ this
  intro hit hmem
  unfold freshSearch at hmem
  dsimp only at hmem
  have hmem' := List.mem_of_mem_take hmem
  split_ifs at hmem' with ha hb hb
  · exact absurd hb.1 (by omega)
  · exact filterByStores_qualifies _ _ _ _ _ h1 hit hmem'
  · exact previewAllStores_qualifies _ _ _ _ h1 hit hmem'
  · exact h1 hit hmem'

theorem freshSearch_totalFound (catalog : List Product) (prices : List PriceDoc)
    (q : String) (filters : SearchFilters) (storesFilter : List String) (limit : Nat) :
    (freshSearch catalog prices q filters storesFilter limit).metadata.totalFound
      = ((fetchProducts catalog filters.category limit).filter
          (fun p => decide (calculateSearchScore p q > 3 / 10))).length :=
  length_scoreProducts _ q

theorem length_freshSearch_results (catalog : List Product) (prices : List PriceDoc)
    (q : String) (filters : SearchFilters) (storesFilter : List String) (limit : Nat) :
    (freshSearch catalog prices q filters storesFilter limit).results.length ≤ limit := by
  unfold freshSearch
  exact List.length_take_le _ _

/-- A response of the handler that is not tagged as a cache hit is the
empty response to a blank query or the uncached computation. -/
theorem fastProductSearchV2_untagged (catalog : List Product) (prices : List PriceDoc)
    (now : Int) (state : CacheState) (request : SearchRequest)
    (h : (fastProductSearchV2 catalog prices now state request).1.metadata.cache
      = CacheTag.absent) :
    ((String.mk (trim request.query.toList)).length = 0 ∧
      (fastProductSearchV2 catalog prices now state request).1
        = { success := true, results := [],
            metadata := { totalFound := 0, query := String.mk (trim request.query.toList),
                          appliedStores := [] } }) ∨
    (fastProductSearchV2 catalog prices now state request).1
      = freshSearch catalog prices (String.mk (trim request.query.toList)) request.filters
          (sortStrings (storesFilterOf request.filters)) request.limit := by
  unfold fastProductSearchV2 at h ⊢
  dsimp only at h ⊢
  by_cases h0 : (String.mk (trim request.query.toList)).length = 0
  · left
    rw [if_pos h0]
    exact ⟨h0, rfl⟩
  · right
    rw [if_neg h0] at h ⊢
    cases hp : popularLookup now state (String.mk (trim request.query.toList)) request.filters
        (storesFilterOf request.filters) with
    | some pop =>
      rw [hp] at h
      simp at h
    | none =>
      rw [hp] at h
      dsimp only at h ⊢
      rcases hg : getSearchCache now state.SEARCH_CACHE
          (cacheKeyOf (String.mk (trim request.query.toList)) request.filters
            (sortStrings (storesFilterOf request.filters)) request.limit) with ⟨c, cache⟩
      cases c with
      | some cached =>
        rw [hg] at h
        simp at h
      | none => rfl

/-! ## Search preference learning -/

/-- C9, the code on a failing input: the first search, with category filter
"dairy", writes totalSearches 1 and categoryFrequency dairy 1 with the score
`category_dairy` = Infinity (the score is computed from the totalSearches read,
0, before the increment), where the claim gives (1/1) ln 2; the second such
search writes totalSearches 2 and frequency 2 with the score (2/1) ln 3, where
the claim gives (2/2) ln 3. -/
theorem C9_scores_use_stale_totalSearches :
    (firstDairySearch (fun b e : ℝ => b ^ e) Real.log).totalSearches = 1 ∧
    JSMap.get (firstDairySearch (fun b e : ℝ => b ^ e) Real.log).categoryFrequency "dairy"
      = some 1 ∧
    JSMap.get (firstDairySearch (fun b e : ℝ => b ^ e) Real.log).personalizedScores
      "category_dairy" = some JSNum.posInf ∧
    (secondDairySearch (fun b e : ℝ => b ^ e) Real.log).totalSearches = 2 ∧
    JSMap.get (secondDairySearch (fun b e : ℝ => b ^ e) Real.log).categoryFrequency "dairy"
      = some 2 ∧
    JSMap.get (secondDairySearch (fun b e : ℝ => b ^ e) Real.log).personalizedScores
      "category_dairy" = some (JSNum.num ((2 / 1) * Real.log (1 + 2))) ∧
    ((2 : ℝ) / 1) * Real.log (1 + 2) ≠ ((2 : ℝ) / 2) * Real.log (1 + 2) := by
  have hlog2 : (0 : ℝ) < Real.log (1 + 1) := Real.log_pos (by norm_num)
  have hlog3 : (0 : ℝ) < Real.log (1 + 2) := Real.log_pos (by norm_num)
  refine ⟨rfl, ?_, ?_, rfl, ?_, ?_, ?_⟩
  · simp [firstDairySearch, updateUserSearchPreferences, truthy, increment, JSMap.get,
      JSMap.set]
  · simp [firstDairySearch, updateUserSearchPreferences, truthy, increment, JSMap.get,
      JSMap.set, calculatePersonalizedScores, tfLogScore, JSNum.div, JSNum.mul,
      JSNum.infOfSign, hlog2]
  · simp [secondDairySearch, firstDairySearch, updateUserSearchPreferences, truthy, increment,
      JSMap.get, JSMap.set]
  · simp [secondDairySearch, firstDairySearch, updateUserSearchPreferences, truthy, increment,
      JSMap.get, JSMap.set, calculatePersonalizedScores, tfLogScore, JSNum.div, JSNum.mul]
  · intro h
    have : ((2 : ℝ) / 1 - 2 / 2) * Real.log (1 + 2) = 0 := by linarith
    rcases mul_eq_zero.mp this with h' | h'
    · norm_num at h'
    · exact (ne_of_gt hlog3) h'

theorem JSMap.get_map_values {κ ν : Type} [DecidableEq κ] (g : κ × ν → ν) (m : JSMap κ ν)
    (k : κ) :
    JSMap.get (m.map (fun e => (e.1, g e))) k = (JSMap.get m k).map (fun v => g (k, v)) := by
  induction m with
  | nil => rfl
  | cons e m ih =>
    obtain ⟨a, b⟩ := e
    by_cases h : a = k
    · subst h
      simp [JSMap.get]
    · simp only [List.map_cons, JSMap.get, h, if_false]
      exact ih

theorem decayQueryFrequency_get {α : Type} [LinearOrderedField α] (pow : α → α → α)
    (m : JSMap String α) (lastUpdated : Option Int) (currentTime : Int) (k : String) :
    JSMap.get (decayQueryFrequency pow m lastUpdated currentTime) k
      = (JSMap.get m k).map (fun v =>
          if (((currentTime - lastUpdated.getD currentTime : Int) : α) / (1000 * 60 * 60 * 24)) > 0
          then v * pow 0.9 (((currentTime - lastUpdated.getD currentTime : Int) : α)
            / (1000 * 60 * 60 * 24))
          else v) := by
  have h := JSMap.get_map_values (fun e : String × α =>
      if (((currentTime - lastUpdated.getD currentTime : Int) : α) / (1000 * 60 * 60 * 24)) > 0
      then e.2 * pow 0.9 (((currentTime - lastUpdated.getD currentTime : Int) : α)
        / (1000 * 60 * 60 * 24))
      else e.2) m k
  rw [← h]
  unfold decayQueryFrequency
  congr 1
  apply List.map_congr_left
  intro e _
  dsimp only
  split_ifs <;> rfl

theorem updateUserSearchPreferences_queryFrequency {α : Type} [LinearOrderedField α]
    (pow : α → α → α) (log : α → α) (extractedBrands : List String) (clock : Clock)
    (stored : Option (SearchAnalytics α)) (query : String) (category : Option String) :
    (updateUserSearchPreferences pow log extractedBrands clock stored query
        category).queryFrequency
      = JSMap.set
          (decayQueryFrequency pow (stored.getD {}).queryFrequency (stored.getD {}).lastUpdated
            clock.nowMs)
          (String.mk (toLowerCase query.toList))
          ((JSMap.get
              (decayQueryFrequency pow (stored.getD {}).queryFrequency
                (stored.getD {}).lastUpdated clock.nowMs)
              (String.mk (toLowerCase query.toList))).getD 0 + 1) := by
  unfold updateUserSearchPreferences
  dsimp only
  split_ifs <;> rfl

/-- The frequency written for a stored entry that is not the searched query,
and the frequency written for the searched query, in terms of the decay
multiplier applied by the code. -/
theorem written_queryFrequency (log : ℝ → ℝ) (extractedBrands : List String) (clock : Clock)
    (stored : Option (SearchAnalytics ℝ)) (query : String) (category : Option String)
    (c : ℝ)
    (hc : ∀ v : ℝ,
      (if (((clock.nowMs - (stored.getD {}).lastUpdated.getD clock.nowMs : Int) : ℝ)
            / (1000 * 60 * 60 * 24)) > 0
        then v * (fun b e : ℝ => b ^ e) 0.9
          (((clock.nowMs - (stored.getD {}).lastUpdated.getD clock.nowMs : Int) : ℝ)
            / (1000 * 60 * 60 * 24))
        else v) = v * c) :
    (∀ q', q' ≠ String.mk (toLowerCase query.toList) →
      JSMap.get (updateUserSearchPreferences (fun b e : ℝ => b ^ e) log extractedBrands clock
          stored query category).queryFrequency q'
        = (JSMap.get (stored.getD {}).queryFrequency q').map (fun f => f * c)) ∧
    JSMap.get (updateUserSearchPreferences (fun b e : ℝ => b ^ e) log extractedBrands clock
        stored query category).queryFrequency (String.mk (toLowerCase query.toList))
      = some ((JSMap.get (stored.getD {}).queryFrequency
          (String.mk (toLowerCase query.toList))).getD 0 * c + 1) := by
  rw [updateUserSearchPreferences_queryFrequency]
  constructor
  · intro q' hq
    rw [JSMap.get_set, if_neg (fun h => hq h.symm), decayQueryFrequency_get]
    congr 1
    funext v
    exact hc v
  · rw [JSMap.get_set, if_pos rfl, decayQueryFrequency_get]
    congr 2
    cases JSMap.get (stored.getD {}).queryFrequency (String.mk (toLowerCase query.toList)) with
    | none => simp
    | some v =>
      simp only [Option.map_some', Option.getD_some]
      exact hc v

theorem decay_multiplier (t0 ms : Int) (hms : 0 ≤ ms) (v : ℝ) :
    (if ((((t0 + ms) - (some t0).getD (t0 + ms) : Int) : ℝ) / (1000 * 60 * 60 * 24)) > 0
      then v * (fun b e : ℝ => b ^ e) 0.9
        ((((t0 + ms) - (some t0).getD (t0 + ms) : Int) : ℝ) / (1000 * 60 * 60 * 24))
      else v) = v * (0.9 : ℝ) ^ ((ms : ℝ) / 86400000) := by
  have hdiff : (t0 + ms) - (some t0).getD (t0 + ms) = ms := by
    simp
  rw [hdiff]
  have hden : ((1000 : ℝ) * 60 * 60 * 24) = 86400000 := by norm_num
  rw [hden]
  split_ifs with h
  · rfl
  · have hle : (ms : ℝ) / 86400000 ≤ 0 := not_lt.mp h
    have hms' : (0 : ℝ) ≤ (ms : ℝ) := by exact_mod_cast hms
    have hzero : (ms : ℝ) / 86400000 = 0 :=
      le_antisymm hle (div_nonneg hms' (by norm_num))
    rw [hzero, Real.rpow_zero, mul_one]

theorem decay_multiplier_none (now : Int) (v : ℝ) :
    (if ((((now) - (none : Option Int).getD now : Int) : ℝ) / (1000 * 60 * 60 * 24)) > 0
      then v * (fun b e : ℝ => b ^ e) 0.9
        ((((now) - (none : Option Int).getD now : Int) : ℝ) / (1000 * 60 * 60 * 24))
      else v) = v * 1 := by
  simp

/-- C10: for every stored state and every search for query `q` arriving
`ms >= 0` milliseconds (d = ms/86400000 days) after the stored `lastUpdated`,
the written `queryFrequency` holds old * 0.9^d for every other stored query and
old * 0.9^d + 1 for the searched query (key: the lowercased query; old taken as
0 when absent); with no stored `lastUpdated` nothing is decayed; and for a
positive stored frequency of a query that is not searched, the written value
strictly decreases as the elapsed time increases.  Numbers are real numbers and
`Math.pow` is the real power function. -/
theorem C10_query_frequency_decay (log : ℝ → ℝ) (extractedBrands : List String)
    (stored : Option (SearchAnalytics ℝ)) (query : String) (category : Option String)
    (hour dayOfWeek month : Nat) :
    let key := String.mk (toLowerCase query.toList)
    let old := (stored.getD {}).queryFrequency
    let written := fun (now : Int) =>
      (updateUserSearchPreferences (fun b e : ℝ => b ^ e) log extractedBrands
        { nowMs := now, hour := hour, dayOfWeek := dayOfWeek, month := month }
        stored query category).queryFrequency
    (∀ (t0 ms : Int), (stored.getD {}).lastUpdated = some t0 → 0 ≤ ms →
      (∀ q', q' ≠ key → JSMap.get (written (t0 + ms)) q'
        = (JSMap.get old q').map (fun f => f * (0.9 : ℝ) ^ ((ms : ℝ) / 86400000))) ∧
      JSMap.get (written (t0 + ms)) key
        = some ((JSMap.get old key).getD 0 * (0.9 : ℝ) ^ ((ms : ℝ) / 86400000) + 1)) ∧
    ((stored.getD {}).lastUpdated = none → ∀ now : Int,
      (∀ q', q' ≠ key → JSMap.get (written now) q' = JSMap.get old q') ∧
      JSMap.get (written now) key = some ((JSMap.get old key).getD 0 + 1)) ∧
    (∀ (t0 ms₁ ms₂ : Int) (q' : String) (f : ℝ), (stored.getD {}).lastUpdated = some t0 →
      0 ≤ ms₁ → ms₁ < ms₂ → q' ≠ key → JSMap.get old q' = some f → 0 < f →
      ∃ v₁ v₂, JSMap.get (written (t0 + ms₁)) q' = some v₁ ∧
        JSMap.get (written (t0 + ms₂)) q' = some v₂ ∧ v₂ < v₁) := by
  intro key old written
  have hA : ∀ (t0 ms : Int), (stored.getD {}).lastUpdated = some t0 → 0 ≤ ms →
      (∀ q', q' ≠ key → JSMap.get (written (t0 + ms)) q'
        = (JSMap.get old q').map (fun f => f * (0.9 : ℝ) ^ ((ms : ℝ) / 86400000))) ∧
      JSMap.get (written (t0 + ms)) key
        = some ((JSMap.get old key).getD 0 * (0.9 : ℝ) ^ ((ms : ℝ) / 86400000) + 1) := by
    intro t0 ms hlast hms
    apply written_queryFrequency log extractedBrands
      { nowMs := t0 + ms, hour := hour, dayOfWeek := dayOfWeek, month := month } stored query
      category ((0.9 : ℝ) ^ ((ms : ℝ) / 86400000))
    intro v
    rw [hlast]
    exact decay_multiplier t0 ms hms v
  refine ⟨hA, ?_, ?_⟩
  · intro hlast now
    have h := written_queryFrequency log extractedBrands
      { nowMs := now, hour := hour, dayOfWeek := dayOfWeek, month := month } stored query
      category 1 (by
        intro v
        rw [hlast]
        exact decay_multiplier_none now v)
    constructor
    · intro q' hq
      rw [h.1 q' hq]
      cases JSMap.get (stored.getD {}).queryFrequency q' <;> simp
    · rw [h.2, mul_one]
  · intro t0 ms₁ ms₂ q' f hlast h1 h12 hq hf hpos
    refine ⟨f * (0.9 : ℝ) ^ ((ms₁ : ℝ) / 86400000), f * (0.9 : ℝ) ^ ((ms₂ : ℝ) / 86400000),
      ?_, ?_, ?_⟩
    · rw [(hA t0 ms₁ hlast h1).1 q' hq, hf]
      rfl
    · rw [(hA t0 ms₂ hlast (le_trans h1 (le_of_lt h12))).1 q' hq, hf]
      rfl
    · apply mul_lt_mul_of_pos_left _ hpos
      apply Real.rpow_lt_rpow_of_exponent_gt (by norm_num) (by norm_num)
      have h12' : (ms₁ : ℝ) < (ms₂ : ℝ) := by exact_mod_cast h12
      exact div_lt_div_of_pos_right h12' (by norm_num)

/-- C10, witness: with "milk" stored at frequency 2, a search for "eggs" one day
after the last update writes 2 * 0.9^1 for "milk" and 1 for "eggs", and the value
written for "milk" after two days is smaller than after one day. -/
theorem C10_witness :
    (milkAnalytics : SearchAnalytics ℝ).lastUpdated = some 0 ∧
    (0 : Int) ≤ 86400000 ∧ (86400000 : Int) < 172800000 ∧
    "milk" ≠ String.mk (toLowerCase "eggs".toList) ∧
    JSMap.get (milkAnalytics : SearchAnalytics ℝ).queryFrequency "milk" = some 2 ∧
    JSMap.get (updateUserSearchPreferences (fun b e : ℝ => b ^ e) Real.log []
        { nowMs := 0 + 86400000, hour := 10, dayOfWeek := 1, month := 0 }
        (some milkAnalytics) "eggs" none).queryFrequency "milk"
      = some (2 * (0.9 : ℝ) ^ (((86400000 : Int) : ℝ) / 86400000)) ∧
    (∃ v₁ v₂ : ℝ,
      JSMap.get (updateUserSearchPreferences (fun b e : ℝ => b ^ e) Real.log []
          { nowMs := 0 + 86400000, hour := 10, dayOfWeek := 1, month := 0 }
          (some milkAnalytics) "eggs" none).queryFrequency "milk" = some v₁ ∧
      JSMap.get (updateUserSearchPreferences (fun b e : ℝ => b ^ e) Real.log []
          { nowMs := 0 + 172800000, hour := 10, dayOfWeek := 1, month := 0 }
          (some milkAnalytics) "eggs" none).queryFrequency "milk" = some v₂ ∧
      v₂ < v₁) := by
  have h := C10_query_frequency_decay Real.log [] (some milkAnalytics) "eggs" none 10 1 0
  have hget : JSMap.get (milkAnalytics : SearchAnalytics ℝ).queryFrequency "milk" = some 2 := by
    simp [milkAnalytics, JSMap.get]
  have hne : "milk" ≠ String.mk (toLowerCase "eggs".toList) := by decide
  refine ⟨rfl, by norm_num, by norm_num, hne, hget, ?_, ?_⟩
  · have h1 := (h.1 0 86400000 rfl (by norm_num)).1 "milk" hne
    rw [h1]
    change Option.map _ (JSMap.get (milkAnalytics : SearchAnalytics ℝ).queryFrequency "milk") = _
    rw [hget]
    rfl
  · exact h.2.2 0 86400000 172800000 "milk" 2 rfl (by norm_num) (by norm_num) hne hget
      (by norm_num)

/-! ## Product search score -/

theorem strOr_empty (f : Option String) : strOr f "" = f.getD "" := by
  cases f with
  | none => rfl
  | some s => by_cases h : s = "" <;> simp [strOr, h]

theorem fieldScore_eq_specWordScore (p : Product) (w : List Char) :
    fieldScore p w = specWordScore p w := by
  simp only [fieldScore, specWordScore, fieldWeight, brandOf, strOr_empty, Option.getD_some]
  split_ifs <;> norm_num

theorem foldl_add_eq_sum {β : Type} (f : β → ℚ) (ws : List β) (a : ℚ) :
    ws.foldl (fun acc w => acc + f w) a = a + (ws.map f).sum := by
  induction ws generalizing a with
  | nil => simp
  | cons w ws ih => simp [ih, add_assoc]

theorem splitOn_space (l : List Char) : splitOn ' ' l = splitWhere (fun c => c = ' ') l := by
  induction l with
  | nil => rfl
  | cons c cs ih => simp [splitOn, splitWhere, ih]

theorem queryWords_eq_spaceWords (q : String) : queryWords q = spaceWords q := by
  simp [queryWords, spaceWords, splitOn_space]

theorem fieldWeight_hit (w : ℚ) (f : Option String) (word : List Char)
    (h : includes (toLowerCase ((f.getD "").toList)) word = true) : fieldWeight w f word = w :=
  if_pos h

theorem fieldWeight_miss (w : ℚ) (f : Option String) (word : List Char)
    (h : includes (toLowerCase ((f.getD "").toList)) word = false) : fieldWeight w f word = 0 := by
  unfold fieldWeight
  rw [if_neg]
  rw [h]
  exact Bool.false_ne_true

theorem calculateSearchScore_eq_specAverage (p : Product) (q : String) :
    calculateSearchScore p q
      = if queryWords q = [] then 0 else specAverageScore p (queryWords q) := by
  unfold calculateSearchScore specAverageScore
  by_cases h : queryWords q = []
  · simp [h]
  · have hl : (queryWords q).length ≠ 0 := by simpa using h
    have hf : fieldScore p = specWordScore p := funext (fieldScore_eq_specWordScore p)
    simp only [hl, h, if_false]
    rw [foldl_add_eq_sum, zero_add, hf]

theorem amulButter_score : calculateSearchScore amulButter "amul butter" = 7 / 5 := by
  have hw : queryWords "amul butter" = ["amul".toList, "butter".toList] := by decide
  rw [calculateSearchScore_eq_specAverage, hw, if_neg (by decide)]
  simp only [specAverageScore, specWordScore, List.map, List.sum_cons, List.sum_nil]
  rw [fieldWeight_hit 1 amulButter.name "amul".toList (by decide),
    fieldWeight_hit (8 / 10) (brandOf amulButter) "amul".toList (by decide),
    fieldWeight_miss (6 / 10) amulButter.variety "amul".toList (by decide),
    fieldWeight_miss (5 / 10) amulButter.original_name "amul".toList (by decide),
    fieldWeight_miss (3 / 10) amulButter.category "amul".toList (by decide),
    fieldWeight_hit 1 amulButter.name "butter".toList (by decide),
    fieldWeight_miss (8 / 10) (brandOf amulButter) "butter".toList (by decide),
    fieldWeight_miss (6 / 10) amulButter.variety "butter".toList (by decide),
    fieldWeight_miss (5 / 10) amulButter.original_name "butter".toList (by decide),
    fieldWeight_miss (3 / 10) amulButter.category "butter".toList (by decide)]
  norm_num

theorem amulButter_tab_score : calculateSearchScore amulButter "amul\tbutter" = 0 := by
  have hw : queryWords "amul\tbutter" = ["amul\tbutter".toList] := by decide
  rw [calculateSearchScore_eq_specAverage, hw, if_neg (by decide)]
  simp only [specAverageScore, specWordScore, List.map, List.sum_cons, List.sum_nil]
  rw [fieldWeight_miss 1 amulButter.name "amul\tbutter".toList (by decide),
    fieldWeight_miss (8 / 10) (brandOf amulButter) "amul\tbutter".toList (by decide),
    fieldWeight_miss (6 / 10) amulButter.variety "amul\tbutter".toList (by decide),
    fieldWeight_miss (5 / 10) amulButter.original_name "amul\tbutter".toList (by decide),
    fieldWeight_miss (3 / 10) amulButter.category "amul\tbutter".toList (by decide)]
  norm_num

theorem amulButter_whitespace_average :
    specAverageScore amulButter (whitespaceWords "amul\tbutter") = 7 / 5 := by
  have hw : whitespaceWords "amul\tbutter" = ["amul".toList, "butter".toList] := by decide
  rw [hw]
  simp only [specAverageScore, specWordScore, List.map, List.sum_cons, List.sum_nil]
  rw [fieldWeight_hit 1 amulButter.name "amul".toList (by decide),
    fieldWeight_hit (8 / 10) (brandOf amulButter) "amul".toList (by decide),
    fieldWeight_miss (6 / 10) amulButter.variety "amul".toList (by decide),
    fieldWeight_miss (5 / 10) amulButter.original_name "amul".toList (by decide),
    fieldWeight_miss (3 / 10) amulButter.category "amul".toList (by decide),
    fieldWeight_hit 1 amulButter.name "butter".toList (by decide),
    fieldWeight_miss (8 / 10) (brandOf amulButter) "butter".toList (by decide),
    fieldWeight_miss (6 / 10) amulButter.variety "butter".toList (by decide),
    fieldWeight_miss (5 / 10) amulButter.original_name "butter".toList (by decide),
    fieldWeight_miss (3 / 10) amulButter.category "butter".toList (by decide)]
  norm_num

/-- C1, as stated, fails: with the query split at every white-space character,
the words of "amul<TAB>butter" are "amul" and "butter" and their average score on
the Amul Butter product is 1.4, but `calculateSearchScore` splits at spaces
only, sees the single word "amul<TAB>butter", and returns 0. -/
theorem C1_counterexample :
    whitespaceWords "amul\tbutter" ≠ [] ∧
    calculateSearchScore amulButter "amul\tbutter"
      ≠ specAverageScore amulButter (whitespaceWords "amul\tbutter") := by
  refine ⟨by decide, ?_⟩
  rw [amulButter_tab_score, amulButter_whitespace_average]
  norm_num

/-- C1, amended: for every product and every query with at least one
space-delimited word, `calculateSearchScore` returns the average per-word
score, the words being the non-empty pieces of the lowercased query between
space characters (other white space stays inside a word), and a word scoring
1.0 for the name, 0.8 for the brand, 0.6 for the variety, 0.5 for the original
name and 0.3 for the category that contains it, a missing field counting as
empty. -/
theorem C1_calculateSearchScore_average (p : Product) (q : String)
    (h : spaceWords q ≠ []) :
    calculateSearchScore p q = specAverageScore p (spaceWords q) := by
  rw [calculateSearchScore_eq_specAverage, queryWords_eq_spaceWords, if_neg h]

/-- C1, witness: the Amul Butter example of the specification, score 1.4. -/
theorem C1_witness :
    spaceWords "amul butter" ≠ [] ∧
    calculateSearchScore amulButter "amul butter"
      = specAverageScore amulButter (spaceWords "amul butter") ∧
    calculateSearchScore amulButter "amul butter" = 7 / 5 :=
  ⟨by decide, C1_calculateSearchScore_average amulButter "amul butter" (by decide),
    amulButter_score⟩

/-! ## Product search: threshold at exactly 0.3 -/

theorem calculateSearchScore_blank (p : Product) (q : String) (h : q.length = 0) :
    calculateSearchScore p q = 0 := by
  have hq : q = "" := by
    cases q with
    | mk l =>
      have : l = [] := List.length_eq_zero.mp h
      subst this
      rfl
  subst hq
  rfl

theorem plainButter_score : calculateSearchScore plainButter "dairy" = 3 / 10 := by
  have hw : queryWords "dairy" = ["dairy".toList] := by decide
  rw [calculateSearchScore_eq_specAverage, hw, if_neg (by decide)]
  simp only [specAverageScore, specWordScore, List.map, List.sum_cons, List.sum_nil]
  rw [fieldWeight_miss 1 plainButter.name "dairy".toList (by decide),
    fieldWeight_miss (8 / 10) (brandOf plainButter) "dairy".toList (by decide),
    fieldWeight_miss (6 / 10) plainButter.variety "dairy".toList (by decide),
    fieldWeight_miss (5 / 10) plainButter.original_name "dairy".toList (by decide),
    fieldWeight_hit (3 / 10) plainButter.category "dairy".toList (by decide)]
  norm_num

/-- C5: whenever `fastProductSearchV2` answers by its own computation (the
response is not tagged as a cache hit), every entry of `results` is a product
of the fetched snapshot whose `calculateSearchScore` for the normalized query
is strictly greater than 0.3, a product scoring exactly 0.3 is not in
`results`, and `totalFound` counts every product of the snapshot scoring above
0.3. -/
theorem C5_inclusion_threshold (catalog : List Product) (prices : List PriceDoc) (now : Int)
    (state : CacheState) (request : SearchRequest)
    (h : (fastProductSearchV2 catalog prices now state request).1.metadata.cache
      = CacheTag.absent) :
    let q := String.mk (trim request.query.toList)
    let snapshot := fetchProducts catalog request.filters.category request.limit
    let payload := (fastProductSearchV2 catalog prices now state request).1
    (∀ hit ∈ payload.results, hit.product ∈ snapshot ∧
      hit.searchScore = calculateSearchScore hit.product q ∧
      calculateSearchScore hit.product q > 3 / 10) ∧
    (∀ p, calculateSearchScore p q = 3 / 10 → ∀ hit ∈ payload.results, hit.product ≠ p) ∧
    payload.metadata.totalFound
      = (snapshot.filter (fun p => decide (calculateSearchScore p q > 3 / 10))).length := by
  intro q snapshot payload
  have hall : (∀ hit ∈ payload.results, Qualifies snapshot q hit) ∧
      payload.metadata.totalFound
        = (snapshot.filter (fun p => decide (calculateSearchScore p q > 3 / 10))).length := by
    rcases fastProductSearchV2_untagged catalog prices now state request h with ⟨h0, he⟩ | hf
    · have hp : payload = _ := he
      rw [hp]
      refine ⟨fun hit hmem => by simp at hmem, ?_⟩
      have hnone : snapshot.filter (fun p => decide (calculateSearchScore p q > 3 / 10)) = [] := by
        rw [List.filter_eq_nil_iff]
        intro p _
        rw [calculateSearchScore_blank p q h0]
        norm_num
      rw [hnone]
      rfl
    · have hp : payload = _ := hf
      rw [hp]
      exact ⟨freshSearch_results_qualify catalog prices q request.filters _ request.limit,
        freshSearch_totalFound catalog prices q request.filters _ request.limit⟩
  refine ⟨hall.1, ?_, hall.2⟩
  intro p hp hit hmem hne
  have hq := (hall.1 hit hmem).2.2
  rw [hne, hp] at hq
  exact lt_irrefl _ hq

/-- C5, witness: for the one-word query "dairy" the product Butter, whose
category alone matches, scores exactly 0.3; the search over the catalog that
holds only this product returns no result and `totalFound` 0. -/
theorem C5_witness :
    (fastProductSearchV2 [plainButter] [] 0 {} { query := "dairy" }).1.metadata.cache
      = CacheTag.absent ∧
    calculateSearchScore plainButter "dairy" = 3 / 10 ∧
    (fastProductSearchV2 [plainButter] [] 0 {} { query := "dairy" }).1.results = [] ∧
    (fastProductSearchV2 [plainButter] [] 0 {} { query := "dairy" }).1.metadata.totalFound
      = 0 := by
  have hc : (fastProductSearchV2 [plainButter] [] 0 {} { query := "dairy" }).1.metadata.cache
      = CacheTag.absent := by decide
  have h := C5_inclusion_threshold [plainButter] [] 0 {} { query := "dairy" } hc
  have hq : String.mk (trim "dairy".toList) = "dairy" := by decide
  have hsnap : fetchProducts [plainButter] none 20 = [plainButter] := by decide
  simp only [hq] at h
  refine ⟨hc, plainButter_score, ?_, ?_⟩
  · rw [List.eq_nil_iff_forall_not_mem]
    intro hit hmem
    have hin := (h.1 hit hmem).1
    change hit.product ∈ fetchProducts [plainButter] none 20 at hin
    rw [hsnap, List.mem_singleton] at hin
    exact h.2.1 plainButter plainButter_score hit hmem hin
  · rw [h.2.2]
    change ((fetchProducts [plainButter] none 20).filter _).length = 0
    rw [hsnap]
    simp [plainButter_score]

/-! ## Product search: the popular cache and the limit -/

theorem flatMap_priceQuery_nil (chunks : List (List String)) :
    chunks.flatMap (priceQuery []) = [] := by
  induction chunks with
  | nil => rfl
  | cons c cs ih => simp [List.flatMap_cons, priceQuery, ih]

theorem attachPreview_nil (l : List SearchHit) : attachPreview [] l = l := by
  unfold attachPreview
  induction l with
  | nil => rfl
  | cons h t ih => simp [JSMap.get]

theorem previewAllStores_nil (l : List SearchHit) : previewAllStores [] l = l := by
  unfold previewAllStores
  simp only [flatMap_priceQuery_nil, List.foldl_nil]
  exact attachPreview_nil l

theorem milk_score_m1 :
    calculateSearchScore { id := "m1", name := some "Milk" } "milk" = 1 := by
  have hw : queryWords "milk" = ["milk".toList] := by decide
  rw [calculateSearchScore_eq_specAverage, hw, if_neg (by decide)]
  simp only [specAverageScore, specWordScore, List.map, List.sum_cons, List.sum_nil]
  rw [fieldWeight_hit 1 (some "Milk") "milk".toList (by decide),
    fieldWeight_miss (8 / 10) (brandOf { id := "m1", name := some "Milk" }) "milk".toList
      (by decide),
    fieldWeight_miss (6 / 10) none "milk".toList (by decide),
    fieldWeight_miss (5 / 10) none "milk".toList (by decide),
    fieldWeight_miss (3 / 10) none "milk".toList (by decide)]
  norm_num

theorem milk_score_m2 :
    calculateSearchScore { id := "m2", name := some "Soy Milk" } "milk" = 1 := by
  have hw : queryWords "milk" = ["milk".toList] := by decide
  rw [calculateSearchScore_eq_specAverage, hw, if_neg (by decide)]
  simp only [specAverageScore, specWordScore, List.map, List.sum_cons, List.sum_nil]
  rw [fieldWeight_hit 1 (some "Soy Milk") "milk".toList (by decide),
    fieldWeight_miss (8 / 10) (brandOf { id := "m2", name := some "Soy Milk" }) "milk".toList
      (by decide),
    fieldWeight_miss (6 / 10) none "milk".toList (by decide),
    fieldWeight_miss (5 / 10) none "milk".toList (by decide),
    fieldWeight_miss (3 / 10) none "milk".toList (by decide)]
  norm_num

theorem milk_scoreProducts :
    scoreProducts milkCatalog "milk"
      = [{ product := { id := "m1", name := some "Milk" }, searchScore := 1 },
         { product := { id := "m2", name := some "Soy Milk" }, searchScore := 1 }] := by
  simp only [scoreProducts, milkCatalog, List.filterMap_cons, List.filterMap_nil, milk_score_m1,
    milk_score_m2]
  norm_num

theorem milk_freshSearch_results (limit : Nat) (hl : 1 ≤ limit) :
    (freshSearch milkCatalog [] "milk" {} [] limit).results
      = ([{ product := { id := "m1", name := some "Milk" }, searchScore := 1 },
          { product := { id := "m2", name := some "Soy Milk" }, searchScore := 1 }]
          : List SearchHit).take limit := by
  have hfetch : fetchProducts milkCatalog none limit = milkCatalog := by
    unfold fetchProducts
    simp only [truthy, Bool.false_eq_true, if_false]
    apply List.take_of_length_le
    have : 2 ≤ Nat.min (limit * 3) 100 := Nat.le_min.mpr ⟨by omega, by omega⟩
    exact this
  have hpre : 2 ≤ Nat.min 2 (Nat.min (limit * 3) 90) :=
    Nat.le_min.mpr ⟨le_refl _, Nat.le_min.mpr ⟨by omega, by omega⟩⟩
  unfold freshSearch
  simp only [hfetch, milk_scoreProducts]
  have hsort : List.insertionSort byScoreDesc
      [({ product := { id := "m1", name := some "Milk" }, searchScore := 1 } : SearchHit),
        { product := { id := "m2", name := some "Soy Milk" }, searchScore := 1 }]
      = [{ product := { id := "m1", name := some "Milk" }, searchScore := 1 },
         { product := { id := "m2", name := some "Soy Milk" }, searchScore := 1 }] := by
    simp [List.insertionSort, List.orderedInsert, byScoreDesc]
  rw [hsort]
  have htake : ∀ l : List SearchHit, l.length = 2 →
      l.take (Nat.min l.length (Nat.min (limit * 3) 90)) = l := by
    intro l hlen
    apply List.take_of_length_le
    rw [hlen]
    exact hpre
  rw [htake [({ product := { id := "m1", name := some "Milk" }, searchScore := 1 } : SearchHit),
    { product := { id := "m2", name := some "Soy Milk" }, searchScore := 1 }] rfl]
  simp [previewAllStores_nil]

/-- C8, the code on a failing sequence: three requests for "milk" with limit 2,
twenty seconds apart, are computed afresh and the third promotes its payload to
the popular cache; one second later a request for "milk" with limit 1 is
answered from the popular cache with those two results, although the same
request computed afresh (the handler run on empty caches) returns one result. -/
theorem C8_popular_cache_ignores_limit :
    (runSearches milkCatalog [] {} milkRequests).1.map (fun p => p.metadata.cache)
      = [CacheTag.absent, CacheTag.absent, CacheTag.absent, CacheTag.popular] ∧
    (runSearches milkCatalog [] {} milkRequests).1.map (fun p => p.results.length)
      = [2, 2, 2, 2] ∧
    (fastProductSearchV2 milkCatalog [] 41000 {} { query := "milk", limit := 1 }).1.results.length
      = 1 := by
  have h2 := milk_freshSearch_results 2 (by omega)
  have h1 := milk_freshSearch_results 1 (by omega)
  have hrun : (runSearches milkCatalog [] {} milkRequests).1.map (fun p => p.results)
      = [(freshSearch milkCatalog [] "milk" {} [] 2).results,
         (freshSearch milkCatalog [] "milk" {} [] 2).results,
         (freshSearch milkCatalog [] "milk" {} [] 2).results,
         (freshSearch milkCatalog [] "milk" {} [] 2).results] := by rfl
  have hfresh : (fastProductSearchV2 milkCatalog [] 41000 {} { query := "milk", limit := 1 }).1
      = freshSearch milkCatalog [] "milk" {} [] 1 := by rfl
  refine ⟨by decide, ?_, ?_⟩
  · have hlen := congrArg (List.map List.length) hrun
    rw [List.map_map] at hlen
    rw [h2] at hlen
    exact hlen
  · rw [hfresh, h1]
    rfl

/-! ## User segmentation -/

theorem foldl_add_eq_sum_field {α β : Type} [LinearOrderedField α] (f : β → α) (l : List β)
    (a : α) : l.foldl (fun acc x => acc + f x) a = a + (l.map f).sum := by
  induction l generalizing a with
  | nil => simp
  | cons x l ih => simp [ih, add_assoc]

theorem brandLoyaltyAverage_eq_spec {α : Type} [LinearOrderedField α]
    (brandLoyalty : JSMap String α) :
    brandLoyaltyAverage brandLoyalty = specBrandLoyaltyMean brandLoyalty := by
  unfold brandLoyaltyAverage specBrandLoyaltyMean
  by_cases h : brandLoyalty = []
  · simp [h]
  · have hl : brandLoyalty.length ≠ 0 := fun hl => h (List.length_eq_zero.mp hl)
    rw [if_neg hl, if_neg h, foldl_add_eq_sum_field (fun entry : String × α => entry.2), zero_add]

theorem shoppingPersonaOf_eq_spec {α : Type} [LinearOrderedField α] (analytics : AnalyticsDoc α) :
    shoppingPersonaOf analytics
      = specPersona (analytics.personalization.priceSensitivity.getD 0)
          (specBrandLoyaltyMean analytics.personalization.brandLoyalty)
          (analytics.personalization.discoveryVsLoyalty.getD 0)
          analytics.counters.temporalPatterns.sessionLengths := by
  unfold shoppingPersonaOf specPersona personaRules
  dsimp only
  rw [brandLoyaltyAverage_eq_spec]
  have hsum : ∀ l : List ℚ, l.foldl (fun sum length => sum + length) 0 = l.sum := by
    intro l
    have := foldl_add_eq_sum_field (fun x : ℚ => x) l 0
    simpa using this
  simp only [hsum]
  by_cases h1 : analytics.personalization.priceSensitivity.getD 0 > 0.7
  · simp [h1]
  · by_cases h2 : specBrandLoyaltyMean analytics.personalization.brandLoyalty > 0.6
    · simp [h1, h2]
    · by_cases h3 : analytics.personalization.discoveryVsLoyalty.getD 0 > 0.6
      · simp [h1, h2, h3]
      · by_cases h4 : analytics.counters.temporalPatterns.sessionLengths = []
        · simp [h1, h2, h3, h4]
        · have hl : analytics.counters.temporalPatterns.sessionLengths.length > 0 :=
            List.length_pos.mpr h4
          by_cases h5 : analytics.counters.temporalPatterns.sessionLengths.sum
              / (analytics.counters.temporalPatterns.sessionLengths.length : ℚ) < 120
          · simp [h1, h2, h3, h4, hl, h5]
          · simp [h1, h2, h3, h4, hl, h5]

theorem specPersona_mem {α : Type} [LinearOrderedField α] (p b d : α) (sessions : List ℚ) :
    specPersona p b d sessions ∈ personas := by
  unfold specPersona personaRules personas
  by_cases h1 : p > 0.7
  · simp [h1]
  · by_cases h2 : b > 0.6
    · simp [h1, h2]
    · by_cases h3 : d > 0.6
      · simp [h1, h2, h3]
      · by_cases h4 : sessions ≠ [] ∧ sessions.sum / (sessions.length : ℚ) < 120
        · simp [h1, h2, h3, h4]
        · simp [h1, h2, h3, h4]

/-- C11: for every analytics state, `calculateUserSegmentation` assigns the
persona of the first rule that holds, in the order price_conscious (price
sensitivity > 0.7), brand_loyal (mean brand loyalty > 0.6, the mean taken as 0
without brands), explorer (discovery score > 0.6), convenience_seeker (there
are session lengths and their mean is < 120), balanced_shopper; the result is
one of these five values. -/
theorem C11_persona_first_match {α : Type} [LinearOrderedField α] (now : Int)
    (analytics : AnalyticsDoc α) :
    (calculateUserSegmentation now analytics).shoppingPersona
      = specPersona (analytics.personalization.priceSensitivity.getD 0)
          (specBrandLoyaltyMean analytics.personalization.brandLoyalty)
          (analytics.personalization.discoveryVsLoyalty.getD 0)
          analytics.counters.temporalPatterns.sessionLengths ∧
    (calculateUserSegmentation now analytics).shoppingPersona ∈ personas := by
  have h : (calculateUserSegmentation now analytics).shoppingPersona
      = shoppingPersonaOf analytics := rfl
  rw [h, shoppingPersonaOf_eq_spec]
  exact ⟨rfl, specPersona_mem _ _ _ _⟩

/-! ## Derived blocks and raw counters -/

/-- C12, as stated, fails: two states with the same raw counters but another
stored `recommendationAccuracy` are recomputed to different `personalization`
blocks (the stored block is spread into the result); one state recomputed at
two times gets different `userSegmentation` blocks (`lastCalculated`), and a
viewed product that carries `timeSpent` gets the intent score 28 on the day of
the view and 8 ten days later. -/
theorem C12_counterexample :
    storedDocA.counters.searchBehavior = storedDocB.counters.searchBehavior ∧
    storedDocA.counters.productBehavior = storedDocB.counters.productBehavior ∧
    storedDocA.counters.temporalPatterns = storedDocB.counters.temporalPatterns ∧
    (recomputeDerived (fun x => x) 0 storedDocA).personalization.recommendationAccuracy
      ≠ (recomputeDerived (fun x => x) 0 storedDocB).personalization.recommendationAccuracy ∧
    (recomputeDerived (fun x => x) 0 storedDocA).userSegmentation.lastCalculated
      ≠ (recomputeDerived (fun x => x) 1 storedDocA).userSegmentation.lastCalculated ∧
    JSMap.get (recomputeDerived (fun x => x) 0
        storedDocViewed).counters.purchaseIntent.highIntentProducts "X"
      = some (JSNum.num 28) ∧
    JSMap.get (recomputeDerived (fun x => x) 864000000
        storedDocViewed).counters.purchaseIntent.highIntentProducts "X"
      = some (JSNum.num 8) := by
  refine ⟨rfl, rfl, rfl, by decide, by decide, ?_, ?_⟩
  · simp [recomputeDerived, calculatePurchaseIntentScores, storedDocViewed, intentScore,
      JSMap.get, JSMap.set, JSNum.add, JSNum.min, JSNum.div, JSNum.ofProperty, JSNum.round]
    norm_num
  · simp [recomputeDerived, calculatePurchaseIntentScores, storedDocViewed, intentScore,
      JSMap.get, JSMap.set, JSNum.add, JSNum.min, JSNum.div, JSNum.ofProperty, JSNum.round]
    norm_num

/-- C12, amended: for any two analytics states whose raw counters
(searchBehavior, productBehavior, temporalPatterns) are equal, whatever derived
blocks were stored before and whatever the times of recomputation, the
recomputed keys categoryAffinity, brandLoyalty, priceSensitivity,
discoveryVsLoyalty, shoppingPersona and activityLevel are equal, and
highIntentProducts is equal when both recomputations run at the same time; the
other keys of the blocks are carried over from the stored blocks,
`lastCalculated` is the recomputation time, and recomputing a second time at the
same time yields identical output. -/
theorem C12_derived_from_counters {α : Type} [LinearOrderedField α] (sqrt : α → α)
    (d₁ d₂ : AnalyticsDoc α) (now₁ now₂ : Int)
    (hs : d₁.counters.searchBehavior = d₂.counters.searchBehavior)
    (hp : d₁.counters.productBehavior = d₂.counters.productBehavior)
    (ht : d₁.counters.temporalPatterns = d₂.counters.temporalPatterns) :
    (recomputeDerived sqrt now₁ d₁).personalization.categoryAffinity
      = (recomputeDerived sqrt now₂ d₂).personalization.categoryAffinity ∧
    (recomputeDerived sqrt now₁ d₁).personalization.brandLoyalty
      = (recomputeDerived sqrt now₂ d₂).personalization.brandLoyalty ∧
    (recomputeDerived sqrt now₁ d₁).personalization.priceSensitivity
      = (recomputeDerived sqrt now₂ d₂).personalization.priceSensitivity ∧
    (recomputeDerived sqrt now₁ d₁).personalization.discoveryVsLoyalty
      = (recomputeDerived sqrt now₂ d₂).personalization.discoveryVsLoyalty ∧
    (recomputeDerived sqrt now₁ d₁).userSegmentation.shoppingPersona
      = (recomputeDerived sqrt now₂ d₂).userSegmentation.shoppingPersona ∧
    (recomputeDerived sqrt now₁ d₁).userSegmentation.activityLevel
      = (recomputeDerived sqrt now₂ d₂).userSegmentation.activityLevel ∧
    (now₁ = now₂ →
      (recomputeDerived sqrt now₁ d₁).counters.purchaseIntent.highIntentProducts
        = (recomputeDerived sqrt now₂ d₂).counters.purchaseIntent.highIntentProducts) ∧
    (recomputeDerived sqrt now₁ d₁).personalization.pricesensitivity
      = d₁.personalization.pricesensitivity ∧
    (recomputeDerived sqrt now₁ d₁).personalization.recommendationAccuracy
      = d₁.personalization.recommendationAccuracy ∧
    (recomputeDerived sqrt now₁ d₁).userSegmentation.categoryExpertise
      = d₁.userSegmentation.categoryExpertise ∧
    (recomputeDerived sqrt now₁ d₁).userSegmentation.influenceScore
      = d₁.userSegmentation.influenceScore ∧
    (recomputeDerived sqrt now₁ d₁).userSegmentation.lastCalculated = some now₁ ∧
    recomputeDerived sqrt now₁ (recomputeDerived sqrt now₁ d₁) = recomputeDerived sqrt now₁ d₁ := by
  have hcA : (recomputeDerived sqrt now₁ d₁).personalization.categoryAffinity
      = (recomputeDerived sqrt now₂ d₂).personalization.categoryAffinity := by
    simp only [recomputeDerived, calculatePersonalizationScores, hp]
  have hbL : (recomputeDerived sqrt now₁ d₁).personalization.brandLoyalty
      = (recomputeDerived sqrt now₂ d₂).personalization.brandLoyalty := by
    simp only [recomputeDerived, calculatePersonalizationScores, hp]
  have hpS : (recomputeDerived sqrt now₁ d₁).personalization.priceSensitivity
      = (recomputeDerived sqrt now₂ d₂).personalization.priceSensitivity := by
    simp only [recomputeDerived, calculatePersonalizationScores, hp]
  have hdL : (recomputeDerived sqrt now₁ d₁).personalization.discoveryVsLoyalty
      = (recomputeDerived sqrt now₂ d₂).personalization.discoveryVsLoyalty := by
    simp only [recomputeDerived, calculatePersonalizationScores, hp]
  refine ⟨hcA, hbL, hpS, hdL, ?_, ?_, ?_, rfl, rfl, rfl, rfl, rfl, rfl⟩
  · have e₁ : (recomputeDerived sqrt now₁ d₁).userSegmentation.shoppingPersona
        = specPersona ((recomputeDerived sqrt now₁ d₁).personalization.priceSensitivity.getD 0)
            (specBrandLoyaltyMean (recomputeDerived sqrt now₁ d₁).personalization.brandLoyalty)
            ((recomputeDerived sqrt now₁ d₁).personalization.discoveryVsLoyalty.getD 0)
            d₁.counters.temporalPatterns.sessionLengths :=
      shoppingPersonaOf_eq_spec _
    have e₂ : (recomputeDerived sqrt now₂ d₂).userSegmentation.shoppingPersona
        = specPersona ((recomputeDerived sqrt now₂ d₂).personalization.priceSensitivity.getD 0)
            (specBrandLoyaltyMean (recomputeDerived sqrt now₂ d₂).personalization.brandLoyalty)
            ((recomputeDerived sqrt now₂ d₂).personalization.discoveryVsLoyalty.getD 0)
            d₂.counters.temporalPatterns.sessionLengths :=
      shoppingPersonaOf_eq_spec _
    rw [e₁, e₂, hpS, hbL, hdL, ht]
  · simp only [recomputeDerived, calculateUserSegmentation, activityLevelOf, hs, hp]
  · intro hnow
    simp only [recomputeDerived, calculatePurchaseIntentScores, hp, hnow]

/-- C12, witness: the two stored documents with equal counters and different
stored blocks get the same recomputed persona at different times. -/
theorem C12_witness :
    storedDocA.counters.searchBehavior = storedDocB.counters.searchBehavior ∧
    storedDocA.counters.productBehavior = storedDocB.counters.productBehavior ∧
    storedDocA.counters.temporalPatterns = storedDocB.counters.temporalPatterns ∧
    (recomputeDerived (fun x => x) 0 storedDocA).userSegmentation.shoppingPersona
      = (recomputeDerived (fun x => x) 5 storedDocB).userSegmentation.shoppingPersona :=
  ⟨rfl, rfl, rfl,
    (C12_derived_from_counters (fun x => x) storedDocA storedDocB 0 5 rfl rfl rfl).2.2.2.2.1⟩

/-! ## Brand extraction -/

theorem foldl_append_if {β : Type} (p : β → Bool) (l acc : List β) :
    l.foldl (fun acc x => if p x then acc ++ [x] else acc) acc = acc ++ l.filter p := by
  induction l generalizing acc with
  | nil => simp
  | cons x l ih =>
    rw [List.foldl_cons, ih]
    by_cases h : p x = true
    · simp [h, List.filter_cons]
    · simp [h, List.filter_cons]

theorem extractBrandsFromQuery_eq_filter (brandNames : List (Option String)) (query : String) :
    extractBrandsFromQuery (some brandNames) query
      = (uniqueBrandsOf brandNames).filter
          (fun brand => includes (toLowerCase query.toList) brand.toList) := by
  unfold extractBrandsFromQuery
  dsimp only
  rw [foldl_append_if (fun brand : String => includes (toLowerCase query.toList) brand.toList)]
  simp

/-- The loop that builds `uniqueBrands`, from any duplicate-free accumulator:
the result is duplicate-free and holds the accumulator and the normalized known
brand names. -/
theorem uniqueBrands_foldl (brandNames : List (Option String)) (acc : List String)
    (hacc : acc.Nodup) :
    (brandNames.foldl
        (fun uniqueBrands brandName =>
          if isKnownBrand brandName = true then
            if normalizeBrand (brandName.getD "") ∈ uniqueBrands then uniqueBrands
            else uniqueBrands ++ [normalizeBrand (brandName.getD "")]
          else uniqueBrands) acc).Nodup ∧
    ∀ b, b ∈ brandNames.foldl
        (fun uniqueBrands brandName =>
          if isKnownBrand brandName = true then
            if normalizeBrand (brandName.getD "") ∈ uniqueBrands then uniqueBrands
            else uniqueBrands ++ [normalizeBrand (brandName.getD "")]
          else uniqueBrands) acc
      ↔ b ∈ acc ∨ ∃ n ∈ brandNames, isKnownBrand n = true ∧ b = normalizeBrand (n.getD "") := by
  induction brandNames generalizing acc with
  | nil => exact ⟨hacc, fun b => by simp⟩
  | cons n rest ih =>
    rw [List.foldl_cons]
    by_cases hk : isKnownBrand n = true
    · by_cases hm : normalizeBrand (n.getD "") ∈ acc
      · rw [if_pos hk, if_pos hm]
        refine ⟨(ih acc hacc).1, fun b => ?_⟩
        rw [(ih acc hacc).2 b]
        constructor
        · rintro (h | ⟨m, hm', hk', hb⟩)
          · exact Or.inl h
          · exact Or.inr ⟨m, List.mem_cons_of_mem _ hm', hk', hb⟩
        · rintro (h | ⟨m, hm', hk', hb⟩)
          · exact Or.inl h
          · rcases List.mem_cons.mp hm' with rfl | hm''
            · exact Or.inl (hb ▸ hm)
            · exact Or.inr ⟨m, hm'', hk', hb⟩
      · rw [if_pos hk, if_neg hm]
        have hnd : (acc ++ [normalizeBrand (n.getD "")]).Nodup := by
          rw [List.nodup_append]
          refine ⟨hacc, List.nodup_singleton _, ?_⟩
          intro a ha hb
          rw [List.mem_singleton] at hb
          exact hm (hb ▸ ha)
        refine ⟨(ih _ hnd).1, fun b => ?_⟩
        rw [(ih _ hnd).2 b]
        constructor
        · rintro (h | ⟨m, hm', hk', hb⟩)
          · rcases List.mem_append.mp h with h | h
            · exact Or.inl h
            · rw [List.mem_singleton] at h
              exact Or.inr ⟨n, List.mem_cons_self _ _, hk, h⟩
          · exact Or.inr ⟨m, List.mem_cons_of_mem _ hm', hk', hb⟩
        · rintro (h | ⟨m, hm', hk', hb⟩)
          · exact Or.inl (List.mem_append_left _ h)
          · rcases List.mem_cons.mp hm' with rfl | hm''
            · exact Or.inl (List.mem_append_right _ (by rw [hb]; exact List.mem_singleton_self _))
            · exact Or.inr ⟨m, hm'', hk', hb⟩
    · rw [if_neg hk]
      refine ⟨(ih acc hacc).1, fun b => ?_⟩
      rw [(ih acc hacc).2 b]
      constructor
      · rintro (h | ⟨m, hm', hk', hb⟩)
        · exact Or.inl h
        · exact Or.inr ⟨m, List.mem_cons_of_mem _ hm', hk', hb⟩
      · rintro (h | ⟨m, hm', hk', hb⟩)
        · exact Or.inl h
        · rcases List.mem_cons.mp hm' with rfl | hm''
          · exact absurd hk' hk
          · exact Or.inr ⟨m, hm'', hk', hb⟩

theorem uniqueBrandsOf_spec (brandNames : List (Option String)) :
    (uniqueBrandsOf brandNames).Nodup ∧
    ∀ b, b ∈ uniqueBrandsOf brandNames
      ↔ ∃ n ∈ brandNames, isKnownBrand n = true ∧ b = normalizeBrand (n.getD "") := by
  have h := uniqueBrands_foldl brandNames [] List.nodup_nil
  refine ⟨h.1, fun b => ?_⟩
  have hb := h.2 b
  simp only [List.not_mem_nil, false_or] at hb
  exact hb

/-- C14: for every query and every catalog of active products,
`extractBrandsFromQuery` returns, each at most once, exactly the lowercased and
trimmed names of the catalog's known brands (the brand names that pass its
filter) that are contained in the lowercased query; when the catalog lookup
fails it returns the empty list. -/
theorem C14_extractBrandsFromQuery (brandNames : List (Option String)) (query : String) :
    (extractBrandsFromQuery (some brandNames) query).Nodup ∧
    (∀ b, b ∈ extractBrandsFromQuery (some brandNames) query
      ↔ (∃ n ∈ brandNames, isKnownBrand n = true ∧ b = normalizeBrand (n.getD "")) ∧
        includes (toLowerCase query.toList) b.toList = true) ∧
    extractBrandsFromQuery none query = [] := by
  rw [extractBrandsFromQuery_eq_filter]
  refine ⟨(uniqueBrandsOf_spec brandNames).1.filter _, fun b => ?_, rfl⟩
  rw [List.mem_filter, (uniqueBrandsOf_spec brandNames).2 b]

/-! ## Invalid brands -/

theorem isValidBrand_not_invalid (b : String) (h : isValidBrand (some b) = true) :
    isInvalidBrand b = false := by
  unfold isValidBrand at h
  unfold isInvalidBrand
  by_cases hb : b = ""
  · simp [hb] at h
  · simp only [hb, if_false, Bool.and_eq_true, decide_eq_true_eq, Bool.not_eq_true',
      gt_iff_lt] at h
    simp only [Bool.or_eq_false_iff, decide_eq_false_iff_not, not_le]
    exact ⟨h.1, h.2⟩

theorem JSMap.mem_keys_set {κ ν : Type} [DecidableEq κ] (m : JSMap κ ν) (k k' : κ) (v : ν)
    (h : k' ∈ (JSMap.set m k v).map (fun e => e.1)) : k' ∈ m.map (fun e => e.1) ∨ k' = k := by
  rw [List.mem_map] at h
  obtain ⟨e, he, rfl⟩ := h
  rcases JSMap.mem_set m k v e he with h' | h'
  · exact Or.inl (List.mem_map.mpr ⟨e, h', rfl⟩)
  · exact Or.inr (by rw [h'])

theorem processProductView_brand_keys (catalog : String → Option ProductData) (clock : Clock)
    (a : ComprehensiveAnalytics) (productId : String) (timeSpent : Option ℚ)
    (interactionData : Option InteractionData) (k : String)
    (hmem : k ∈ (processProductView catalog clock a productId timeSpent
      interactionData).productBehavior.brands.map (fun e => e.1)) :
    k ∈ a.productBehavior.brands.map (fun e => e.1) ∨
      (isValidBrand ((catalog productId).bind (fun d => d.brand_name)) = true ∧
        k = ((catalog productId).bind (fun d => d.brand_name)).getD "") := by
  unfold processProductView at hmem
  dsimp only at hmem
  split_ifs at hmem with c1
  all_goals first
    | exact Or.inl hmem
    | (rcases JSMap.mem_keys_set _ _ _ _ hmem with h | h
       · exact Or.inl h
       · exact Or.inr ⟨c1.2, h⟩)

/-- The first half of C13: whatever the catalog and the event,
`processEventForAnalytics` adds no invalid brand name as a key of
`productBehavior.brands`. -/
theorem processEventForAnalytics_no_invalid_brand (catalog : String → Option ProductData)
    (clock : Clock) (a : ComprehensiveAnalytics) (ev : EventData) (b : String)
    (hinv : isInvalidBrand b = true)
    (hmem : b ∈ (processEventForAnalytics catalog clock a ev).productBehavior.brands.map
      (fun e => e.1)) :
    b ∈ a.productBehavior.brands.map (fun e => e.1) := by
  unfold processEventForAnalytics at hmem
  dsimp only at hmem
  split_ifs at hmem
  · exact hmem
  · rcases processProductView_brand_keys catalog clock a _ _ _ b hmem with h | ⟨hv, hk⟩
    · exact h
    · exfalso
      cases hc : (catalog (ev.productId.getD "")).bind (fun d => d.brand_name) with
      | none =>
        rw [hc] at hv
        simp [isValidBrand] at hv
      | some x =>
        rw [hc] at hv hk
        simp only [Option.getD_some] at hk
        subst hk
        have := isValidBrand_not_invalid b hv
        rw [hinv] at this
        exact Bool.noConfusion this
  · exact hmem
  · exact hmem
  · exact hmem
  · exact hmem
  · exact hmem

/-- C13, the code on a failing input: with an active product of brand
"Generic" in the catalog, the search "generic rice" extracts the invalid brand
"generic", and `updateUserSearchPreferences` credits it in `brandFrequency`;
a brand stored as " n/a " is extracted as "n/a" in the same way. -/
theorem C13_invalid_brand_credited :
    isInvalidBrand "Generic" = true ∧ isValidBrand (some "Generic") = false ∧
    extractBrandsFromQuery (some [some "Generic"]) "generic rice" = ["generic"] ∧
    (∀ (pow : ℚ → ℚ → ℚ) (log : ℚ → ℚ),
      JSMap.get (updateUserSearchPreferences pow log
          (extractBrandsFromQuery (some [some "Generic"]) "generic rice") (searchClock 0) none
          "generic rice" none).brandFrequency "generic" = some 1) ∧
    isInvalidBrand " n/a " = true ∧
    extractBrandsFromQuery (some [some " n/a "]) "n/a" = ["n/a"] := by
  refine ⟨by decide, by decide, by decide, ?_, by decide, by decide⟩
  intro pow log
  have h : extractBrandsFromQuery (some [some "Generic"]) "generic rice" = ["generic"] := by
    decide
  rw [h]
  simp [updateUserSearchPreferences, increment, JSMap.get, JSMap.set, truthy]

/-! ## Budget tracking: the recomputed total -/

theorem numberOr_zero (x : Option ℚ) : numberOr x 0 = x.getD 0 := by
  cases x with
  | none => rfl
  | some v =>
    by_cases h : v = 0
    · simp [numberOr, h]
    · simp [numberOr, h]

theorem itemSpend_eq (d : ItemData) :
    itemSpend d = d.estimatedPrice.getD 0 *
      (match d.quantity with
        | none => 1
        | some q => if q = 0 then 1 else q) := by
  unfold itemSpend
  rw [numberOr_zero]
  cases d.quantity <;> rfl

theorem foldl_itemSpend (l : List ItemData) :
    l.foldl (fun totalSpent d => totalSpent + itemSpend d) 0
      = (l.map (fun d => d.estimatedPrice.getD 0 *
          (match d.quantity with
            | none => 1
            | some q => if q = 0 then 1 else q))).sum := by
  rw [foldl_add_eq_sum itemSpend l 0, zero_add]
  congr 1
  apply List.map_congr_left
  intro d _
  exact itemSpend_eq d

/-- C15, as stated, fails: for a list whose only completed item has price 50
and quantity 0 the handler writes `totalSpent` 50 (a zero quantity is replaced
by 1), where the sum of estimatedPrice * quantity is 0. -/
theorem C15_counterexample :
    (budgetTrackingOnItemComplete none (some zeroQuantityItem) (some {}) none
        [zeroQuantityItem] "2025-01-01").map (fun o => o.tracking.totalSpent) = some 50 ∧
    claimedTotalSpent [zeroQuantityItem] = 0 := by
  constructor
  · simp [budgetTrackingOnItemComplete, zeroQuantityItem, itemSpend, numberOr]
  · simp [claimedTotalSpent, zeroQuantityItem]

/-- C15, amended: on every completion event that the handler processes (the
item is completed now, was not before, and its list exists) the handler writes,
and the `totalSpent` it writes is the sum, over all items of the list currently
flagged completed, of estimatedPrice * quantity with a missing price counted as
0 and a missing or zero quantity counted as 1, for every list of items and
whatever tracking document was stored before. -/
theorem C15_totalSpent_recomputed (beforeData afterData : Option ItemData)
    (listData : ShoppingList) (items : List ItemData) (todayKey : String)
    (hnow : afterData.bind (fun d => d.isCompleted) = some true)
    (hwas : beforeData.bind (fun d => d.isCompleted) ≠ some true) :
    ∀ existingTracking : Option BudgetTracking,
      ∃ o, budgetTrackingOnItemComplete beforeData afterData (some listData) existingTracking
          items todayKey = some o ∧
        o.tracking.totalSpent = effectiveTotalSpent items := by
  intro existingTracking
  unfold budgetTrackingOnItemComplete
  dsimp only
  rw [if_neg (by simp [hnow, hwas])]
  exact ⟨_, rfl, foldl_itemSpend _⟩

/-- C15, witness: a list with a completed item of price 10 and quantity 2 and an
open item; completing the first writes a `totalSpent` equal to the sum, 20. -/
theorem C15_witness :
    (some ({ isCompleted := some true, estimatedPrice := some 10, quantity := some 2 } :
      ItemData)).bind (fun d => d.isCompleted) = some true ∧
    (none : Option ItemData).bind (fun d => d.isCompleted) ≠ some true ∧
    (∃ o, budgetTrackingOnItemComplete none
        (some { isCompleted := some true, estimatedPrice := some 10, quantity := some 2 })
        (some {}) none
        [{ isCompleted := some true, estimatedPrice := some 10, quantity := some 2 },
          { isCompleted := some false, estimatedPrice := some 5, quantity := some 1 }]
        "2025-01-01" = some o ∧
      o.tracking.totalSpent = effectiveTotalSpent
        [{ isCompleted := some true, estimatedPrice := some 10, quantity := some 2 },
          { isCompleted := some false, estimatedPrice := some 5, quantity := some 1 }]) ∧
    effectiveTotalSpent
        [{ isCompleted := some true, estimatedPrice := some 10, quantity := some 2 },
          { isCompleted := some false, estimatedPrice := some 5, quantity := some 1 }] = 20 :=
  ⟨by simp, by simp,
    C15_totalSpent_recomputed none _ {} _ "2025-01-01" (by simp) (by simp) none,
    by simp [effectiveTotalSpent]; norm_num⟩

/-! ## Budget alerts over a sequence of completions -/

/-- Every alert of the check has one of the three kinds, on a positive budget,
and its threshold is newly crossed by the event. -/
theorem budgetAlerts_mem (budget : ℚ) (ownerId : Option String) (totalSpent itemTotal : ℚ)
    (a : BudgetAlert) (ha : a ∈ budgetAlerts budget ownerId totalSpent itemTotal) :
    budget > 0 ∧ (a.type, a.threshold) ∈ alertKinds ∧
      newlyCrossed (a.threshold : ℚ) ((totalSpent - itemTotal) / budget) (totalSpent / budget) := by
  by_cases hc : budget > 0 ∧ truthy ownerId = true
  · rcases budgetAlerts_cases budget ownerId totalSpent itemTotal hc.1 hc.2 with
      ⟨h1, h⟩ | ⟨_, h2, h⟩ | ⟨_, _, h3, h⟩ | ⟨_, _, _, h⟩
    · rw [h, List.mem_singleton] at ha
      subst ha
      exact ⟨hc.1, by simp [alertKinds], by simpa using h1⟩
    · rw [h, List.mem_singleton] at ha
      subst ha
      exact ⟨hc.1, by simp [alertKinds], by simpa using h2⟩
    · rw [h, List.mem_singleton] at ha
      subst ha
      exact ⟨hc.1, by simp [alertKinds], by simpa using h3⟩
    · rw [h] at ha
      simp at ha
  · unfold budgetAlerts at ha
    rw [if_neg hc] at ha
    simp at ha

theorem alertKinds_threshold (ty ty' : String) (t t' : Nat) (h : (ty, t) ∈ alertKinds)
    (h' : (ty', t') ∈ alertKinds) (hty : ty' = ty) : t' = t := by
  simp only [alertKinds, List.mem_cons, List.mem_singleton, List.mem_nil_iff, or_false,
    Prod.mk.injEq] at h h'
  rcases h with ⟨rfl, rfl⟩ | ⟨rfl, rfl⟩ | ⟨rfl, rfl⟩ <;>
    rcases h' with ⟨rfl, rfl⟩ | ⟨rfl, rfl⟩ | ⟨rfl, rfl⟩ <;> first | rfl | (exfalso; revert hty; decide)

/-- Once the utilization has reached a threshold, no later event of a sequence
of non-negative item totals emits the alert of that threshold. -/
theorem completionAlerts_none_after (budget : ℚ) (ownerId : Option String) (ty : String)
    (t : Nat) (hkind : (ty, t) ∈ alertKinds) (items : List ℚ) (hpos : ∀ x ∈ items, 0 ≤ x)
    (start : ℚ) (hreached : budget > 0 → (t : ℚ) / 100 ≤ start / budget) :
    (completionAlerts budget ownerId start items).filter (emitsType ty) = [] := by
  induction items generalizing start with
  | nil => rfl
  | cons x rest ih =>
    have hx : 0 ≤ x := hpos x (List.mem_cons_self _ _)
    have hrest : (completionAlerts budget ownerId (start + x) rest).filter (emitsType ty) = [] := by
      apply ih (fun y hy => hpos y (List.mem_cons_of_mem _ hy))
      intro hb
      have h1 := hreached hb
      have h2 : start / budget ≤ (start + x) / budget :=
        div_le_div_of_nonneg_right (by linarith) (le_of_lt hb)
      exact le_trans h1 h2
    have hfirst : emitsType ty (budgetAlerts budget ownerId (start + x) x) = false := by
      rw [Bool.eq_false_iff]
      intro hem
      unfold emitsType at hem
      rw [List.any_eq_true] at hem
      obtain ⟨a, ha, hty⟩ := hem
      rw [decide_eq_true_eq] at hty
      obtain ⟨hb, hk, hcross⟩ := budgetAlerts_mem budget ownerId (start + x) x a ha
      have ht : a.threshold = t := alertKinds_threshold ty a.type t a.threshold hkind hk hty
      rw [ht] at hcross
      have h1 := hreached hb
      have h2 : (start + x - x) / budget = start / budget := by
        congr 1
        ring
      rw [h2] at hcross
      exact absurd hcross.1 (not_lt.mpr h1)
    simp only [completionAlerts, List.filter_cons, hfirst, hrest]
    rfl

theorem completionAlerts_at_most_once (budget : ℚ) (ownerId : Option String) (ty : String)
    (t : Nat) (hkind : (ty, t) ∈ alertKinds) (items : List ℚ) (hpos : ∀ x ∈ items, 0 ≤ x)
    (start : ℚ) :
    ((completionAlerts budget ownerId start items).filter (emitsType ty)).length ≤ 1 := by
  induction items generalizing start with
  | nil => simp [completionAlerts]
  | cons x rest ih =>
    have hposr : ∀ y ∈ rest, 0 ≤ y := fun y hy => hpos y (List.mem_cons_of_mem _ hy)
    by_cases hem : emitsType ty (budgetAlerts budget ownerId (start + x) x) = true
    · have hreached : budget > 0 → (t : ℚ) / 100 ≤ (start + x) / budget := by
        intro _
        unfold emitsType at hem
        rw [List.any_eq_true] at hem
        obtain ⟨a, ha, hty⟩ := hem
        rw [decide_eq_true_eq] at hty
        obtain ⟨_, hk, hcross⟩ := budgetAlerts_mem budget ownerId (start + x) x a ha
        have ht : a.threshold = t := alertKinds_threshold ty a.type t a.threshold hkind hk hty
        rw [ht] at hcross
        exact hcross.2
      have hnone := completionAlerts_none_after budget ownerId ty t hkind rest hposr (start + x)
        hreached
      simp only [completionAlerts, List.filter_cons, hem, if_true, List.length_cons, hnone,
        List.length_nil]
      exact le_refl _
    · have hem' : emitsType ty (budgetAlerts budget ownerId (start + x) x) = false := by
        simpa using hem
      simp only [completionAlerts, List.filter_cons, hem']
      exact ih hposr (start + x)

theorem completionAlerts_get (budget : ℚ) (ownerId : Option String) (items : List ℚ)
    (start : ℚ) (k : Nat) (alerts : List BudgetAlert)
    (hk : (completionAlerts budget ownerId start items)[k]? = some alerts) :
    ∃ x, items[k]? = some x ∧
      alerts = budgetAlerts budget ownerId (start + (items.take k).sum + x) x := by
  induction items generalizing start k with
  | nil => simp [completionAlerts] at hk
  | cons y rest ih =>
    cases k with
    | zero =>
      simp only [completionAlerts, List.getElem?_cons_zero, Option.some.injEq] at hk
      exact ⟨y, by simp, by simp [hk]⟩
    | succ k =>
      simp only [completionAlerts, List.getElem?_cons_succ] at hk
      obtain ⟨x, hx, ha⟩ := ih (start + y) k hk
      refine ⟨x, by simpa using hx, ?_⟩
      rw [ha, List.take_succ_cons, List.sum_cons]
      congr 1
      ring

/-- C16: over any sequence of completion events on one list with a fixed
positive budget in which each event adds a non-negative item total to the
total spent, each alert type (exceeded, near_limit, warning) is emitted by at
most one event, and an event that emits an alert of threshold t follows a
history in which the utilization was below t percent after every earlier event
(and at the start). -/
theorem C16_alerts_at_most_once (budget : ℚ) (ownerId : Option String) (start : ℚ)
    (items : List ℚ) (hb : budget > 0) (hpos : ∀ x ∈ items, 0 ≤ x) :
    (∀ kind ∈ alertKinds,
      ((completionAlerts budget ownerId start items).filter (emitsType kind.1)).length ≤ 1) ∧
    (∀ (k : Nat) (alerts : List BudgetAlert),
      (completionAlerts budget ownerId start items)[k]? = some alerts →
      ∀ a ∈ alerts, ∀ j ≤ k,
        (start + (items.take j).sum) / budget < (a.threshold : ℚ) / 100) := by
  constructor
  · intro kind hkind
    exact completionAlerts_at_most_once budget ownerId kind.1 kind.2 hkind items hpos start
  · intro k alerts hk a ha j hj
    obtain ⟨x, hx, hal⟩ := completionAlerts_get budget ownerId items start k alerts hk
    rw [hal] at ha
    obtain ⟨_, _, hcross⟩ := budgetAlerts_mem budget ownerId _ x a ha
    have hprev : (start + (items.take k).sum + x - x) / budget
        = (start + (items.take k).sum) / budget := by
      congr 1
      ring
    rw [hprev] at hcross
    have hmono : (items.take j).sum ≤ (items.take k).sum := by
      have hsplit : items.take k = items.take j ++ (items.take k).drop j := by
        have := List.take_append_drop j (items.take k)
        rw [List.take_take, Nat.min_eq_left hj] at this
        exact this.symm
      rw [hsplit, List.sum_append]
      have hnn : 0 ≤ ((items.take k).drop j).sum := by
        apply List.sum_nonneg
        intro y hy
        exact hpos y (List.mem_of_mem_take (List.mem_of_mem_drop hy))
      linarith
    have hle : (start + (items.take j).sum) / budget ≤ (start + (items.take k).sum) / budget :=
      div_le_div_of_nonneg_right (by linarith) (le_of_lt hb)
    exact lt_of_le_of_lt hle hcross.1

/-- C16, witness: with budget 100 and completions of 80, 15 and 10, the warning
is emitted once (first event), near_limit once (second) and exceeded once
(third). -/
theorem C16_witness :
    (100 : ℚ) > 0 ∧ (∀ x ∈ ([80, 15, 10] : List ℚ), 0 ≤ x) ∧
    (∀ kind ∈ alertKinds,
      ((completionAlerts 100 (some "owner") 0 [80, 15, 10]).filter
        (emitsType kind.1)).length ≤ 1) ∧
    (completionAlerts 100 (some "owner") 0 [80, 15, 10]).map
        (fun alerts => alerts.map (fun a => a.type))
      = [["warning"], ["near_limit"], ["exceeded"]] := by
  have hpos : ∀ x ∈ ([80, 15, 10] : List ℚ), 0 ≤ x := by
    intro x hx
    simp only [List.mem_cons, List.mem_singleton, List.mem_nil_iff, or_false] at hx
    rcases hx with rfl | rfl | rfl <;> norm_num
  refine ⟨by norm_num, hpos,
    (C16_alerts_at_most_once 100 (some "owner") 0 [80, 15, 10] (by norm_num) hpos).1, ?_⟩
  have ho : ¬ ("owner" = "") := by decide
  simp only [completionAlerts, budgetAlerts, truthy]
  norm_num [ho]

/-! ## The short-TTL cache -/

theorem JSMap.length_set_le {κ ν : Type} [DecidableEq κ] (m : JSMap κ ν) (k : κ) (v : ν) :
    (JSMap.set m k v).length ≤ m.length + 1 := by
  induction m with
  | nil => simp [JSMap.set]
  | cons e m ih =>
    obtain ⟨a, b⟩ := e
    by_cases h : a = k
    · simp [JSMap.set, h]
    · simp only [JSMap.set, h, if_false, List.length_cons]
      omega

theorem JSMap.length_delete_head {κ ν : Type} [DecidableEq κ] (m : JSMap κ ν) (k : κ) (v : ν) :
    (JSMap.delete ((k, v) :: m) k).length ≤ m.length := by
  unfold JSMap.delete
  simp only [List.filter_cons, ne_eq, not_true_eq_false, decide_False, Bool.false_eq_true,
    if_false]
  exact List.length_filter_le _ _

theorem JSMap.get_delete {κ ν : Type} [DecidableEq κ] (m : JSMap κ ν) (k k' : κ) :
    JSMap.get (JSMap.delete m k) k' = if k = k' then none else JSMap.get m k' := by
  induction m with
  | nil => simp [JSMap.delete, JSMap.get]
  | cons e m ih =>
    obtain ⟨a, b⟩ := e
    unfold JSMap.delete at ih ⊢
    by_cases h : a = k
    · subst h
      simp only [List.filter_cons, ne_eq, not_true_eq_false, decide_False, Bool.false_eq_true,
        if_false, ih, JSMap.get]
      by_cases h' : a = k' <;> simp [h']
    · simp only [List.filter_cons, ne_eq, h, not_false_eq_true, decide_True, if_true, JSMap.get,
        ih]
      by_cases h' : a = k'
      · have : ¬ k = k' := fun e => h (h'.trans e.symm)
        simp [h', this]
      · simp [h']

/-- The cache is within its bound and none of its keys is the empty string. -/
theorem setSearchCache_bounded (now : Int) (cache : JSMap String (CacheData × Int))
    (key : String) (data : CacheData) (hkey : key ≠ "")
    (hlen : cache.length ≤ SEARCH_CACHE_MAX) (hkeys : ∀ e ∈ cache, e.1 ≠ "") :
    (setSearchCache now cache key data).length ≤ SEARCH_CACHE_MAX ∧
    ∀ e ∈ setSearchCache now cache key data, e.1 ≠ "" := by
  unfold setSearchCache
  dsimp only
  by_cases hfull : JSMap.size cache ≥ SEARCH_CACHE_MAX
  · rw [if_pos hfull]
    cases cache with
    | nil =>
      simp [JSMap.size, SEARCH_CACHE_MAX] at hfull
    | cons e rest =>
      obtain ⟨firstKey, v⟩ := e
      have hfk : firstKey ≠ "" := hkeys (firstKey, v) (List.mem_cons_self _ _)
      simp only [hfk, ne_eq, not_false_eq_true, if_true]
      constructor
      · have h1 := JSMap.length_delete_head rest firstKey v
        have h2 := JSMap.length_set_le (JSMap.delete ((firstKey, v) :: rest) firstKey) key
          (data, now)
        simp only [List.length_cons] at hlen
        omega
      · intro e he
        rcases JSMap.mem_set _ _ _ e he with h | h
        · exact hkeys e (List.mem_of_mem_filter h)
        · rw [h]
          exact hkey
  · rw [if_neg hfull]
    constructor
    · have h2 := JSMap.length_set_le cache key (data, now)
      simp only [JSMap.size, ge_iff_le, not_le] at hfull
      omega
    · intro e he
      rcases JSMap.mem_set _ _ _ e he with h | h
      · exact hkeys e h
      · rw [h]
        exact hkey

theorem getSearchCache_cache (now : Int) (cache : JSMap String (CacheData × Int))
    (key : String) :
    (getSearchCache now cache key).2 = cache ∨
      (getSearchCache now cache key).2 = JSMap.delete cache key := by
  unfold getSearchCache
  cases JSMap.get cache key with
  | none => exact Or.inl rfl
  | some entry =>
    dsimp only
    split_ifs
    · exact Or.inr rfl
    · exact Or.inl rfl

theorem runCacheOps_bounded (ops : List CacheOp) (hops : ∀ op ∈ ops, op.key ≠ "")
    (cache : JSMap String (CacheData × Int)) (hlen : cache.length ≤ SEARCH_CACHE_MAX)
    (hkeys : ∀ e ∈ cache, e.1 ≠ "") :
    (runCacheOps cache ops).length ≤ SEARCH_CACHE_MAX := by
  induction ops generalizing cache with
  | nil => exact hlen
  | cons op rest ih =>
    have hrest : ∀ op ∈ rest, op.key ≠ "" := fun o ho => hops o (List.mem_cons_of_mem _ ho)
    have hop : op.key ≠ "" := hops op (List.mem_cons_self _ _)
    unfold runCacheOps
    rw [List.foldl_cons]
    cases op with
    | set now key data =>
      have h := setSearchCache_bounded now cache key data hop hlen hkeys
      exact ih hrest _ h.1 h.2
    | get now key =>
      rcases getSearchCache_cache now cache key with h | h
      · have : applyCacheOp cache (CacheOp.get now key) = cache := h
        rw [this]
        exact ih hrest cache hlen hkeys
      · have : applyCacheOp cache (CacheOp.get now key) = JSMap.delete cache key := h
        rw [this]
        exact ih hrest _ (le_trans (List.length_filter_le _ _) hlen)
          (fun e he => hkeys e (List.mem_of_mem_filter he))

set_option maxRecDepth 100000 in
/-- C17 fails in the code: starting from an empty cache, the call
`setSearchCache("", data)` followed by `setSearchCache` calls for 200 other
keys leaves 201 entries, above the cap `SEARCH_CACHE_MAX` of 200.  The guard
`if (firstKey)` is false for the empty string, so the step commented "delete
oldest entry" deletes nothing once the oldest key is the empty string. -/
theorem C17_cache_exceeds_cap :
    (runCacheOps [] overflowOps).length = 201 ∧ overflowOps.length = 201 := by
  decide

/-- Where the cap does hold: starting from an empty cache, after any sequence
of `setSearchCache` and `getSearchCache` calls whose keys are all non-empty,
`SEARCH_CACHE` holds at most 200 entries. -/
theorem runCacheOps_bounded_from_empty (ops : List CacheOp) (hops : ∀ op ∈ ops, op.key ≠ "") :
    JSMap.size (runCacheOps [] ops) ≤ 200 :=
  runCacheOps_bounded ops hops [] (by simp [SEARCH_CACHE_MAX]) (fun e he => by simp at he)

/-- Two hundred and one writes under distinct non-empty keys leave at most 200
entries. -/
theorem runCacheOps_bounded_example :
    (∀ op ∈ overflowOps.tail ++ [CacheOp.set 0 "b" emptyData], op.key ≠ "") ∧
    JSMap.size (runCacheOps [] (overflowOps.tail ++ [CacheOp.set 0 "b" emptyData])) ≤ 200 := by
  have h : ∀ op ∈ overflowOps.tail ++ [CacheOp.set 0 "b" emptyData], op.key ≠ "" := by
    intro op hop
    simp only [overflowOps, List.tail_cons, List.mem_append, List.mem_map, List.mem_range,
      List.mem_singleton] at hop
    rcases hop with ⟨i, _, rfl⟩ | rfl
    · intro hk
      have := congrArg String.length hk
      simp [CacheOp.key, String.length] at this
    · decide
  exact ⟨h, runCacheOps_bounded_from_empty _ h⟩

theorem JSMap.mem_set_of_ne {κ ν : Type} [DecidableEq κ] (m : JSMap κ ν) (k : κ) (v : ν)
    (e : κ × ν) (he : e ∈ m) (hne : e.1 ≠ k) : e ∈ JSMap.set m k v := by
  induction m with
  | nil => simp at he
  | cons e' m ih =>
    obtain ⟨a, b⟩ := e'
    by_cases h : a = k
    · simp only [JSMap.set, h, if_true]
      rcases List.mem_cons.mp he with h' | h'
      · exact absurd (by rw [h', h]) hne
      · exact List.mem_cons_of_mem _ h'
    · simp only [JSMap.set, h, if_false]
      rcases List.mem_cons.mp he with h' | h'
      · rw [h']
        exact List.mem_cons_self _ _
      · exact List.mem_cons_of_mem _ (ih h')

theorem JSMap.filter_set {κ ν : Type} [DecidableEq κ] (m : JSMap κ ν) (k : κ) (v : ν) :
    (JSMap.set m k v).filter (fun e => decide (e.1 ≠ k))
      = m.filter (fun e => decide (e.1 ≠ k)) := by
  induction m with
  | nil => simp [JSMap.set]
  | cons e' m ih =>
    obtain ⟨a, b⟩ := e'
    by_cases h : a = k
    · simp [JSMap.set, h]
    · simp only [JSMap.set, h, if_false, List.filter_cons, ih]

/-- The cache that `setSearchCache` writes into: the stored one, or the stored
one without its oldest key. -/
theorem setSearchCache_eq (now : Int) (cache : JSMap String (CacheData × Int))
    (key : String) (data : CacheData) :
    (setSearchCache now cache key data = JSMap.set cache key (data, now)) ∨
    (SEARCH_CACHE_MAX ≤ JSMap.size cache ∧
      ∃ firstKey v rest, cache = (firstKey, v) :: rest ∧ firstKey ≠ "" ∧
        setSearchCache now cache key data
          = JSMap.set (JSMap.delete cache firstKey) key (data, now)) := by
  unfold setSearchCache
  dsimp only
  by_cases hfull : JSMap.size cache ≥ SEARCH_CACHE_MAX
  · rw [if_pos hfull]
    cases cache with
    | nil => exact Or.inl rfl
    | cons e rest =>
      obtain ⟨firstKey, v⟩ := e
      by_cases hfk : firstKey = ""
      · left
        simp [hfk]
      · right
        refine ⟨hfull, firstKey, v, rest, rfl, hfk, ?_⟩
        simp [hfk]
  · rw [if_neg hfull]
    exact Or.inl rfl

/-- C18: `setSearchCache(key, data)` on a cache with pairwise distinct keys
removes an entry other than `key` only when the cache already holds 200
entries (its bound), and that entry is the oldest one present; a full cache
whose oldest key is non-empty and differs from `key` does lose that entry;
every other entry is left in place, unchanged and in the same order; and `key`
then maps to the new data and time. -/
theorem C18_eviction_fifo (now : Int) (cache : JSMap String (CacheData × Int))
    (key : String) (data : CacheData) (hnodup : (cache.map (fun e => e.1)).Nodup) :
    (∀ e ∈ cache, e.1 ≠ key → e ∉ setSearchCache now cache key data →
      SEARCH_CACHE_MAX ≤ JSMap.size cache ∧ cache.head? = some e) ∧
    (∀ e, SEARCH_CACHE_MAX ≤ JSMap.size cache → cache.head? = some e → e.1 ≠ "" →
      e.1 ≠ key → e ∉ setSearchCache now cache key data) ∧
    (∀ e ∈ setSearchCache now cache key data, e.1 ≠ key → e ∈ cache) ∧
    List.Sublist ((setSearchCache now cache key data).filter (fun e => decide (e.1 ≠ key)))
      cache ∧
    JSMap.get (setSearchCache now cache key data) key = some (data, now) := by
  rcases setSearchCache_eq now cache key data with h | ⟨hfull, firstKey, v, rest, hc, hfk, h⟩
  · rw [h]
    refine ⟨?_, ?_, ?_, ?_, ?_⟩
    · intro e he hne hnot
      exact absurd (JSMap.mem_set_of_ne cache key (data, now) e he hne) hnot
    · intro e hsize hhead hne hkey hmem
      cases cache with
      | nil => simp at hhead
      | cons e' rest =>
        obtain ⟨fk, v⟩ := e'
        simp only [List.head?_cons, Option.some.injEq] at hhead
        subst hhead
        have hs : setSearchCache now ((fk, v) :: rest) key data
            = JSMap.set (JSMap.delete ((fk, v) :: rest) fk) key (data, now) := by
          unfold setSearchCache
          dsimp only
          rw [if_pos hsize]
          simp only [ne_eq] at hne
          simp [hne]
        rw [hs] at h
        rw [← h] at hmem
        rcases JSMap.mem_set _ _ _ _ hmem with h' | h'
        · have := List.of_mem_filter h'
          simp at this
        · exact hkey (congrArg Prod.fst h')
    · intro e he hne
      rcases JSMap.mem_set _ _ _ e he with h' | h'
      · exact h'
      · exact absurd (congrArg Prod.fst h') hne
    · rw [JSMap.filter_set]
      exact List.filter_sublist _
    · rw [JSMap.get_set]
      simp
  · rw [h]
    refine ⟨?_, ?_, ?_, ?_, ?_⟩
    · intro e he hne hnot
      refine ⟨hfull, ?_⟩
      have hdel : e ∉ JSMap.delete cache firstKey := fun hd =>
        hnot (JSMap.mem_set_of_ne _ key (data, now) e hd hne)
      have hkeyeq : e.1 = firstKey := by
        by_contra hk
        exact hdel (List.mem_filter.mpr ⟨he, by simpa using hk⟩)
      subst hc
      rcases List.mem_cons.mp he with h' | h'
      · rw [h']
        rfl
      · exfalso
        simp only [List.map_cons, List.nodup_cons] at hnodup
        exact hnodup.1 (List.mem_map.mpr ⟨e, h', hkeyeq⟩)
    · intro e _ hhead _ hkey hmem
      subst hc
      simp only [List.head?_cons, Option.some.injEq] at hhead
      subst hhead
      rcases JSMap.mem_set _ _ _ _ hmem with h' | h'
      · have := List.of_mem_filter h'
        simp at this
      · exact hkey (congrArg Prod.fst h')
    · intro e he hne
      rcases JSMap.mem_set _ _ _ e he with h' | h'
      · exact List.mem_of_mem_filter h'
      · exact absurd (congrArg Prod.fst h') hne
    · rw [JSMap.filter_set]
      exact (List.filter_sublist _).trans (List.filter_sublist _)
    · rw [JSMap.get_set]
      simp

/-- C18, witness: writing a new key into a cache of two entries removes nothing. -/
theorem C18_witness :
    (([("a", (emptyData, 0)), ("b", (emptyData, 1))] :
        JSMap String (CacheData × Int)).map (fun e => e.1)).Nodup ∧
    JSMap.get (setSearchCache 5 [("a", (emptyData, 0)), ("b", (emptyData, 1))] "c" emptyData)
      "c" = some (emptyData, 5) :=
  ⟨by decide,
    (C18_eviction_fifo 5 [("a", (emptyData, 0)), ("b", (emptyData, 1))] "c" emptyData
      (by decide)).2.2.2.2⟩

/-- C19: after `setSearchCache(key, data)` at time `t0` the cache holds
`(data, t0)` under `key`; for a cache holding that entry, `getSearchCache(key)`
at time `t` returns `data` and leaves the cache as it is when
`t - t0 <= 15000`, and returns null and deletes the entry when
`t - t0 > 15000`; for a key that was never stored it returns null. -/
theorem C19_get_after_set (t0 t : Int) (key : String) (data : CacheData) :
    (∀ cache, JSMap.get (setSearchCache t0 cache key data) key = some (data, t0)) ∧
    (∀ cache, JSMap.get cache key = some (data, t0) → t - t0 ≤ 15000 →
      getSearchCache t cache key = (some data, cache)) ∧
    (∀ cache, JSMap.get cache key = some (data, t0) → t - t0 > 15000 →
      getSearchCache t cache key = (none, JSMap.delete cache key) ∧
      JSMap.get (JSMap.delete cache key) key = none) ∧
    (∀ cache, JSMap.get cache key = none → getSearchCache t cache key = (none, cache)) := by
  refine ⟨?_, ?_, ?_, ?_⟩
  · intro cache
    rcases setSearchCache_eq t0 cache key data with h | ⟨_, _, _, _, _, _, h⟩ <;>
    · rw [h, JSMap.get_set]
      simp
  · intro cache hget hle
    unfold getSearchCache
    rw [hget]
    have : ¬ (t - t0 > SEARCH_CACHE_TTL_MS) := by
      simp only [SEARCH_CACHE_TTL_MS]
      omega
    simp [this]
  · intro cache hget hgt
    refine ⟨?_, ?_⟩
    · unfold getSearchCache
      rw [hget]
      have : t - t0 > SEARCH_CACHE_TTL_MS := by
        simp only [SEARCH_CACHE_TTL_MS]
        omega
      simp [this]
    · rw [JSMap.get_delete]
      simp
  · intro cache hget
    unfold getSearchCache
    rw [hget]

/-- C19, witness: a value stored at time 0 is returned at time 15000 and is
gone at time 15001. -/
theorem C19_witness :
    getSearchCache 15000 (setSearchCache 0 [] "milk|" emptyData) "milk|"
      = (some emptyData, setSearchCache 0 [] "milk|" emptyData) ∧
    (getSearchCache 15001 (setSearchCache 0 [] "milk|" emptyData) "milk|").1 = none :=
  ⟨(C19_get_after_set 0 15000 "milk|" emptyData).2.1 _
      ((C19_get_after_set 0 15000 "milk|" emptyData).1 []) (by decide),
    congrArg Prod.fst (((C19_get_after_set 0 15001 "milk|" emptyData).2.2.1 _
      ((C19_get_after_set 0 15001 "milk|" emptyData).1 []) (by decide)).1)⟩

/-! ## List hydration -/

theorem metaChanged_eq_false (currentMeta : HydrationMeta) (v : HydrationTotals) :
    metaChanged currentMeta v = false ↔
      currentMeta.totalItems = some v.totalItems ∧
      currentMeta.completedItems = some v.completedItems ∧
      |numberOr currentMeta.estimatedTotal 0 - v.estimatedTotal| ≤ 1 / 1000 := by
  unfold metaChanged
  simp only [Bool.or_eq_false_iff, decide_eq_false_iff_not, ne_eq, not_not, not_lt, gt_iff_lt,
    and_assoc]

theorem hydrationTotals_after :
    hydrationTotals hydrationItemsAfter
      = { totalItems := 2, completedItems := 0, estimatedTotal := 20, distinctProducts := 2,
          distinctCompleted := 0 } := by
  simp only [hydrationTotals, hydrationItemsAfter, hydrationItemsBefore, List.cons_append,
    List.nil_append, List.foldl_cons, List.foldl_nil, hydrationStep, numberOr]
  norm_num

theorem hydrationTotals_before :
    hydrationTotals hydrationItemsBefore
      = { totalItems := 2, completedItems := 0, estimatedTotal := 20, distinctProducts := 1,
          distinctCompleted := 0 } := by
  simp only [hydrationTotals, hydrationItemsBefore, List.foldl_cons, List.foldl_nil,
    hydrationStep, numberOr]
  norm_num

/-- C20 fails in the code: the change test of `hydrationOnItemWrite` compares
only `totalItems`, `completedItems` and `estimatedTotal`. The handler first
stores the hydration of a list with one item (quantity 2, price 10); when an
item without a quantity is then added, the run skips both writes although the
recomputed `distinctProducts` is 2 and the stored one is 1, so the stored
document does not agree with the recomputed values. In general the write is
skipped exactly when the three compared values are unchanged. -/
theorem C20_stale_distinct_products :
    (hydrationOnItemWrite hydrationItemsBefore none none 1).metaDoc
      = some (mergeHydration (hydrationTotals hydrationItemsBefore) 1) ∧
    (hydrationOnItemWrite hydrationItemsAfter
        (hydrationOnItemWrite hydrationItemsBefore none none 1).metaDoc
        (hydrationOnItemWrite hydrationItemsBefore none none 1).parentDoc 2).metaWritten
      = false ∧
    ((hydrationOnItemWrite hydrationItemsAfter
        (hydrationOnItemWrite hydrationItemsBefore none none 1).metaDoc
        (hydrationOnItemWrite hydrationItemsBefore none none 1).parentDoc 2).metaDoc.bind
      (fun m => m.distinctProducts)) = some 1 ∧
    (hydrationTotals hydrationItemsAfter).distinctProducts = 2 ∧
    ¬ specUnchanged (mergeHydration (hydrationTotals hydrationItemsBefore) 1)
        (hydrationTotals hydrationItemsAfter) ∧
    (∀ items metaSnap parentSnap now,
      (hydrationOnItemWrite items metaSnap parentSnap now).metaWritten = false ↔
        (metaSnap.getD {}).totalItems = some (hydrationTotals items).totalItems ∧
        (metaSnap.getD {}).completedItems = some (hydrationTotals items).completedItems ∧
        |numberOr (metaSnap.getD {}).estimatedTotal 0 - (hydrationTotals items).estimatedTotal|
          ≤ 1 / 1000) := by
  have h1 : (hydrationOnItemWrite hydrationItemsBefore none none 1).metaDoc
      = some (mergeHydration (hydrationTotals hydrationItemsBefore) 1) := by
    simp only [hydrationOnItemWrite, hydrationTotals_before, metaChanged, Option.getD_none]
    simp
  have h1p : (hydrationOnItemWrite hydrationItemsBefore none none 1).parentDoc
      = some (mergeHydration (hydrationTotals hydrationItemsBefore) 1) := by
    simp only [hydrationOnItemWrite, hydrationTotals_before, metaChanged, Option.getD_none]
    simp
  have h2 : metaChanged (mergeHydration (hydrationTotals hydrationItemsBefore) 1)
      (hydrationTotals hydrationItemsAfter) = false := by
    rw [metaChanged_eq_false, hydrationTotals_before, hydrationTotals_after]
    simp only [mergeHydration, numberOr]
    norm_num
  refine ⟨h1, ?_, ?_, ?_, ?_, ?_⟩
  · rw [h1, h1p]
    simp only [hydrationOnItemWrite, Option.getD_some, h2]
  · rw [h1, h1p]
    simp only [hydrationOnItemWrite, Option.getD_some, h2]
    simp [mergeHydration, hydrationTotals_before]
  · rw [hydrationTotals_after]
  · rw [hydrationTotals_before, hydrationTotals_after]
    simp only [specUnchanged, mergeHydration]
    norm_num
  · intro items metaSnap parentSnap now
    simp only [hydrationOnItemWrite]
    exact metaChanged_eq_false _ _

/-! ## The product score: bounds, zero and the empty query -/

theorem fieldWeight_eq (w : ℚ) (f : Option String) (word : List Char) :
    fieldWeight w f word = if fieldContains f word then w else 0 := rfl

theorem specWordScore_bounds (p : Product) (w : List Char) :
    0 ≤ specWordScore p w ∧ specWordScore p w ≤ 16 / 5 := by
  unfold specWordScore
  simp only [fieldWeight_eq]
  constructor <;> split_ifs <;> norm_num

theorem specWordScore_eq_zero (p : Product) (w : List Char) :
    specWordScore p w = 0 ↔ matchesWord p w = false := by
  unfold specWordScore matchesWord
  simp only [fieldWeight_eq]
  cases fieldContains p.name w <;> cases fieldContains (brandOf p) w <;>
    cases fieldContains p.variety w <;> cases fieldContains p.original_name w <;>
    cases fieldContains p.category w <;> norm_num

theorem sum_map_bounds {β : Type} (f : β → ℚ) (c : ℚ) (l : List β)
    (h : ∀ x ∈ l, 0 ≤ f x ∧ f x ≤ c) :
    0 ≤ (l.map f).sum ∧ (l.map f).sum ≤ (l.length : ℚ) * c := by
  induction l with
  | nil => simp
  | cons a l ih =>
    have ha := h a (List.mem_cons_self _ _)
    have hl := ih (fun x hx => h x (List.mem_cons_of_mem _ hx))
    simp only [List.map_cons, List.sum_cons, List.length_cons, Nat.cast_add, Nat.cast_one]
    constructor
    · linarith [ha.1, hl.1]
    · linarith [ha.2, hl.2]

theorem sum_map_eq_zero {β : Type} (f : β → ℚ) (l : List β) (h : ∀ x ∈ l, 0 ≤ f x) :
    (l.map f).sum = 0 ↔ ∀ x ∈ l, f x = 0 := by
  induction l with
  | nil => simp
  | cons a l ih =>
    have ha := h a (List.mem_cons_self _ _)
    have hl := fun x hx => h x (List.mem_cons_of_mem _ hx)
    have hs : 0 ≤ (l.map f).sum := (sum_map_bounds f ((l.map f).sum + 1) l
      (fun x hx => ⟨hl x hx, by
        have := List.single_le_sum (fun y hy => by
          obtain ⟨z, hz, rfl⟩ := List.mem_map.mp hy
          exact hl z hz) (f x) (List.mem_map.mpr ⟨x, hx, rfl⟩)
        linarith⟩)).1
    simp only [List.map_cons, List.sum_cons, List.mem_cons, forall_eq_or_imp]
    constructor
    · intro hsum
      have h1 : f a = 0 := by linarith
      have h2 : (l.map f).sum = 0 := by linarith
      exact ⟨h1, (ih hl).mp h2⟩
    · rintro ⟨h1, h2⟩
      rw [h1, (ih hl).mpr h2]
      norm_num

theorem amulButter_amul_score : calculateSearchScore amulButter "amul" = 9 / 5 := by
  have hw : queryWords "amul" = ["amul".toList] := by decide
  rw [calculateSearchScore_eq_specAverage, hw, if_neg (by decide)]
  simp only [specAverageScore, specWordScore, List.map, List.sum_cons, List.sum_nil]
  rw [fieldWeight_hit 1 amulButter.name "amul".toList (by decide),
    fieldWeight_hit (8 / 10) (brandOf amulButter) "amul".toList (by decide),
    fieldWeight_miss (6 / 10) amulButter.variety "amul".toList (by decide),
    fieldWeight_miss (5 / 10) amulButter.original_name "amul".toList (by decide),
    fieldWeight_miss (3 / 10) amulButter.category "amul".toList (by decide)]
  norm_num

theorem allFieldsA_score : calculateSearchScore allFieldsA "a" = 16 / 5 := by
  have hw : queryWords "a" = ["a".toList] := by decide
  rw [calculateSearchScore_eq_specAverage, hw, if_neg (by decide)]
  simp only [specAverageScore, specWordScore, List.map, List.sum_cons, List.sum_nil]
  rw [fieldWeight_hit 1 allFieldsA.name "a".toList (by decide),
    fieldWeight_hit (8 / 10) (brandOf allFieldsA) "a".toList (by decide),
    fieldWeight_hit (6 / 10) allFieldsA.variety "a".toList (by decide),
    fieldWeight_hit (5 / 10) allFieldsA.original_name "a".toList (by decide),
    fieldWeight_hit (3 / 10) allFieldsA.category "a".toList (by decide)]
  norm_num

theorem calculateSearchScore_bounds (p : Product) (q : String) :
    0 ≤ calculateSearchScore p q ∧ calculateSearchScore p q ≤ 16 / 5 := by
  rw [calculateSearchScore_eq_specAverage]
  by_cases h : queryWords q = []
  · rw [if_pos h]
    norm_num
  · rw [if_neg h]
    unfold specAverageScore
    have hb := sum_map_bounds (specWordScore p) (16 / 5) (queryWords q)
      (fun w _ => specWordScore_bounds p w)
    have hlen : (0 : ℚ) < ((queryWords q).length : ℚ) := by
      have : 0 < (queryWords q).length := List.length_pos.mpr h
      exact_mod_cast this
    constructor
    · exact div_nonneg hb.1 hlen.le
    · rw [div_le_iff₀ hlen]
      linarith [hb.2]

/-- C21, as stated, fails: for the product "Amul Butter" of brand "Amul" the
one-word query "amul" scores 1.0 (name) + 0.8 (brand) = 1.8, above
1.0 * wordCount = 1. -/
theorem C21_counterexample :
    calculateSearchScore amulButter "amul" = 9 / 5 ∧ (queryWords "amul").length = 1 ∧
    ¬ (calculateSearchScore amulButter "amul" ≤ 1 * ((queryWords "amul").length : ℚ)) := by
  have hw : (queryWords "amul").length = 1 := by decide
  refine ⟨amulButter_amul_score, hw, ?_⟩
  rw [amulButter_amul_score, hw]
  norm_num

/-- C21, amended: for all products P and queries Q, `calculateSearchScore(P, Q)`
lies in the interval [0, 3.2], where 3.2 = 1.0 + 0.8 + 0.6 + 0.5 + 0.3 is the
sum of the five field weights, whatever the number of words of Q; the upper
bound is attained by a product whose five fields all contain the only word of
the query. -/
theorem C21_score_bounds (product : Product) (query : String) :
    0 ≤ calculateSearchScore product query ∧ calculateSearchScore product query ≤ 16 / 5 ∧
    calculateSearchScore allFieldsA "a" = 16 / 5 :=
  ⟨(calculateSearchScore_bounds product query).1, (calculateSearchScore_bounds product query).2,
    allFieldsA_score⟩

/-- C22: for every product and every query, `calculateSearchScore` returns 0 if
and only if none of the five fields (name, brand, variety, original name,
category) contains any of the query's words as a case-insensitive substring,
and the score is strictly positive if and only if some word occurs in some
field. -/
theorem C22_score_zero_iff (product : Product) (query : String) :
    (calculateSearchScore product query = 0
      ↔ ∀ word ∈ queryWords query, matchesWord product word = false) ∧
    (0 < calculateSearchScore product query
      ↔ ∃ word ∈ queryWords query, matchesWord product word = true) := by
  have hzero : calculateSearchScore product query = 0
      ↔ ∀ word ∈ queryWords query, matchesWord product word = false := by
    rw [calculateSearchScore_eq_specAverage]
    by_cases h : queryWords query = []
    · rw [if_pos h, h]
      simp
    · rw [if_neg h]
      unfold specAverageScore
      have hlen : ((queryWords query).length : ℚ) ≠ 0 := by
        have : 0 < (queryWords query).length := List.length_pos.mpr h
        exact_mod_cast this.ne.symm
      rw [div_eq_zero_iff, or_iff_left hlen,
        sum_map_eq_zero _ _ (fun w _ => (specWordScore_bounds product w).1)]
      exact forall₂_congr (fun w _ => specWordScore_eq_zero product w)
  refine ⟨hzero, ?_⟩
  rw [lt_iff_le_and_ne, and_iff_right (calculateSearchScore_bounds product query).1, ne_comm,
    Ne, hzero]
  push_neg
  simp

theorem splitOn_spaces (l : List Char) (h : ∀ c ∈ l, c = ' ') :
    ∀ w ∈ splitOn ' ' l, w = [] := by
  induction l with
  | nil => simp [splitOn]
  | cons c cs ih =>
    have hc : c = ' ' := h c (List.mem_cons_self _ _)
    have hcs := ih (fun x hx => h x (List.mem_cons_of_mem _ hx))
    unfold splitOn
    cases hs : splitOn ' ' cs with
    | nil => simp
    | cons w ws =>
      rw [hs] at hcs
      simp only [hc, if_true]
      intro x hx
      rcases List.mem_cons.mp hx with h1 | h1
      · exact h1
      · exact hcs x h1

theorem queryWords_spaces (query : String) (h : ∀ c ∈ query.toList, c = ' ') :
    queryWords query = [] := by
  unfold queryWords
  rw [List.filter_eq_nil_iff]
  intro w hw
  have hl : ∀ c ∈ toLowerCase query.toList, c = ' ' := by
    intro c hc
    unfold toLowerCase at hc
    obtain ⟨d, hd, rfl⟩ := List.mem_map.mp hc
    rw [h d hd]
    decide
  rw [splitOn_spaces _ hl w hw]
  decide

theorem foldl_jsnum_add (f : List Char → ℚ) (ws : List (List Char)) (a : ℚ) :
    ws.foldl (fun totalScore word => JSNum.add totalScore (JSNum.num (f word))) (JSNum.num a)
      = JSNum.num (ws.foldl (fun totalScore word => totalScore + f word) a) := by
  induction ws generalizing a with
  | nil => rfl
  | cons w ws ih =>
    simp only [List.foldl_cons]
    exact ih (a + f w)

theorem calculateSearchScoreJS_eq (p : Product) (q : String) :
    calculateSearchScoreJS p q = JSNum.num (calculateSearchScore p q) := by
  unfold calculateSearchScoreJS calculateSearchScore
  dsimp only
  by_cases h : (queryWords q).length = 0
  · rw [if_pos h, if_pos h]
  · rw [if_neg h, if_neg h, foldl_jsnum_add]
    have hlen : ((queryWords q).length : ℚ) ≠ 0 := by exact_mod_cast h
    simp only [JSNum.div, hlen, if_false]

/-- C23: for every product and every query whose word list is empty (the empty
string, or a string of separators only), `calculateSearchScore` returns 0, and
the division of its last line is reached only with a non-zero word count; for
every product, with any of its fields missing, and every query, the function
returns a finite number (neither `NaN` nor an infinity). -/
theorem C23_empty_query_scores_zero (product : Product) (query : String) :
    (queryWords query = [] →
      calculateSearchScore product query = 0 ∧
      calculateSearchScoreJS product query = JSNum.num 0) ∧
    ((∀ c ∈ query.toList, c = ' ') → queryWords query = []) ∧
    (queryWords query ≠ [] → ((queryWords query).length : ℚ) ≠ 0) ∧
    calculateSearchScoreJS product query = JSNum.num (calculateSearchScore product query) := by
  refine ⟨?_, queryWords_spaces query, ?_, calculateSearchScoreJS_eq product query⟩
  · intro h
    have h0 : calculateSearchScore product query = 0 := by
      rw [calculateSearchScore_eq_specAverage, if_pos h]
    exact ⟨h0, by rw [calculateSearchScoreJS_eq, h0]⟩
  · intro h
    have : 0 < (queryWords query).length := List.length_pos.mpr h
    exact_mod_cast this.ne.symm

/-- C23, witness: a query of three spaces on a product without fields. -/
theorem C23_witness :
    queryWords "   " = [] ∧ calculateSearchScore { id := "p" } "   " = 0 ∧
    calculateSearchScoreJS { id := "p" } "   " = JSNum.num 0 :=
  ⟨by decide,
    ((C23_empty_query_scores_zero { id := "p" } "   ").1 (by decide)).1,
    ((C23_empty_query_scores_zero { id := "p" } "   ").1 (by decide)).2⟩

/-! ## Person scores -/

theorem includes_of_startsWith (s w : List Char) (h : startsWith s w = true) :
    includes s w = true := by
  cases s with
  | nil =>
    unfold startsWith at h
    cases w with
    | nil => rfl
    | cons c cs => simp [List.isPrefixOf] at h
  | cons c cs =>
    unfold includes
    rw [h]
    rfl

theorem truthy_some (f : String) : truthy (some f) = decide (f ≠ "") := rfl

theorem instantFieldWeight_eq (prefixWeight substringWeight : Nat) (field : Option String)
    (queryLower : List Char) :
    (if fieldStartsWith field queryLower then prefixWeight else 0)
      + (if fieldIncludes field queryLower then substringWeight else 0)
      = instantFieldWeight prefixWeight substringWeight field queryLower := by
  unfold fieldStartsWith fieldIncludes instantFieldWeight
  cases field with
  | none => simp [truthy]
  | some f =>
    by_cases hf : f = ""
    · simp [truthy, hf]
    · have ht : truthy (some f) = true := by simp [truthy, hf]
      simp only [ht, Bool.true_and, Option.getD_some, hf, if_false]
      by_cases hs : startsWith (toLowerCase f.toList) queryLower = true
      · rw [if_pos hs, if_pos (includes_of_startsWith _ _ hs), if_pos hs]
      · rw [if_neg hs, if_neg hs, Nat.zero_add]

theorem ite_add_step (c : Bool) (s k : Nat) :
    (if c = true then s + k else s) = s + (if c = true then k else 0) := by
  cases c <;> simp

theorem calculateInstantMatchScore_eq (userData : UserResult) (query : String) :
    calculateInstantMatchScore userData query
      = instantFieldWeight 100 50 userData.firstName (toLowerCase query.toList)
        + instantFieldWeight 90 45 userData.lastName (toLowerCase query.toList)
        + instantFieldWeight 85 40 userData.displayName (toLowerCase query.toList)
        + instantFieldWeight 80 35 userData.email (toLowerCase query.toList) := by
  rw [← instantFieldWeight_eq 100 50 userData.firstName,
    ← instantFieldWeight_eq 90 45 userData.lastName,
    ← instantFieldWeight_eq 85 40 userData.displayName,
    ← instantFieldWeight_eq 80 35 userData.email]
  unfold calculateInstantMatchScore
  simp only [ite_add_step, Nat.zero_add]
  ring

/-- C24, as stated, fails: for a user whose first name is "Anna" the query
"ann" scores 150 (the prefix weight 100 and the substring weight 50 are both
added), where the sum of the specification's field weights is 100. -/
theorem C24_counterexample :
    calculateInstantMatchScore { uid := "u", firstName := some "Anna" } "ann" = 150 ∧
    specInstantMatchScore { uid := "u", firstName := some "Anna" } "ann" = 100 := by
  decide

/-- C24, amended: for every user record and query, `calculateInstantMatchScore`
returns the un-normalized sum over the four fields of that field's weight,
where a field that starts with the query contributes its prefix weight plus its
substring weight (first name 100 + 50, last name 90 + 45, display name 85 + 40,
email 80 + 35), a field that contains the query without starting with it
contributes its substring weight (50, 45, 40, 35), and a field that does not
contain the query, is absent or is empty contributes 0; matching is
case-insensitive. -/
theorem C24_instant_score_sum (userData : UserResult) (query : String) :
    calculateInstantMatchScore userData query
      = instantFieldWeight 100 50 userData.firstName (toLowerCase query.toList)
        + instantFieldWeight 90 45 userData.lastName (toLowerCase query.toList)
        + instantFieldWeight 85 40 userData.displayName (toLowerCase query.toList)
        + instantFieldWeight 80 35 userData.email (toLowerCase query.toList) :=
  calculateInstantMatchScore_eq userData query

theorem fieldStartsWith_eq_nameStartsWith (field : Option String) (queryLower : List Char)
    (hq : queryLower ≠ []) : fieldStartsWith field queryLower = nameStartsWith field queryLower := by
  unfold fieldStartsWith nameStartsWith
  cases field with
  | none => rfl
  | some f =>
    by_cases hf : f = ""
    · subst hf
      cases queryLower with
      | nil => exact absurd rfl hq
      | cons c cs => rfl
    · have ht : truthy (some f) = true := by simp [truthy, hf]
      rw [ht, Bool.true_and, Option.getD_some]

theorem truthy_of_fieldStartsWith (field : Option String) (queryLower : List Char)
    (h : fieldStartsWith field queryLower = true) : truthy field = true := by
  unfold fieldStartsWith at h
  exact (Bool.and_eq_true_iff.mp h).1

theorem turbo_step (c : Prop) [Decidable c] (s k : ℚ) (hs : 1 / 2 ≤ s ∧ s < 95 / 100)
    (hk : k < 95 / 100) :
    1 / 2 ≤ (if c then max s k else s) ∧ (if c then max s k else s) < 95 / 100 := by
  split_ifs
  · exact ⟨le_trans hs.1 (le_max_left _ _), max_lt hs.2 hk⟩
  · exact hs

theorem turbo_guard (c : Prop) [Decidable c] (s t : ℚ) (hs : 1 / 2 ≤ s ∧ s < 95 / 100)
    (ht : 1 / 2 ≤ t ∧ t < 95 / 100) :
    1 / 2 ≤ (if c then t else s) ∧ (if c then t else s) < 95 / 100 := by
  split_ifs
  · exact ht
  · exact hs

/-- The three outcomes of `calculateTurboMatchScore`. -/
theorem calculateTurboMatchScore_cases (userData : UserResult) (query : String) :
    (fieldStartsWith userData.firstName (toLowerCase query.toList) = true ∧
      calculateTurboMatchScore userData query = 1) ∨
    (fieldStartsWith userData.firstName (toLowerCase query.toList) = false ∧
      fieldStartsWith userData.lastName (toLowerCase query.toList) = true ∧
      calculateTurboMatchScore userData query = 95 / 100) ∨
    (fieldStartsWith userData.firstName (toLowerCase query.toList) = false ∧
      fieldStartsWith userData.lastName (toLowerCase query.toList) = false ∧
      1 / 2 ≤ calculateTurboMatchScore userData query ∧
      calculateTurboMatchScore userData query < 95 / 100) := by
  unfold calculateTurboMatchScore
  dsimp only
  by_cases h1 : fieldStartsWith userData.firstName (toLowerCase query.toList) = true
  · left
    rw [if_pos h1]
    exact ⟨h1, by norm_num⟩
  · right
    rw [if_neg h1]
    have h1f : fieldStartsWith userData.firstName (toLowerCase query.toList) = false := by
      simpa using h1
    have hP1 : 1 / 2 ≤ (if fieldIncludes userData.firstName (toLowerCase query.toList) = true
        then (0.85 : ℚ) else 0.5) ∧
        (if fieldIncludes userData.firstName (toLowerCase query.toList) = true
        then (0.85 : ℚ) else 0.5) < 95 / 100 := by
      split_ifs <;> norm_num
    generalize (if fieldIncludes userData.firstName (toLowerCase query.toList) = true
        then (0.85 : ℚ) else 0.5) = s1 at hP1 ⊢
    have hs : s1 < 0.95 := by
      have := hP1.2
      norm_num at this ⊢
      exact this
    by_cases h4 : fieldStartsWith userData.lastName (toLowerCase query.toList) = true
    · left
      rw [if_pos ⟨truthy_of_fieldStartsWith _ _ h4, hs, h4⟩]
      exact ⟨h1f, h4, by norm_num⟩
    · right
      rw [if_neg (fun h => h4 h.2.2)]
      have h4f : fieldStartsWith userData.lastName (toLowerCase query.toList) = false := by
        simpa using h4
      refine ⟨h1f, h4f, ?_⟩
      have hP2 := turbo_step (truthy userData.lastName = true ∧ s1 < 0.95 ∧
        fieldIncludes userData.lastName (toLowerCase query.toList) = true) s1 0.8 hP1
        (by norm_num)
      generalize (if truthy userData.lastName = true ∧ s1 < 0.95 ∧
        fieldIncludes userData.lastName (toLowerCase query.toList) = true
        then max s1 0.8 else s1) = s2 at hP2 ⊢
      have hP3 := turbo_guard (truthy userData.displayName = true ∧ s2 < 0.9) s2
        (if fieldStartsWith userData.displayName (toLowerCase query.toList) = true
          then max s2 0.9
          else if fieldIncludes userData.displayName (toLowerCase query.toList) = true
            then max s2 0.75 else s2) hP2
        (by
          split_ifs
          · exact ⟨le_trans hP2.1 (le_max_left _ _), max_lt hP2.2 (by norm_num)⟩
          · exact ⟨le_trans hP2.1 (le_max_left _ _), max_lt hP2.2 (by norm_num)⟩
          · exact hP2)
      generalize (if truthy userData.displayName = true ∧ s2 < 0.9 then
        (if fieldStartsWith userData.displayName (toLowerCase query.toList) = true
          then max s2 0.9
          else if fieldIncludes userData.displayName (toLowerCase query.toList) = true
            then max s2 0.75 else s2) else s2) = s3 at hP3 ⊢
      exact turbo_guard _ s3 _ hP3 (turbo_step _ s3 0.88 hP3 (by norm_num))

/-- C25: for every user record and every non-empty query (the handler answers
an empty query before any scoring), `calculateTurboMatchScore` returns 1.0 when
the first name starts with the query, case-insensitively; otherwise 0.95 when
the last name starts with the query; otherwise a value that is at least the
floor 0.5 and strictly below 0.95.  In all cases the result lies in
[0.5, 1.0]. -/
theorem C25_turbo_score (userData : UserResult) (query : String) (hq : query ≠ "") :
    (nameStartsWith userData.firstName (toLowerCase query.toList) = true →
      calculateTurboMatchScore userData query = 1) ∧
    (nameStartsWith userData.firstName (toLowerCase query.toList) = false →
      nameStartsWith userData.lastName (toLowerCase query.toList) = true →
      calculateTurboMatchScore userData query = 95 / 100) ∧
    (nameStartsWith userData.firstName (toLowerCase query.toList) = false →
      nameStartsWith userData.lastName (toLowerCase query.toList) = false →
      1 / 2 ≤ calculateTurboMatchScore userData query ∧
      calculateTurboMatchScore userData query < 95 / 100) ∧
    1 / 2 ≤ calculateTurboMatchScore userData query ∧
    calculateTurboMatchScore userData query ≤ 1 := by
  have hql : toLowerCase query.toList ≠ [] := by
    intro h
    apply hq
    have hnil : query.toList = [] := by
      unfold toLowerCase at h
      exact List.map_eq_nil_iff.mp h
    exact String.ext hnil
  rw [← fieldStartsWith_eq_nameStartsWith _ _ hql, ← fieldStartsWith_eq_nameStartsWith _ _ hql]
  rcases calculateTurboMatchScore_cases userData query with ⟨h1, hs⟩ | ⟨h1, h2, hs⟩ |
    ⟨h1, h2, hlo, hhi⟩
  · rw [h1, hs]
    norm_num
  · rw [h1, h2, hs]
    norm_num
  · rw [h1, h2]
    refine ⟨by simp, by simp, fun _ _ => ⟨hlo, hhi⟩, hlo, ?_⟩
    linarith

/-- C25, witness: for the query "an", "Ann Lee" scores 1.0, "Bob Anders" 0.95,
and "Bob Lee" the floor 0.5. -/
theorem C25_witness :
    ("an" : String) ≠ "" ∧
    calculateTurboMatchScore { uid := "u", firstName := some "Ann", lastName := some "Lee" }
      "an" = 1 ∧
    calculateTurboMatchScore { uid := "v", firstName := some "Bob", lastName := some "Anders" }
      "an" = 95 / 100 ∧
    1 / 2 ≤ calculateTurboMatchScore
      { uid := "w", firstName := some "Bob", lastName := some "Lee" } "an" :=
  ⟨by decide,
    (C25_turbo_score { uid := "u", firstName := some "Ann", lastName := some "Lee" } "an"
      (by decide)).1 (by decide),
    (C25_turbo_score { uid := "v", firstName := some "Bob", lastName := some "Anders" } "an"
      (by decide)).2.1 (by decide) (by decide),
    (C25_turbo_score { uid := "w", firstName := some "Bob", lastName := some "Lee" } "an"
      (by decide)).2.2.2.1⟩

/-! ## Personalization scores -/

theorem foldl_add_eq_sum_nat {β : Type} (f : β → Nat) (l : List β) (a : Nat) :
    l.foldl (fun sum entry => sum + f entry) a = a + (l.map f).sum := by
  induction l generalizing a with
  | nil => simp
  | cons x l ih =>
    simp only [List.foldl_cons, List.map_cons, List.sum_cons]
    rw [ih]
    omega

theorem get_foldl_set_of_not_mem {κ ν μ : Type} [DecidableEq κ] (g : κ × ν → μ)
    (l : List (κ × ν)) (m : JSMap κ μ) (k : κ) (hk : k ∉ l.map (fun e => e.1)) :
    JSMap.get (l.foldl (fun acc e => JSMap.set acc e.1 (g e)) m) k = JSMap.get m k := by
  induction l generalizing m with
  | nil => rfl
  | cons x l ih =>
    simp only [List.map_cons, List.mem_cons, not_or] at hk
    rw [List.foldl_cons, ih _ hk.2, JSMap.get_set, if_neg (fun h => hk.1 h.symm)]

theorem get_foldl_set_of_mem {κ ν μ : Type} [DecidableEq κ] (g : κ × ν → μ)
    (l : List (κ × ν)) (hnd : (l.map (fun e => e.1)).Nodup) (m : JSMap κ μ) (e : κ × ν)
    (he : e ∈ l) :
    JSMap.get (l.foldl (fun acc e => JSMap.set acc e.1 (g e)) m) e.1 = some (g e) := by
  induction l generalizing m with
  | nil => simp at he
  | cons x l ih =>
    simp only [List.map_cons, List.nodup_cons] at hnd
    rw [List.foldl_cons]
    rcases List.mem_cons.mp he with h | h
    · subst h
      rw [get_foldl_set_of_not_mem g l _ _ hnd.1, JSMap.get_set, if_pos rfl]
    · exact ih hnd.2 _ h

theorem get_foldl_set_values {κ ν μ : Type} [DecidableEq κ] (g : κ × ν → μ)
    (l : List (κ × ν)) (m : JSMap κ μ) (k : κ) (v : μ)
    (h : JSMap.get (l.foldl (fun acc e => JSMap.set acc e.1 (g e)) m) k = some v) :
    (∃ e ∈ l, e.1 = k ∧ v = g e) ∨ JSMap.get m k = some v := by
  induction l generalizing m with
  | nil => exact Or.inr h
  | cons x l ih =>
    rw [List.foldl_cons] at h
    rcases ih _ h with ⟨e, he, hk, hv⟩ | h'
    · exact Or.inl ⟨e, List.mem_cons_of_mem _ he, hk, hv⟩
    · rw [JSMap.get_set] at h'
      split_ifs at h' with hx
      · exact Or.inl ⟨x, List.mem_cons_self _ _, hx, (Option.some.inj h').symm⟩
      · exact Or.inr h'

theorem min_one_mem_unit {α : Type} [LinearOrderedField α] (x : α) (hx : 0 ≤ x) :
    0 ≤ min 1 x ∧ min 1 x ≤ 1 :=
  ⟨le_min zero_le_one hx, min_le_left _ _⟩

/-- C26: for all non-negative raw counters (stored as objects, so with pairwise
distinct keys), `calculatePersonalizationScores` returns
categoryAffinity[c] = min(1, (viewCount*0.3 + (timeSpentMs/1000)*0.7) / 100)
for every category, brandLoyalty[b] = min(1, viewCount/10) for every brand,
priceSensitivity = min(1, totalPriceChecks / number of distinct products
viewed) (0 when no product was viewed) and
discoveryVsLoyalty = min(1, uniqueCategories / sqrt(totalProductViews))
(0 when there are no views); every one of these scores lies in [0, 1]. -/
theorem C26_personalization_scores (analytics : AnalyticsDoc ℝ)
    (hcat : (analytics.counters.productBehavior.productCategories.map (fun e => e.1)).Nodup)
    (hbrand : (analytics.counters.productBehavior.brands.map (fun e => e.1)).Nodup)
    (htime : ∀ e ∈ analytics.counters.productBehavior.productCategories, 0 ≤ e.2.timeSpent) :
    (∀ category data, (category, data) ∈ analytics.counters.productBehavior.productCategories →
      JSMap.get (calculatePersonalizationScores Real.sqrt analytics).categoryAffinity category
        = some (min 1 (((data.viewCount : ℝ) * 0.3 + ((data.timeSpent : ℝ) / 1000) * 0.7)
            / 100))) ∧
    (∀ brand data, (brand, data) ∈ analytics.counters.productBehavior.brands →
      JSMap.get (calculatePersonalizationScores Real.sqrt analytics).brandLoyalty brand
        = some (min 1 ((data.viewCount : ℝ) / 10))) ∧
    (calculatePersonalizationScores Real.sqrt analytics).priceSensitivity
      = some (if analytics.counters.productBehavior.viewedProducts.length = 0 then 0
          else min 1
            ((((analytics.counters.productBehavior.priceInteractions.map
                (fun e => e.2.priceChecks)).sum : Nat) : ℝ)
              / (analytics.counters.productBehavior.viewedProducts.length : ℝ))) ∧
    (calculatePersonalizationScores Real.sqrt analytics).discoveryVsLoyalty
      = some (if (analytics.counters.productBehavior.viewedProducts.map
            (fun e => e.2.viewCount)).sum = 0 then 0
          else min 1
            ((analytics.counters.productBehavior.productCategories.length : ℝ)
              / Real.sqrt (((analytics.counters.productBehavior.viewedProducts.map
                  (fun e => e.2.viewCount)).sum : Nat) : ℝ))) ∧
    (∀ category v,
      JSMap.get (calculatePersonalizationScores Real.sqrt analytics).categoryAffinity category
        = some v → 0 ≤ v ∧ v ≤ 1) ∧
    (∀ brand v,
      JSMap.get (calculatePersonalizationScores Real.sqrt analytics).brandLoyalty brand
        = some v → 0 ≤ v ∧ v ≤ 1) ∧
    (∀ v, (calculatePersonalizationScores Real.sqrt analytics).priceSensitivity = some v →
      0 ≤ v ∧ v ≤ 1) ∧
    (∀ v, (calculatePersonalizationScores Real.sqrt analytics).discoveryVsLoyalty = some v →
      0 ≤ v ∧ v ≤ 1) := by
  have hps : (calculatePersonalizationScores Real.sqrt analytics).priceSensitivity
      = some (if analytics.counters.productBehavior.viewedProducts.length = 0 then 0
          else min 1
            ((((analytics.counters.productBehavior.priceInteractions.map
                (fun e => e.2.priceChecks)).sum : Nat) : ℝ)
              / (analytics.counters.productBehavior.viewedProducts.length : ℝ))) := by
    unfold calculatePersonalizationScores
    dsimp only
    rw [foldl_add_eq_sum_nat (fun e : String × PriceInteraction => e.2.priceChecks), Nat.zero_add]
    by_cases h : analytics.counters.productBehavior.viewedProducts.length = 0
    · rw [if_pos h, if_neg (by omega)]
    · rw [if_neg h, if_pos (by omega)]
  have hdl : (calculatePersonalizationScores Real.sqrt analytics).discoveryVsLoyalty
      = some (if (analytics.counters.productBehavior.viewedProducts.map
            (fun e => e.2.viewCount)).sum = 0 then 0
          else min 1
            ((analytics.counters.productBehavior.productCategories.length : ℝ)
              / Real.sqrt (((analytics.counters.productBehavior.viewedProducts.map
                  (fun e => e.2.viewCount)).sum : Nat) : ℝ))) := by
    unfold calculatePersonalizationScores
    dsimp only
    rw [foldl_add_eq_sum_nat (fun e : String × ViewedProduct => e.2.viewCount), Nat.zero_add]
    by_cases h : (analytics.counters.productBehavior.viewedProducts.map
        (fun e => e.2.viewCount)).sum = 0
    · rw [if_pos h, if_neg (by omega)]
    · rw [if_neg h]
      by_cases hc : analytics.counters.productBehavior.productCategories.length = 0
      · rw [if_neg (by omega), hc]
        simp
      · rw [if_pos ⟨by omega, by omega⟩]
  refine ⟨?_, ?_, hps, hdl, ?_, ?_, ?_, ?_⟩
  · intro category data hmem
    exact get_foldl_set_of_mem
      (fun entry : String × CategoryStats =>
        min 1 (((entry.2.viewCount : ℝ) * 0.3 + ((entry.2.timeSpent : ℝ) / 1000) * 0.7) / 100))
      _ hcat [] (category, data) hmem
  · intro brand data hmem
    exact get_foldl_set_of_mem
      (fun entry : String × BrandStats => min 1 ((entry.2.viewCount : ℝ) / 10))
      _ hbrand [] (brand, data) hmem
  · intro category v hv
    rcases get_foldl_set_values
      (fun entry : String × CategoryStats =>
        min 1 (((entry.2.viewCount : ℝ) * 0.3 + ((entry.2.timeSpent : ℝ) / 1000) * 0.7) / 100))
      _ [] category v hv with ⟨e, he, _, rfl⟩ | h
    · apply min_one_mem_unit
      have ht : (0 : ℝ) ≤ (e.2.timeSpent : ℝ) := by exact_mod_cast htime e he
      have hv : (0 : ℝ) ≤ (e.2.viewCount : ℝ) := Nat.cast_nonneg _
      positivity
    · simp [JSMap.get] at h
  · intro brand v hv
    rcases get_foldl_set_values
      (fun entry : String × BrandStats => min 1 ((entry.2.viewCount : ℝ) / 10))
      _ [] brand v hv with ⟨e, he, _, rfl⟩ | h
    · apply min_one_mem_unit
      positivity
    · simp [JSMap.get] at h
  · intro v hv
    rw [hps] at hv
    have := Option.some.inj hv
    subst this
    split_ifs
    · norm_num
    · apply min_one_mem_unit
      positivity
  · intro v hv
    rw [hdl] at hv
    have := Option.some.inj hv
    subst this
    split_ifs
    · norm_num
    · apply min_one_mem_unit
      exact div_nonneg (Nat.cast_nonneg _) (Real.sqrt_nonneg _)

/-- C26, witness: for a category with 10 views and 20 seconds the affinity is
min(1, (10*0.3 + 20*0.7) / 100), and for a brand with 4 views the loyalty is
min(1, 4/10). -/
theorem C26_witness :
    (dairyDoc.counters.productBehavior.productCategories.map (fun e => e.1)).Nodup ∧
    (dairyDoc.counters.productBehavior.brands.map (fun e => e.1)).Nodup ∧
    (∀ e ∈ dairyDoc.counters.productBehavior.productCategories, 0 ≤ e.2.timeSpent) ∧
    JSMap.get (calculatePersonalizationScores Real.sqrt dairyDoc).categoryAffinity "dairy"
      = some (min 1 ((((10 : Nat) : ℝ) * 0.3 + (((20000 : ℚ) : ℝ) / 1000) * 0.7) / 100)) ∧
    JSMap.get (calculatePersonalizationScores Real.sqrt dairyDoc).brandLoyalty "amul"
      = some (min 1 (((4 : Nat) : ℝ) / 10)) :=
  have hcat : (dairyDoc.counters.productBehavior.productCategories.map
      (fun e => e.1)).Nodup := by decide
  have hbrand : (dairyDoc.counters.productBehavior.brands.map (fun e => e.1)).Nodup := by
    decide
  have htime : ∀ e ∈ dairyDoc.counters.productBehavior.productCategories,
      0 ≤ e.2.timeSpent := by
    intro e he
    have : e = ("dairy", { viewCount := 10, timeSpent := 20000 }) := by
      simpa [dairyDoc] using he
    rw [this]
    norm_num
  ⟨hcat, hbrand, htime,
    (C26_personalization_scores dairyDoc hcat hbrand htime).1 "dairy"
      { viewCount := 10, timeSpent := 20000 } (List.mem_singleton_self _),
    (C26_personalization_scores dairyDoc hcat hbrand htime).2.1 "amul" { viewCount := 4 }
      (List.mem_singleton_self _)⟩

/-! ## The privacy filter: failing lookups and the unfiltered query types -/

theorem fetchPrivacyMap_fails (store : UserStore) :
    ∀ (n : Nat) (userIds : List String), userIds.length ≤ n → ∀ (m : JSMap String Privacy),
      (∃ batch ∈ chunk10 userIds, store.lookupFails batch = true) →
      fetchPrivacyMap store userIds m = none := by
  intro n
  induction n with
  | zero =>
    intro userIds hlen m h
    have : userIds = [] := List.length_eq_zero.mp (Nat.le_zero.mp hlen)
    subst this
    rw [chunk10] at h
    simp at h
  | succ n ih =>
    intro userIds hlen m h
    cases userIds with
    | nil =>
      rw [chunk10] at h
      simp at h
    | cons id ids =>
      rw [chunk10] at h
      obtain ⟨batch, hb, hf⟩ := h
      rw [fetchPrivacyMap]
      by_cases hfirst : store.lookupFails ((id :: ids).take 10) = true
      · rw [if_pos hfirst]
      · rw [if_neg hfirst]
        have hlen' : (ids.drop 9).length ≤ n := by
          simp only [List.length_drop, List.length_cons] at hlen ⊢
          omega
        rcases List.mem_cons.mp hb with h1 | h1
        · rw [h1] at hf
          exact absurd hf hfirst
        · exact ih (ids.drop 9) hlen' _ ⟨batch, h1, hf⟩

/-- C27: the privacy filter fails open.  For every candidate list, query type
and requester, if the lookup of any batch of ten user ids fails,
`filterByPrivacySettings` returns the input list unchanged (same elements, same
order) instead of raising an error; it likewise returns the input unchanged
when the list is empty or contains only the requester. -/
theorem C27_privacy_filter_fails_open (store : UserStore) (results : List UserResult)
    (queryType : Option String) (currentUserId : String) :
    ((∃ batch ∈ chunk10 ((results.map (fun r => r.uid)).filter
          (fun id => decide (id ≠ "") && decide (id ≠ currentUserId))),
        store.lookupFails batch = true) →
      filterByPrivacySettings store results queryType currentUserId = results) ∧
    (results = [] → filterByPrivacySettings store results queryType currentUserId = results) ∧
    ((∀ r ∈ results, r.uid = currentUserId) →
      filterByPrivacySettings store results queryType currentUserId = results) := by
  refine ⟨?_, ?_, ?_⟩
  · intro h
    unfold filterByPrivacySettings
    dsimp only
    split_ifs
    · rfl
    · rfl
    · rw [fetchPrivacyMap_fails store _ _ (le_refl _) [] h]
  · intro h
    subst h
    rfl
  · intro h
    unfold filterByPrivacySettings
    dsimp only
    have hids : ((results.map (fun r => r.uid)).filter
        (fun id => decide (id ≠ "") && decide (id ≠ currentUserId))).length = 0 := by
      rw [List.length_eq_zero, List.filter_eq_nil_iff]
      intro id hid
      obtain ⟨r, hr, rfl⟩ := List.mem_map.mp hid
      simp [h r hr]
    rw [if_pos hids]
    split_ifs <;> rfl

/-- C27, witness: with a store whose lookups throw, the four candidates come
back unchanged. -/
theorem C27_witness :
    (∃ batch ∈ chunk10 ((sampleCandidates.map (fun r => r.uid)).filter
          (fun id => decide (id ≠ "") && decide (id ≠ "me"))),
        failingStore.lookupFails batch = true) ∧
    filterByPrivacySettings failingStore sampleCandidates (some "name") "me"
      = sampleCandidates :=
  have h : ∃ batch ∈ chunk10 ((sampleCandidates.map (fun r => r.uid)).filter
        (fun id => decide (id ≠ "") && decide (id ≠ "me"))),
      failingStore.lookupFails batch = true := by
    have hids : (sampleCandidates.map (fun r => r.uid)).filter
        (fun id => decide (id ≠ "") && decide (id ≠ "me")) = ["u1", "u2", "u3", "u4"] := by
      decide
    rw [hids, chunk10]
    exact ⟨_, List.mem_cons_self _ _, rfl⟩
  ⟨h, (C27_privacy_filter_fails_open failingStore sampleCandidates (some "name") "me").1 h⟩

/-- For an omitted or unrecognised query type the filter callback keeps every
candidate that is not fully private. -/
theorem privacyKeeps_unknown_type (m : JSMap String Privacy) (queryType : Option String)
    (hqt : ∀ t ∈ knownQueryTypes, queryType ≠ some t) (me : String) (r : UserResult) :
    privacyKeeps m queryType me r
      = (decide (r.uid = me) ||
          !decide (((JSMap.get m r.uid).getD {}).isFullyPrivate = some true)) := by
  have h1 : queryType ≠ some "name" := hqt "name" (by decide)
  have h2 : queryType ≠ some "partial" := hqt "partial" (by decide)
  have h3 : queryType ≠ some "email" := hqt "email" (by decide)
  have h4 : queryType ≠ some "phone" := hqt "phone" (by decide)
  have h5 : queryType ≠ some "mixed" := hqt "mixed" (by decide)
  unfold privacyKeeps
  dsimp only
  by_cases hme : r.uid = me
  · simp [hme]
  · by_cases hfp : ((JSMap.get m r.uid).getD {}).isFullyPrivate = some true
    · simp [hme, hfp]
    · simp [hme, hfp, h1, h2, h3, h4, h5]

theorem annaSearch_results : searchByNameOptimized [[annaDoc]] 30 = [annaDoc.toResult] := by
  decide

theorem annaSearch_untyped :
    advancedUserSearchV2 sampleStore (searchByNameOptimized [[annaDoc]] 30) "Anna" none 15 true
      "me" = [annaDoc.toResult] := by
  have hfilter : filterByPrivacySettings sampleStore [annaDoc.toResult] none "me"
      = [annaDoc.toResult] := by
    unfold filterByPrivacySettings
    obtain ⟨m', hm', hget⟩ := fetchPrivacyMap_spec sampleStore (fun _ => rfl) _
      (([annaDoc.toResult].map (fun r => r.uid)).filter
        (fun id => decide (id ≠ "") && decide (id ≠ "me"))) (le_refl _) []
    rw [if_neg (by decide), if_neg (by decide)]
    simp only [hm']
    rw [List.filter_eq_self]
    intro r hr
    rw [List.mem_singleton] at hr
    subst hr
    rw [privacyKeeps_unknown_type m' none (fun t _ => by simp) "me"]
    have hg : JSMap.get m' "u2" = some (privacyRecord sampleStore "u2") := by
      rw [hget "u2", if_pos ⟨by decide, by decide⟩]
    show (decide ("u2" = "me") ||
      !decide (((JSMap.get m' "u2").getD {}).isFullyPrivate = some true)) = true
    rw [hg]
    decide
  unfold advancedUserSearchV2 privacyStep
  rw [annaSearch_results, if_pos ⟨rfl, by decide⟩, hfilter]
  decide

theorem annaSearch_by_name :
    advancedUserSearchV2 sampleStore (searchByNameOptimized [[annaDoc]] 30) "Anna" (some "name")
      15 true "me" = [] := by
  unfold advancedUserSearchV2 privacyStep
  rw [annaSearch_results, if_pos ⟨rfl, by decide⟩,
    filterByPrivacySettings_eq_filter sampleStore (fun _ => rfl) rfl _ "name" "me" (by decide)]
  decide

/-- C28 fails in the code: the request for the query "Anna" without `queryType`
(a query longer than two characters) is executed as a name search (`searchByNameOptimized`, the default
of the handler's switch), but `filterByPrivacySettings` receives the same
missing `queryType` and its own default keeps every user who is not fully
private.  The user "u2", whose privacy settings have searchableByName = false,
is found by first name and returned to another user; the same request with
queryType 'name' does not return that user. -/
theorem C28_name_hidden_user_returned :
    selectedSearch "Anna" none false = SearchFunction.searchByNameOptimized ∧
    selectedSearch "Anna" (some "name") false = SearchFunction.searchByNameOptimized ∧
    (privacyRecord sampleStore "u2").searchableByName = some false ∧
    (∀ ids, sampleStore.lookupFails ids = false) ∧
    searchByNameOptimized [[annaDoc]] 30 = [annaDoc.toResult] ∧
    annaDoc.toResult.uid = "u2" ∧
    advancedUserSearchV2 sampleStore (searchByNameOptimized [[annaDoc]] 30) "Anna" none 15 true
      "me" = [annaDoc.toResult] ∧
    advancedUserSearchV2 sampleStore (searchByNameOptimized [[annaDoc]] 30) "Anna" (some "name")
      15 true "me" = [] :=
  ⟨by decide, by decide, by decide, fun _ => rfl, annaSearch_results, rfl, annaSearch_untyped,
    annaSearch_by_name⟩

/-! ## Session lengths are never recorded -/

theorem processEventForAnalytics_sessionLengths (catalog : String → Option ProductData)
    (clock : Clock) (analytics : ComprehensiveAnalytics) (eventData : EventData) :
    (processEventForAnalytics catalog clock analytics eventData).temporalPatterns.sessionLengths
      = analytics.temporalPatterns.sessionLengths := by
  unfold processEventForAnalytics
  dsimp only
  split_ifs <;> rfl

theorem shoppingPersonaOf_no_sessions {α : Type} [LinearOrderedField α]
    (analytics : AnalyticsDoc α)
    (h : analytics.counters.temporalPatterns.sessionLengths = []) :
    shoppingPersonaOf analytics ≠ "convenience_seeker" := by
  unfold shoppingPersonaOf
  dsimp only
  rw [h]
  split_ifs with h1 h2 h3 h4 <;> first | decide | simp at h4

theorem updateComprehensiveUserAnalytics_sessionLengths {α : Type} [LinearOrderedField α]
    (sqrt : α → α) (catalog : String → Option ProductData) (clock : Clock) (now : Int)
    (doc : AnalyticsDoc α) (eventData : EventData)
    (h : doc.counters.temporalPatterns.sessionLengths = []) :
    (updateComprehensiveUserAnalytics sqrt catalog clock now (some doc)
        eventData).counters.temporalPatterns.sessionLengths = [] ∧
    (updateComprehensiveUserAnalytics sqrt catalog clock now (some doc)
        eventData).userSegmentation.shoppingPersona ≠ "convenience_seeker" := by
  have hs : (processEventForAnalytics catalog clock doc.counters
      eventData).temporalPatterns.sessionLengths = [] := by
    rw [processEventForAnalytics_sessionLengths, h]
  refine ⟨hs, ?_⟩
  exact shoppingPersonaOf_no_sessions _ hs

theorem runAnalyticsEvents_sessionLengths {α : Type} [LinearOrderedField α] (sqrt : α → α)
    (catalog : String → Option ProductData) (events : List (Clock × Int × EventData))
    (stored : AnalyticsDoc α) (h : stored.counters.temporalPatterns.sessionLengths = [])
    (hp : stored.userSegmentation.shoppingPersona ≠ "convenience_seeker") :
    (runAnalyticsEvents sqrt catalog stored events).counters.temporalPatterns.sessionLengths
      = [] ∧
    (runAnalyticsEvents sqrt catalog stored events).userSegmentation.shoppingPersona
      ≠ "convenience_seeker" := by
  induction events generalizing stored with
  | nil => exact ⟨h, hp⟩
  | cons event events ih =>
    have hstep := updateComprehensiveUserAnalytics_sessionLengths sqrt catalog event.1
      event.2.1 stored event.2.2 h
    exact ih _ hstep.1 hstep.2

/-- C29: starting from the initial comprehensiveAnalytics structure, after any
finite sequence of behaviour events processed by
`updateComprehensiveUserAnalytics`, `temporalPatterns.sessionLengths` is still
empty and the stored shoppingPersona is not 'convenience_seeker'; the first
run on a user without stored analytics starts from the same initial
structure. -/
theorem C29_never_convenience_seeker {α : Type} [LinearOrderedField α] (sqrt : α → α)
    (catalog : String → Option ProductData) (events : List (Clock × Int × EventData)) :
    (runAnalyticsEvents sqrt catalog initialAnalyticsDoc
        events).counters.temporalPatterns.sessionLengths = [] ∧
    (runAnalyticsEvents sqrt catalog initialAnalyticsDoc
        events).userSegmentation.shoppingPersona ≠ "convenience_seeker" ∧
    (∀ (clock : Clock) (now : Int) (eventData : EventData),
      updateComprehensiveUserAnalytics sqrt catalog clock now none eventData
        = updateComprehensiveUserAnalytics sqrt catalog clock now
            (some (initialAnalyticsDoc : AnalyticsDoc α)) eventData) := by
  have h := runAnalyticsEvents_sessionLengths sqrt catalog events
    (initialAnalyticsDoc : AnalyticsDoc α) rfl
    (by
      show ("" : String) ≠ "convenience_seeker"
      decide)
  exact ⟨h.1, h.2, fun _ _ _ => rfl⟩

/-! ## The short-TTL cache key -/

theorem append_sep_inj (c : Char) : ∀ (a a' r r' : List Char), c ∉ a → c ∉ a' →
    (r = [] ∨ ∃ t, r = c :: t) → (r' = [] ∨ ∃ t, r' = c :: t) → a ++ r = a' ++ r' →
    a = a' ∧ r = r' := by
  intro a
  induction a with
  | nil =>
    intro a' r r' _ ha' hr hr' h
    cases a' with
    | nil => exact ⟨rfl, h⟩
    | cons x t =>
      exfalso
      rw [List.nil_append] at h
      rcases hr with hr | ⟨u, hr⟩
      · rw [hr] at h
        simp at h
      · rw [hr, List.cons_append] at h
        have hx : c = x := (List.cons.inj h).1
        exact ha' (hx ▸ List.mem_cons_self _ _)
  | cons x t ih =>
    intro a' r r' ha ha' hr hr' h
    cases a' with
    | nil =>
      exfalso
      rw [List.nil_append] at h
      rcases hr' with hr' | ⟨u, hr'⟩
      · rw [hr'] at h
        simp at h
      · rw [hr', List.cons_append] at h
        have hx : x = c := (List.cons.inj h).1
        exact ha (hx ▸ List.mem_cons_self _ _)
    | cons x' t' =>
      rw [List.cons_append, List.cons_append] at h
      have hh := List.cons.inj h
      have := ih t' r r' (fun hm => ha (List.mem_cons_of_mem _ hm))
        (fun hm => ha' (List.mem_cons_of_mem _ hm)) hr hr' hh.2
      exact ⟨by rw [hh.1, this.1], this.2⟩

theorem flatMap_sep_start (c : Char) (l : List (List Char)) :
    l.flatMap (fun x => c :: x) = [] ∨ ∃ t, l.flatMap (fun x => c :: x) = c :: t := by
  cases l with
  | nil => exact Or.inl rfl
  | cons x xs => exact Or.inr ⟨_, by rw [List.flatMap_cons, List.cons_append]⟩

theorem flatMap_sep_inj (c : Char) : ∀ (l l' : List (List Char)), (∀ x ∈ l, c ∉ x) →
    (∀ x ∈ l', c ∉ x) → l.flatMap (fun x => c :: x) = l'.flatMap (fun x => c :: x) →
    l = l' := by
  intro l
  induction l with
  | nil =>
    intro l' _ _ h
    cases l' with
    | nil => rfl
    | cons x xs => simp at h
  | cons x xs ih =>
    intro l' hl hl' h
    cases l' with
    | nil => simp at h
    | cons x' xs' =>
      rw [List.flatMap_cons, List.flatMap_cons, List.cons_append, List.cons_append] at h
      have h2 := (List.cons.inj h).2
      have := append_sep_inj c x x' _ _ (hl x (List.mem_cons_self _ _))
        (hl' x' (List.mem_cons_self _ _)) (flatMap_sep_start c xs) (flatMap_sep_start c xs') h2
      rw [this.1, ih xs' (fun y hy => hl y (List.mem_cons_of_mem _ hy))
        (fun y hy => hl' y (List.mem_cons_of_mem _ hy)) this.2]

/-- The characters of a joined list of strings, by the loop of `String.intercalate`. -/
theorem intercalate_go_toList (s : String) (l : List String) (acc : String) :
    (String.intercalate.go acc s l).toList
      = acc.toList ++ l.flatMap (fun x => s.toList ++ x.toList) := by
  induction l generalizing acc with
  | nil => simp [String.intercalate.go]
  | cons a as ih =>
    rw [String.intercalate.go, ih]
    simp [List.flatMap_cons, List.append_assoc]

theorem intercalate_comma_toList (l : List String) :
    (",".intercalate l).toList
      = match l with
        | [] => []
        | a :: as => a.toList ++ (as.map String.toList).flatMap (fun x => ',' :: x) := by
  cases l with
  | nil => rfl
  | cons a as =>
    rw [String.intercalate, intercalate_go_toList]
    congr 1
    induction as with
    | nil => rfl
    | cons b bs ih =>
      rw [List.flatMap_cons, List.map_cons, List.flatMap_cons, ih]
      rfl

theorem intercalate_comma_inj (l l' : List String) (hl : ∀ s ∈ l, s ≠ "" ∧ ',' ∉ s.toList)
    (hl' : ∀ s ∈ l', s ≠ "" ∧ ',' ∉ s.toList)
    (h : ",".intercalate l = ",".intercalate l') : l = l' := by
  have hne : ∀ s : String, s ≠ "" → s.toList ≠ [] := fun s hs hnil => hs (String.ext hnil)
  have hc := congrArg String.toList h
  rw [intercalate_comma_toList, intercalate_comma_toList] at hc
  cases l with
  | nil =>
    cases l' with
    | nil => rfl
    | cons a' as' =>
      exfalso
      have := hne a' (hl' a' (List.mem_cons_self _ _)).1
      cases ha : a'.toList with
      | nil => exact this ha
      | cons x t =>
        dsimp only at hc
        rw [ha] at hc
        simp at hc
  | cons a as =>
    cases l' with
    | nil =>
      exfalso
      have := hne a (hl a (List.mem_cons_self _ _)).1
      cases ha : a.toList with
      | nil => exact this ha
      | cons x t =>
        dsimp only at hc
        rw [ha] at hc
        simp at hc
    | cons a' as' =>
      dsimp only at hc
      have hsplit := append_sep_inj ',' a.toList a'.toList _ _
        (hl a (List.mem_cons_self _ _)).2 (hl' a' (List.mem_cons_self _ _)).2
        (flatMap_sep_start ',' _) (flatMap_sep_start ',' _) hc
      have hrest := flatMap_sep_inj ',' (as.map String.toList) (as'.map String.toList)
        (fun x hx => by
          obtain ⟨s, hs, rfl⟩ := List.mem_map.mp hx
          exact (hl s (List.mem_cons_of_mem _ hs)).2)
        (fun x hx => by
          obtain ⟨s, hs, rfl⟩ := List.mem_map.mp hx
          exact (hl' s (List.mem_cons_of_mem _ hs)).2)
        hsplit.2
      have htl : Function.Injective String.toList := fun s t hst => String.ext hst
      rw [String.ext hsplit.1, List.map_injective_iff.mpr htl hrest]

/-- The decimal digit character of `k` has the value `k`. -/
theorem digitChar_toNat (k : Nat) (hk : k < 10) : (Nat.digitChar k).toNat - 48 = k := by
  interval_cases k <;> rfl

theorem toDigitsCore_value (fuel : Nat) : ∀ (n : Nat) (ds : List Char), n < fuel →
    (Nat.toDigitsCore 10 fuel n ds).foldl (fun acc c => 10 * acc + (c.toNat - 48)) 0
      = ds.foldl (fun acc c => 10 * acc + (c.toNat - 48)) n := by
  induction fuel with
  | zero => intro n ds h; omega
  | succ fuel ih =>
    intro n ds h
    rw [Nat.toDigitsCore]
    by_cases h0 : n / 10 = 0
    · rw [if_pos h0, List.foldl_cons, digitChar_toNat _ (Nat.mod_lt _ (by omega))]
      congr 1
      omega
    · rw [if_neg h0, ih (n / 10) _ (by omega), List.foldl_cons,
        digitChar_toNat _ (Nat.mod_lt _ (by omega))]
      congr 1
      omega

theorem repr_injective (n m : Nat) (h : Nat.repr n = Nat.repr m) : n = m := by
  have hd : Nat.toDigits 10 n = Nat.toDigits 10 m := by
    have := congrArg String.toList h
    exact this
  have hv := congrArg (List.foldl (fun acc c => 10 * acc + (c.toNat - 48)) 0) hd
  unfold Nat.toDigits at hv
  rw [toDigitsCore_value _ n [] (Nat.lt_succ_self n),
    toDigitsCore_value _ m [] (Nat.lt_succ_self m)] at hv
  exact hv

theorem sortStrings_eq_iff_perm (l l' : List String) :
    sortStrings l = sortStrings l' ↔ l.Perm l' := by
  haveI : IsAntisymm String (fun a b => a.toList ≤ b.toList) :=
    ⟨fun a b h1 h2 => String.ext (le_antisymm h1 h2)⟩
  haveI : IsTotal String (fun a b => a.toList ≤ b.toList) :=
    ⟨fun a b => le_total a.toList b.toList⟩
  haveI : IsTrans String (fun a b => a.toList ≤ b.toList) :=
    ⟨fun a b c h1 h2 => le_trans h1 h2⟩
  unfold sortStrings
  constructor
  · intro h
    have h1 := (List.perm_insertionSort (fun a b : String => a.toList ≤ b.toList) l).symm
    rw [h] at h1
    exact h1.trans (List.perm_insertionSort _ l')
  · intro h
    exact List.eq_of_perm_of_sorted
      (((List.perm_insertionSort _ l).trans h).trans (List.perm_insertionSort _ l').symm)
      (List.sorted_insertionSort _ l) (List.sorted_insertionSort _ l')

theorem toLower_eq_pipe (c : Char) (h : Char.toLower c = '|') : c = '|' := by
  unfold Char.toLower at h
  dsimp only at h
  split_ifs at h with hr
  · exfalso
    have h1 := hr.1
    have h2 := hr.2
    generalize c.toNat = n at h h1 h2
    interval_cases n <;> exact absurd h (by decide)
  · exact h

theorem mem_trim (s : List Char) (c : Char) (h : c ∈ trim s) : c ∈ s := by
  unfold trim at h
  rw [List.mem_reverse] at h
  have h1 := (List.dropWhile_sublist _).subset h
  rw [List.mem_reverse] at h1
  exact (List.dropWhile_sublist _).subset h1

theorem pipe_not_mem_normalized (query : String) (h : '|' ∉ query.toList) :
    '|' ∉ toLowerCase (trim query.toList) := by
  intro hm
  unfold toLowerCase at hm
  obtain ⟨c, hc, hl⟩ := List.mem_map.mp hm
  rw [toLower_eq_pipe c hl] at hc
  exact h (mem_trim _ _ hc)

theorem storesFilterOf_ne_empty (filters : SearchFilters) (s : String)
    (h : s ∈ storesFilterOf filters) : s ≠ "" := by
  unfold storesFilterOf at h
  cases hst : filters.stores with
  | none =>
    rw [hst] at h
    simp at h
  | some stores =>
    rw [hst] at h
    have := (List.mem_filter.mp h).2
    intro hs
    rw [hs] at this
    revert this
    decide

theorem cacheKeyOf_toList (normalizedQuery : String) (filters : SearchFilters)
    (sortedStores : List String) (limit : Nat) :
    (cacheKeyOf normalizedQuery filters sortedStores limit).toList
      = toLowerCase normalizedQuery.toList ++ '|' :: ((strOr filters.category "").toList
          ++ '|' :: ((",".intercalate sortedStores).toList
            ++ '|' :: (Nat.repr limit).toList)) := by
  unfold cacheKeyOf
  simp only [String.toList, String.data_append, List.append_assoc]
  rfl

theorem pipe_not_mem_intercalate (l : List String) (h : ∀ s ∈ l, '|' ∉ s.toList) :
    '|' ∉ (",".intercalate l).toList := by
  rw [intercalate_comma_toList]
  cases l with
  | nil => simp
  | cons a as =>
    dsimp only
    rw [List.mem_append, List.mem_flatMap]
    rintro (hm | ⟨x, hx, hm⟩)
    · exact h a (List.mem_cons_self _ _) hm
    · obtain ⟨s, hs, rfl⟩ := List.mem_map.mp hx
      rcases List.mem_cons.mp hm with h1 | h1
      · exact absurd h1 (by decide)
      · exact h s (List.mem_cons_of_mem _ hs) h1

theorem mem_sortStrings (l : List String) (s : String) (h : s ∈ sortStrings l) : s ∈ l :=
  (List.perm_insertionSort _ l).subset h

theorem requestCacheKey_components (r₁ r₂ : SearchRequest) (h₁ : SeparatorFree r₁)
    (h₂ : SeparatorFree r₂) (h : requestCacheKey r₁ = requestCacheKey r₂) :
    toLowerCase (trim r₁.query.toList) = toLowerCase (trim r₂.query.toList) ∧
    strOr r₁.filters.category "" = strOr r₂.filters.category "" ∧
    (storesFilterOf r₁.filters).Perm (storesFilterOf r₂.filters) ∧
    r₁.limit = r₂.limit := by
  have hc := congrArg String.toList h
  unfold requestCacheKey at hc
  rw [cacheKeyOf_toList, cacheKeyOf_toList] at hc
  have step1 := append_sep_inj '|' (toLowerCase (trim r₁.query.toList))
    (toLowerCase (trim r₂.query.toList)) _ _ (pipe_not_mem_normalized _ h₁.1)
    (pipe_not_mem_normalized _ h₂.1) (Or.inr ⟨_, rfl⟩) (Or.inr ⟨_, rfl⟩) hc
  have step2 := append_sep_inj '|' _ _ _ _ h₁.2.1 h₂.2.1 (Or.inr ⟨_, rfl⟩) (Or.inr ⟨_, rfl⟩)
    (List.cons.inj step1.2).2
  have step3 := append_sep_inj '|' _ _ _ _
    (pipe_not_mem_intercalate _ (fun s hs => (h₁.2.2 s (mem_sortStrings _ s hs)).1))
    (pipe_not_mem_intercalate _ (fun s hs => (h₂.2.2 s (mem_sortStrings _ s hs)).1))
    (Or.inr ⟨_, rfl⟩) (Or.inr ⟨_, rfl⟩) (List.cons.inj step2.2).2
  refine ⟨step1.1, String.ext step2.1, ?_, ?_⟩
  · rw [← sortStrings_eq_iff_perm]
    exact intercalate_comma_inj _ _
      (fun s hs => ⟨storesFilterOf_ne_empty _ s (mem_sortStrings _ s hs),
        (h₁.2.2 s (mem_sortStrings _ s hs)).2⟩)
      (fun s hs => ⟨storesFilterOf_ne_empty _ s (mem_sortStrings _ s hs),
        (h₂.2.2 s (mem_sortStrings _ s hs)).2⟩)
      (String.ext step3.1)
  · exact repr_injective _ _ (String.ext (List.cons.inj step3.2).2)

theorem requestCacheKey_of_components (r₁ r₂ : SearchRequest)
    (hq : toLowerCase (trim r₁.query.toList) = toLowerCase (trim r₂.query.toList))
    (hcat : strOr r₁.filters.category "" = strOr r₂.filters.category "")
    (hstores : (storesFilterOf r₁.filters).Perm (storesFilterOf r₂.filters))
    (hlimit : r₁.limit = r₂.limit) : requestCacheKey r₁ = requestCacheKey r₂ := by
  unfold requestCacheKey cacheKeyOf
  have hq' : String.mk (toLowerCase (String.mk (trim r₁.query.toList)).toList)
      = String.mk (toLowerCase (String.mk (trim r₂.query.toList)).toList) :=
    congrArg String.mk hq
  rw [hq', hcat, (sortStrings_eq_iff_perm _ _).mpr hstores, hlimit]

theorem pipe_score :
    calculateSearchScore { id := "p", name := some "a|b" } "a|b" = 1 := by
  have hw : queryWords "a|b" = ["a|b".toList] := by decide
  rw [calculateSearchScore_eq_specAverage, hw, if_neg (by decide)]
  simp only [specAverageScore, specWordScore, List.map, List.sum_cons, List.sum_nil]
  rw [fieldWeight_hit 1 (some "a|b") "a|b".toList (by decide),
    fieldWeight_miss (8 / 10) (brandOf { id := "p", name := some "a|b" }) "a|b".toList
      (by decide),
    fieldWeight_miss (6 / 10) none "a|b".toList (by decide),
    fieldWeight_miss (5 / 10) none "a|b".toList (by decide),
    fieldWeight_miss (3 / 10) none "a|b".toList (by decide)]
  norm_num

theorem pipe_freshSearch_results :
    (freshSearch pipeCatalog [] "a|b" {} [] 20).results
      = [{ product := { id := "p", name := some "a|b" }, searchScore := 1 }] := by
  have hscore : scoreProducts pipeCatalog "a|b"
      = [{ product := { id := "p", name := some "a|b" }, searchScore := 1 }] := by
    simp only [scoreProducts, pipeCatalog, List.filterMap_cons, List.filterMap_nil, pipe_score]
    norm_num
  have hfetch : fetchProducts pipeCatalog none 20 = pipeCatalog := by decide
  unfold freshSearch
  simp only [hfetch, hscore]
  simp [List.insertionSort, List.orderedInsert, previewAllStores_nil]

/-- C30, as stated, fails: the request for the query "a|b" without filters and
the request for the query "a" in the category "b|" get the same short-TTL cache
key, and so do the requests with the store filters ["s1,s2"] and ["s1", "s2"].
Run one second after the first request, the second one is answered from the
short-TTL cache with the product found for "a|b", where its own computation
finds nothing. -/
theorem C30_counterexample :
    requestCacheKey pipeRequestA = requestCacheKey pipeRequestB ∧
    toLowerCase (trim pipeRequestA.query.toList)
      ≠ toLowerCase (trim pipeRequestB.query.toList) ∧
    requestCacheKey commaRequestA = requestCacheKey commaRequestB ∧
    ¬ (storesFilterOf commaRequestA.filters).Perm (storesFilterOf commaRequestB.filters) ∧
    (runSearches pipeCatalog [] {} pipeRequests).1.map (fun p => p.metadata.cache)
      = [CacheTag.absent, CacheTag.shortTtl] ∧
    (runSearches pipeCatalog [] {} pipeRequests).1.map (fun p => p.results)
      = [[{ product := { id := "p", name := some "a|b" }, searchScore := 1 }],
         [{ product := { id := "p", name := some "a|b" }, searchScore := 1 }]] ∧
    (fastProductSearchV2 pipeCatalog [] 1000 {} pipeRequestB).1.results = [] := by
  have hrun : (runSearches pipeCatalog [] {} pipeRequests).1.map (fun p => p.results)
      = [(freshSearch pipeCatalog [] "a|b" {} [] 20).results,
         (freshSearch pipeCatalog [] "a|b" {} [] 20).results] := by rfl
  refine ⟨by decide, by decide, by decide, ?_, by decide, ?_, by rfl⟩
  · intro hp
    have := hp.length_eq
    revert this
    decide
  · rw [hrun, pipe_freshSearch_results]

/-- C30, amended: for requests whose query and category contain no `|` and
whose store filters contain neither `|` nor a comma, the short-TTL cache key
built by `fastProductSearchV2` is injective: two requests with the same key
have the same lowercased normalized query, the same category filter, the same
store filters up to order and the same limit.  Conversely, for all requests,
two requests that agree on these four (in particular two requests that differ
only in the order of the store filters) produce the same key. -/
theorem C30_cache_key_injective (r₁ r₂ : SearchRequest) :
    (SeparatorFree r₁ → SeparatorFree r₂ → requestCacheKey r₁ = requestCacheKey r₂ →
      toLowerCase (trim r₁.query.toList) = toLowerCase (trim r₂.query.toList) ∧
      strOr r₁.filters.category "" = strOr r₂.filters.category "" ∧
      (storesFilterOf r₁.filters).Perm (storesFilterOf r₂.filters) ∧
      r₁.limit = r₂.limit) ∧
    (toLowerCase (trim r₁.query.toList) = toLowerCase (trim r₂.query.toList) →
      strOr r₁.filters.category "" = strOr r₂.filters.category "" →
      (storesFilterOf r₁.filters).Perm (storesFilterOf r₂.filters) →
      r₁.limit = r₂.limit → requestCacheKey r₁ = requestCacheKey r₂) :=
  ⟨requestCacheKey_components r₁ r₂, requestCacheKey_of_components r₁ r₂⟩

/-- C30, witness: the requests for "Milk" in the stores s2, s1 and for "milk"
in the stores s1, s2 have the same key, and requests with that key agree on
query, category, stores and limit. -/
theorem C30_witness :
    SeparatorFree storesRequestA ∧ SeparatorFree storesRequestB ∧
    requestCacheKey storesRequestA = requestCacheKey storesRequestB ∧
    (storesFilterOf storesRequestA.filters).Perm (storesFilterOf storesRequestB.filters) ∧
    storesRequestA.limit = storesRequestB.limit :=
  have hkey : requestCacheKey storesRequestA = requestCacheKey storesRequestB :=
    (C30_cache_key_injective storesRequestA storesRequestB).2 (by decide) (by decide)
      (List.Perm.swap _ _ _) rfl
  ⟨by decide, by decide, hkey,
    ((C30_cache_key_injective storesRequestA storesRequestB).1 (by decide) (by decide)
      hkey).2.2.1,
    ((C30_cache_key_injective storesRequestA storesRequestB).1 (by decide) (by decide)
      hkey).2.2.2⟩

end Shopple
